import Mathlib

/-!
# NFL scores client: response mapper, API client and score service

A shallow embedding of the Go packages `models`, `client` and `service`.

* Go strings are Lean strings; `len(s)` is the UTF-8 byte size.
* Go slices that the code allocates or returns are `Slice` values, which keep
  the difference between the nil slice and an allocated empty slice.  Slices
  that only arrive inside a decoded payload are plain lists: the code only
  ranges over them, indexes them and takes their length.
* A Go `(value, error)` result is an `Except String _` when the value is a
  pointer that is nil exactly when the error is set, with the error's message
  as the string.
* Functions of the Go standard library that the code calls are modelled here
  (`strconv.Atoi`, `regexp`) or taken as parameters (`time.Parse`, the HTTP
  transport, the JSON decoder).
-/

set_option autoImplicit false

/-! ## Go slices -/

/-- A Go slice as the code can observe it: the nil slice, or an allocated
slice with its elements. -/
inductive Slice (α : Type) where
  | null : Slice α
  | alloc (elems : List α) : Slice α
deriving DecidableEq, Repr

namespace Slice

variable {α : Type}

/-- The elements of a slice, as `range` visits them. -/
def toList : Slice α → List α
  | null => []
  | alloc xs => xs

/-- Go's `len`. -/
def len (s : Slice α) : Nat := s.toList.length

/-- Go's `s == nil`. -/
def isNil : Slice α → Bool
  | null => true
  | alloc _ => false

/-- Go's `make([]T, 0)` (also `make([]T, 0, cap)`). -/
def make0 : Slice α := alloc []

/-- Go's `append(s, x)`: the result is never nil. -/
def append (s : Slice α) (x : α) : Slice α := alloc (s.toList ++ [x])

end Slice

/-! ## `time` -/

/-- Go's `time.Time`, reduced to the instant it denotes: nanoseconds since the
zero Time (January 1, year 1, 00:00:00 UTC). -/
structure Time where
  sinceZero : Int
deriving DecidableEq, Repr

/-- The zero value of `time.Time`. -/
def Time.zero : Time := ⟨0⟩

/-! ## Go strings as bytes -/

/-- The UTF-8 encoding of one character, as byte values. -/
def utf8Bytes (c : Char) : List Nat :=
  let v := c.toNat
  if v < 0x80 then [v]
  else if v < 0x800 then [0xC0 + v / 64, 0x80 + v % 64]
  else if v < 0x10000 then [0xE0 + v / 4096, 0x80 + (v / 64) % 64, 0x80 + v % 64]
  else [0xF0 + v / 262144, 0x80 + (v / 4096) % 64, 0x80 + (v / 64) % 64, 0x80 + v % 64]

/-- The bytes of a Go string: what `s[i]`, `len(s)` and `[]byte(s)` see. -/
def goBytes (s : String) : List Nat := s.data.flatMap utf8Bytes

/-! ## `strconv.Atoi` -/

namespace strconv

/-- The two errors `strconv` reports (`ErrSyntax`, `ErrRange`). -/
inductive NumError where
  | ErrSyntax
  | ErrRange
deriving DecidableEq, Repr

/-- Width of Go's `int` (`strconv.IntSize`) on the 64-bit targets. -/
def intSize : Nat := 64

/-- Go's `lower(c)` of `strconv`: `c | ('x' - 'X')`. -/
def lower (c : Nat) : Nat := c ||| 0x20

/-- The digit loop of `ParseUint(s, 10, bitSize)`: `n` is the value read so
far.  A byte that is no digit of base 10 ends the loop with a syntax error and
value 0; an overflow of `maxVal` ends it with a range error and value `maxVal`,
without looking at the bytes that follow. -/
def parseUintLoop (maxVal cutoff : Nat) : List Nat → Nat → Nat × Option NumError
  | [], n => (n, none)
  | c :: cs, n =>
    let d? : Option Nat :=
      if 48 ≤ c ∧ c ≤ 57 then some (c - 48)
      else if 97 ≤ lower c ∧ lower c ≤ 122 then some (lower c - 97 + 10)
      else none
    match d? with
    | none => (0, some .ErrSyntax)
    | some d =>
      if d ≥ 10 then (0, some .ErrSyntax)
      else if n ≥ cutoff then (maxVal, some .ErrRange)
      else
        let n10 := (n * 10) % 2 ^ 64
        let n1 := (n10 + d) % 2 ^ 64
        if n1 < n10 ∨ n1 > maxVal then (maxVal, some .ErrRange)
        else parseUintLoop maxVal cutoff cs n1

/-- Go's `ParseUint(s, 10, bitSize)` for `0 < bitSize ≤ 64`. -/
def ParseUint (s : List Nat) (bitSize : Nat) : Nat × Option NumError :=
  if s = [] then (0, some .ErrSyntax)
  else
    let cutoff := (2 ^ 64 - 1) / 10 + 1
    let maxVal := 2 ^ bitSize - 1
    parseUintLoop maxVal cutoff s 0

/-- Go's `ParseInt(s, 10, 0)`, with `bitSize` already replaced by `IntSize`. -/
def ParseInt (s : List Nat) (bitSize : Nat) : Int × Option NumError :=
  match s with
  | [] => (0, some .ErrSyntax)
  | c0 :: rest =>
    let neg : Bool := c0 = 45
    let body := if c0 = 43 then rest else if c0 = 45 then rest else s
    let (un, err) := ParseUint body bitSize
    if err = some .ErrSyntax then (0, err)
    else
      let cutoff : Nat := 2 ^ (bitSize - 1)
      if !neg ∧ un ≥ cutoff then ((cutoff : Int) - 1, some .ErrRange)
      else if neg ∧ un > cutoff then (-(cutoff : Int), some .ErrRange)
      else (if neg then -(un : Int) else (un : Int), none)

/-- The digit loop of the fast path of `Atoi`: `none` is the syntax error.
`ch -= '0'` is a byte subtraction, so it wraps below `'0'`. -/
def atoiFastLoop : List Nat → Nat → Option Nat
  | [], n => some n
  | ch :: cs, n =>
    let ch := (ch + 256 - 48) % 256
    if ch > 9 then none else atoiFastLoop cs (n * 10 + ch)

/-- Go's `strconv.Atoi` on the bytes of its argument: the value and the error
(`none` is a nil error).  45 is `'-'`, 43 is `'+'`. -/
def atoiBytes (s : List Nat) : Int × Option NumError :=
  let sLen := s.length
  if (intSize = 32 ∧ (0 < sLen ∧ sLen < 10)) ∨ (intSize = 64 ∧ (0 < sLen ∧ sLen < 19)) then
    match s with
    | [] => (0, some .ErrSyntax)
    | c0 :: rest =>
      let body := if c0 = 45 ∨ c0 = 43 then rest else c0 :: rest
      if (c0 = 45 ∨ c0 = 43) ∧ body.length < 1 then (0, some .ErrSyntax)
      else
        match atoiFastLoop body 0 with
        | none => (0, some .ErrSyntax)
        | some n => (if c0 = 45 then -(n : Int) else (n : Int), none)
  else
    ParseInt s intSize

/-- Go's `strconv.Atoi`. -/
def Atoi (s : String) : Int × Option NumError := atoiBytes (goBytes s)

/-! ### Vocabulary for statements about `Atoi` -/

/-- Whether a byte is an ASCII digit. -/
def isDigitByte (b : Nat) : Bool := decide (48 ≤ b) && decide (b ≤ 57)

/-- The bytes of a numeral after its optional leading sign (`'+'` is 43, `'-'`
is 45). -/
def unsigned : List Nat → List Nat
  | [] => []
  | c0 :: rest => if c0 = 43 ∨ c0 = 45 then rest else c0 :: rest

/-- Whether the bytes are written as a decimal integer: an optional sign, then
one or more ASCII digits and nothing else. -/
def isIntegerSyntax (s : List Nat) : Bool :=
  !(unsigned s).isEmpty && (unsigned s).all isDigitByte

/-- The decimal value of a run of digit bytes read after the value `n`. -/
def digitsValue (n : Nat) (ds : List Nat) : Nat :=
  ds.foldl (fun a b => a * 10 + (b - 48)) n

/-- The decimal value of the digits that lead the bytes, after the optional
sign and up to the first byte that is no digit. -/
def leadingValue (s : List Nat) : Nat :=
  digitsValue 0 ((unsigned s).takeWhile isDigitByte)

end strconv

/-! ## Package `models`: the domain model -/

namespace models

/-- The Go enumeration `GameStatus` (`iota` order). -/
inductive GameStatus where
  | StatusScheduled
  | StatusInProgress
  | StatusFinal
deriving DecidableEq, Repr

open GameStatus

structure Team where
  Name : String := ""
  Abbreviation : String := ""
  Score : Int := 0
deriving DecidableEq, Repr

structure Game where
  ID : String := ""
  HomeTeam : Team := {}
  AwayTeam : Team := {}
  Status : GameStatus := StatusScheduled
  StatusText : String := ""
  StartTime : Time := Time.zero
deriving DecidableEq, Repr

/-! ### The scoreboard payload -/

structure StatusType where
  ID : String := ""
  Name : String := ""
  State : String := ""
  Completed : Bool := false
  ShortDetail : String := ""
deriving DecidableEq, Repr

structure EventStatus where
  Type_ : StatusType := {}
deriving DecidableEq, Repr

structure TeamInfo where
  DisplayName : String := ""
  Abbreviation : String := ""
deriving DecidableEq, Repr

structure Competitor where
  HomeAway : String := ""
  Team : TeamInfo := {}
  Score : String := ""
deriving DecidableEq, Repr

structure Competition where
  Competitors : List Competitor := []
deriving DecidableEq, Repr

structure Event where
  ID : String := ""
  Name : String := ""
  Date : String := ""
  Status : EventStatus := {}
  Competitions : List Competition := []
deriving DecidableEq, Repr

structure ScoreboardResponse where
  Events : List Event := []
deriving DecidableEq, Repr

/-- Go's `mapStatus`. -/
def mapStatus (state : String) : GameStatus :=
  if state = "in" then StatusInProgress
  else if state = "post" then StatusFinal
  else StatusScheduled

/-- The body of the competitor loop of `ToGames`: build the Team, store it in
the home or the away slot. -/
def setCompetitor (game : Game) (comp : Competitor) : Game :=
  let score := (strconv.Atoi comp.Score).1
  let team : Team :=
    { Name := comp.Team.DisplayName, Abbreviation := comp.Team.Abbreviation, Score := score }
  if comp.HomeAway = "home" then { game with HomeTeam := team }
  else { game with AwayTeam := team }

/-- The body of the event loop of `ToGames` for an event whose first
competition is `comp0`. -/
def eventGame (parseRFC3339 : String → Option Time) (event : Event) (comp0 : Competition) :
    Game :=
  let game : Game :=
    { ID := event.ID
      StatusText := event.Status.Type_.ShortDetail
      Status := mapStatus event.Status.Type_.State }
  let game :=
    match parseRFC3339 event.Date with
    | some t => { game with StartTime := t }
    | none => game
  comp0.Competitors.foldl setCompetitor game

/-- Go's `ScoreboardResponse.ToGames`; `parseRFC3339 s` is
`time.Parse(time.RFC3339, s)`, `none` when it returns an error. -/
def ScoreboardResponse.ToGames (r : ScoreboardResponse)
    (parseRFC3339 : String → Option Time) : Slice Game :=
  r.Events.foldl
    (fun games event =>
      match event.Competitions with
      | [] => games
      | comp0 :: _ => games.append (eventGame parseRFC3339 event comp0))
    Slice.make0

/-! ### Plays, summaries, replays and statistics -/

structure Play where
  ID : String := ""
  Text : String := ""
  Type_ : String := ""
  Clock : String := ""
  Period : Int := 0
  HomeScore : Int := 0
  AwayScore : Int := 0
  ScoringPlay : Bool := false
  Down : String := ""
  Possession : String := ""
  YardsToEndzone : Int := 0
deriving DecidableEq, Repr

/-- Go's `GameSummary`; `CurrentPlay` is the pointer `*Play`, `none` when nil. -/
structure GameSummary where
  Game : Game := {}
  CurrentPlay : Option Play := none
  RecentPlays : Slice Play := Slice.null
  Situation : String := ""
  YardsToEndzone : Int := 0
deriving DecidableEq, Repr

structure ReplayPlay where
  ID : String := ""
  Text : String := ""
  Type_ : String := ""
  Clock : String := ""
  Period : Int := 0
  HomeScore : Int := 0
  AwayScore : Int := 0
  ScoringPlay : Bool := false
  Possession : String := ""
  YardsToEndzone : Int := 0
  Down : String := ""
  DriveID : String := ""
deriving DecidableEq, Repr

structure ReplayDrive where
  ID : String := ""
  Description : String := ""
  Team : String := ""
  StartIndex : Int := 0
  EndIndex : Int := 0
deriving DecidableEq, Repr

structure GameReplay where
  Game : Game := {}
  Plays : Slice ReplayPlay := Slice.null
  Drives : Slice ReplayDrive := Slice.null
deriving DecidableEq, Repr

/-- A Go `map[string]string` that has been allocated: its entries, one per
key. -/
abbrev StringMap := List (String × String)

/-- Go's `make(map[string]string)`. -/
def StringMap.make : StringMap := []

/-- Go's `m[k] = v`. -/
def StringMap.set (m : StringMap) (k v : String) : StringMap :=
  if m.any (fun e => e.1 = k) then m.map (fun e => if e.1 = k then (k, v) else e)
  else m ++ [(k, v)]

/-- Go's `v, ok := m[k]`. -/
def StringMap.get? (m : StringMap) (k : String) : Option String := m.lookup k

structure PlayerStatLine where
  Name : String := ""
  Position : String := ""
  Stats : List String := []
deriving DecidableEq, Repr

structure PlayerStatCategory where
  Category : String := ""
  Labels : List String := []
  Players : Slice PlayerStatLine := Slice.null
deriving DecidableEq, Repr

structure TeamStats where
  TeamName : String := ""
  TeamAbbr : String := ""
  Totals : StringMap := []
  PlayerStats : Slice PlayerStatCategory := Slice.null
deriving DecidableEq, Repr

structure GameStats where
  Game : Game := {}
  HomeStats : TeamStats := {}
  AwayStats : TeamStats := {}
deriving DecidableEq, Repr

/-! ### The summary payload -/

structure SummaryStatusType where
  ID : String := ""
  Name : String := ""
  State : String := ""
  Completed : Bool := false
  ShortDetail : String := ""
deriving DecidableEq, Repr

structure SummaryStatus where
  Type_ : SummaryStatusType := {}
deriving DecidableEq, Repr

structure SummaryTeamInfo where
  ID : String := ""
  DisplayName : String := ""
  Abbreviation : String := ""
deriving DecidableEq, Repr

structure SummaryCompetitor where
  ID : String := ""
  HomeAway : String := ""
  Score : String := ""
  Team : SummaryTeamInfo := {}
deriving DecidableEq, Repr

structure SummaryCompetition where
  ID : String := ""
  Date : String := ""
  Status : SummaryStatus := {}
  Competitors : List SummaryCompetitor := []
deriving DecidableEq, Repr

structure SummaryHeader where
  ID : String := ""
  Competitions : List SummaryCompetition := []
deriving DecidableEq, Repr

structure DriveTeam where
  Abbreviation : String := ""
  DisplayName : String := ""
deriving DecidableEq, Repr

structure DriveStart where
  Text : String := ""
deriving DecidableEq, Repr

structure PlayType where
  ID : String := ""
  Text : String := ""
deriving DecidableEq, Repr

structure PlayClock where
  DisplayValue : String := ""
deriving DecidableEq, Repr

structure PlayPeriod where
  Number : Int := 0
deriving DecidableEq, Repr

structure PlayPosition where
  Down : Int := 0
  Distance : Int := 0
  YardLine : Int := 0
  YardsToEndzone : Int := 0
  DownDistanceText : String := ""
  PossessionText : String := ""
deriving DecidableEq, Repr

structure PlayInfo where
  ID : String := ""
  Text : String := ""
  Type_ : PlayType := {}
  Clock : PlayClock := {}
  Period : PlayPeriod := {}
  HomeScore : Int := 0
  AwayScore : Int := 0
  ScoringPlay : Bool := false
  Start : PlayPosition := {}
  End : PlayPosition := {}
deriving DecidableEq, Repr

structure CurrentDrive where
  ID : String := ""
  Description : String := ""
  Team : DriveTeam := {}
  Plays : List PlayInfo := []
  Start : DriveStart := {}
deriving DecidableEq, Repr

structure DriveInfo where
  ID : String := ""
  Description : String := ""
  Team : DriveTeam := {}
  Plays : List PlayInfo := []
deriving DecidableEq, Repr

/-- Go's `Drives`; `Current` is the pointer `*CurrentDrive`, `none` when nil. -/
structure Drives where
  Current : Option CurrentDrive := none
  Previous : List DriveInfo := []
deriving DecidableEq, Repr

structure BoxscoreTeamInfo where
  ID : String := ""
  Abbreviation : String := ""
  DisplayName : String := ""
deriving DecidableEq, Repr

structure BoxscoreTeamStat where
  Name : String := ""
  DisplayValue : String := ""
deriving DecidableEq, Repr

structure BoxscoreTeam where
  Team : BoxscoreTeamInfo := {}
  Statistics : List BoxscoreTeamStat := []
deriving DecidableEq, Repr

structure BoxscoreAthlete where
  ID : String := ""
  DisplayName : String := ""
  Position : String := ""
deriving DecidableEq, Repr

structure BoxscoreAthleteData where
  Athlete : BoxscoreAthlete := {}
  Stats : List String := []
deriving DecidableEq, Repr

structure BoxscorePlayerGroup where
  Name : String := ""
  Labels : List String := []
  Athletes : List BoxscoreAthleteData := []
deriving DecidableEq, Repr

structure BoxscorePlayer where
  Team : BoxscoreTeamInfo := {}
  Statistics : List BoxscorePlayerGroup := []
deriving DecidableEq, Repr

structure BoxscoreResponse where
  Teams : List BoxscoreTeam := []
  Players : List BoxscorePlayer := []
deriving DecidableEq, Repr

structure SummaryResponse where
  Header : SummaryHeader := {}
  Drives : Drives := {}
  Boxscore : BoxscoreResponse := {}
deriving DecidableEq, Repr

/-- The body of the competitor loop shared by `ToGameSummary`, `ToGameReplay`
and `ToGameStats`. -/
def setSummaryCompetitor (game : Game) (c : SummaryCompetitor) : Game :=
  let score := (strconv.Atoi c.Score).1
  let team : Team :=
    { Name := c.Team.DisplayName, Abbreviation := c.Team.Abbreviation, Score := score }
  if c.HomeAway = "home" then { game with HomeTeam := team }
  else { game with AwayTeam := team }

/-- The Game that `ToGameReplay` and `ToGameStats` build from the header: no
start time is parsed. -/
def headerGame (header : SummaryHeader) (comp : SummaryCompetition) : Game :=
  let game : Game :=
    { ID := header.ID
      StatusText := comp.Status.Type_.ShortDetail
      Status := mapStatus comp.Status.Type_.State }
  comp.Competitors.foldl setSummaryCompetitor game

/-- The Game that `ToGameSummary` builds from the header, start time
included. -/
def summaryGame (parseRFC3339 : String → Option Time) (header : SummaryHeader)
    (comp : SummaryCompetition) : Game :=
  let game : Game :=
    { ID := header.ID
      StatusText := comp.Status.Type_.ShortDetail
      Status := mapStatus comp.Status.Type_.State }
  let game :=
    match parseRFC3339 comp.Date with
    | some t => { game with StartTime := t }
    | none => game
  comp.Competitors.foldl setSummaryCompetitor game

/-- The Play literal that `ToGameSummary` appends to `RecentPlays` for the
play `p` of the current drive. -/
def recentPlay (p : PlayInfo) : Play :=
  { ID := p.ID
    Text := p.Text
    Type_ := p.Type_.Text
    Clock := p.Clock.DisplayValue
    Period := p.Period.Number
    HomeScore := p.HomeScore
    AwayScore := p.AwayScore
    ScoringPlay := p.ScoringPlay }

/-- The Play literal that `ToGameSummary` stores in `CurrentPlay` for the last
play of the current drive. -/
def currentPlay (current : CurrentDrive) (lastPlay : PlayInfo) : Play :=
  { ID := lastPlay.ID
    Text := lastPlay.Text
    Type_ := lastPlay.Type_.Text
    Clock := lastPlay.Clock.DisplayValue
    Period := lastPlay.Period.Number
    HomeScore := lastPlay.HomeScore
    AwayScore := lastPlay.AwayScore
    ScoringPlay := lastPlay.ScoringPlay
    Down := lastPlay.End.DownDistanceText
    Possession := current.Team.Abbreviation
    YardsToEndzone := lastPlay.End.YardsToEndzone }

/-- The loop `for i := len(plays) - 1; i >= 0 && len(recent) < 5; i--` of
`ToGameSummary`; the first argument is `i + 1`.  The index `i` is below
`len(plays)` throughout, so the `none` branch is not taken. -/
def recentPlaysLoop (plays : List PlayInfo) : Nat → Slice Play → Slice Play
  | 0, recent => recent
  | i + 1, recent =>
    if recent.len < 5 then
      match plays[i]? with
      | none => recent
      | some p => recentPlaysLoop plays i (recent.append (recentPlay p))
    else recent

/-- Go's `SummaryResponse.ToGameSummary`; `none` is the nil pointer. -/
def SummaryResponse.ToGameSummary (r : SummaryResponse)
    (parseRFC3339 : String → Option Time) : Option GameSummary :=
  match r.Header.Competitions with
  | [] => none
  | comp :: _ =>
    let game := summaryGame parseRFC3339 r.Header comp
    let summary : GameSummary := { Game := game, RecentPlays := Slice.make0 }
    match r.Drives.Current with
    | none => some summary
    | some current =>
      if current.Plays.length > 0 then
        match current.Plays[current.Plays.length - 1]? with
        | none => some summary
        | some lastPlay =>
          let summary := { summary with CurrentPlay := some (currentPlay current lastPlay) }
          let summary := { summary with Situation := lastPlay.End.DownDistanceText }
          let summary := { summary with YardsToEndzone := lastPlay.End.YardsToEndzone }
          some { summary with
            RecentPlays := recentPlaysLoop current.Plays current.Plays.length summary.RecentPlays }
      else some summary

/-- The ReplayPlay literal that `ToGameReplay` builds for the play `p` of
`drive`. -/
def replayPlay (drive : DriveInfo) (p : PlayInfo) : ReplayPlay :=
  { ID := p.ID
    Text := p.Text
    Type_ := p.Type_.Text
    Clock := p.Clock.DisplayValue
    Period := p.Period.Number
    HomeScore := p.HomeScore
    AwayScore := p.AwayScore
    ScoringPlay := p.ScoringPlay
    Possession := drive.Team.Abbreviation
    YardsToEndzone := p.End.YardsToEndzone
    Down := p.End.DownDistanceText
    DriveID := drive.ID }

/-- The body of the drive loop of `ToGameReplay`. -/
def appendReplayDrive (replay : GameReplay) (drive : DriveInfo) : GameReplay :=
  let rd : ReplayDrive :=
    { ID := drive.ID
      Description := drive.Description
      Team := drive.Team.Abbreviation
      StartIndex := (replay.Plays.len : Int) }
  let replay :=
    { replay with
      Plays := drive.Plays.foldl (fun plays p => plays.append (replayPlay drive p)) replay.Plays }
  let rd := { rd with EndIndex := (replay.Plays.len : Int) - 1 }
  { replay with Drives := replay.Drives.append rd }

/-- Go's `SummaryResponse.ToGameReplay`; `none` is the nil pointer. -/
def SummaryResponse.ToGameReplay (r : SummaryResponse) : Option GameReplay :=
  match r.Header.Competitions with
  | [] => none
  | comp :: _ =>
    let game := headerGame r.Header comp
    let replay : GameReplay := { Game := game, Plays := Slice.make0, Drives := Slice.make0 }
    some (r.Drives.Previous.foldl appendReplayDrive replay)

/-- The assignment through `teamStats`, which points at `stats.HomeStats` when
the abbreviation is the home team's and at `stats.AwayStats` otherwise. -/
def updateTeamStats (game : Game) (abbreviation : String) (f : TeamStats → TeamStats)
    (stats : GameStats) : GameStats :=
  if abbreviation = game.HomeTeam.Abbreviation then { stats with HomeStats := f stats.HomeStats }
  else { stats with AwayStats := f stats.AwayStats }

/-- The category that `ToGameStats` builds from one statistic group. -/
def playerStatCategory (statGroup : BoxscorePlayerGroup) : PlayerStatCategory :=
  let cat : PlayerStatCategory := { Category := statGroup.Name, Labels := statGroup.Labels }
  statGroup.Athletes.foldl
    (fun cat athlete =>
      { cat with
        Players := cat.Players.append
          { Name := athlete.Athlete.DisplayName
            Position := athlete.Athlete.Position
            Stats := athlete.Stats } })
    cat

/-- Go's `SummaryResponse.ToGameStats`; `none` is the nil pointer. -/
def SummaryResponse.ToGameStats (r : SummaryResponse) : Option GameStats :=
  match r.Header.Competitions with
  | [] => none
  | comp :: _ =>
    let game := headerGame r.Header comp
    let stats : GameStats :=
      { Game := game
        HomeStats :=
          { TeamName := game.HomeTeam.Name
            TeamAbbr := game.HomeTeam.Abbreviation
            Totals := StringMap.make }
        AwayStats :=
          { TeamName := game.AwayTeam.Name
            TeamAbbr := game.AwayTeam.Abbreviation
            Totals := StringMap.make } }
    let stats :=
      r.Boxscore.Teams.foldl
        (fun stats teamBox =>
          teamBox.Statistics.foldl
            (fun stats stat =>
              updateTeamStats game teamBox.Team.Abbreviation
                (fun ts => { ts with Totals := ts.Totals.set stat.Name stat.DisplayValue }) stats)
            stats)
        stats
    let stats :=
      r.Boxscore.Players.foldl
        (fun stats playerBox =>
          playerBox.Statistics.foldl
            (fun stats statGroup =>
              updateTeamStats game playerBox.Team.Abbreviation
                (fun ts =>
                  { ts with PlayerStats := ts.PlayerStats.append (playerStatCategory statGroup) })
                stats)
            stats)
        stats
    some stats

/-! ### Vocabulary for statements about `ToGameReplay` -/

/-- The descriptors of a run of drives whose first play has index `start` in
the flattened play sequence: each drive starts where the plays before it end
and ends one before the next drive starts. -/
def driveDescriptors : Nat → List DriveInfo → List ReplayDrive
  | _, [] => []
  | start, d :: ds =>
    { ID := d.ID
      Description := d.Description
      Team := d.Team.Abbreviation
      StartIndex := (start : Int)
      EndIndex := ((start + d.Plays.length : Nat) : Int) - 1 }
      :: driveDescriptors (start + d.Plays.length) ds

/-- The number of plays in the first `k` drives. -/
def playsBefore (drives : List DriveInfo) (k : Nat) : Nat :=
  ((drives.take k).map (fun d => d.Plays.length)).sum

/-! ### Vocabulary for statements about `ToGameStats` -/

/-- The header's home team abbreviation: the abbreviation of the last
competitor of the first header competition that is marked "home", the empty
string when there is none. -/
def headerHomeAbbreviation (header : SummaryHeader) : String :=
  match header.Competitions with
  | [] => ""
  | comp :: _ =>
    (((comp.Competitors.filter (fun c => decide (c.HomeAway = "home"))).getLast?).map
      (fun c => c.Team.Abbreviation)).getD ""

/-! ### A sample payload -/

/-- A play with the given identifier, end-of-play down-distance text and
yards-to-endzone. -/
def samplePlay (id down : String) (yards : Int) : PlayInfo :=
  { ID := id, Text := "play " ++ id, Type_ := { Text := "Rush" },
    Clock := { DisplayValue := "10:00" }, Period := { Number := 2 },
    HomeScore := 7, AwayScore := 3,
    End := { DownDistanceText := down, YardsToEndzone := yards } }

/-- A summary payload: one header competition, a current drive of six plays,
and three previous drives of 3, 0 and 2 plays. -/
def sampleSummary : SummaryResponse :=
  { Header :=
      { ID := "401547"
        Competitions :=
          [{ Status := { Type_ := { State := "in", ShortDetail := "10:00 - 2nd" } }
             Competitors :=
               [{ HomeAway := "home", Score := "7",
                  Team := { DisplayName := "Buffalo Bills", Abbreviation := "BUF" } },
                { HomeAway := "away", Score := "3",
                  Team := { DisplayName := "New England Patriots", Abbreviation := "NE" } }] }] }
    Drives :=
      { Current := some
          { ID := "d4", Team := { Abbreviation := "BUF" }
            Plays :=
              [samplePlay "41" "1st & 10 at BUF 25" 75, samplePlay "42" "2nd & 7 at BUF 28" 72,
               samplePlay "43" "1st & 10 at BUF 40" 60, samplePlay "44" "2nd & 4 at BUF 46" 54,
               samplePlay "45" "1st & 10 at NE 45" 45, samplePlay "46" "2nd & 5 at NE 40" 40] }
        Previous :=
          [{ ID := "d1", Team := { Abbreviation := "NE" }
             Plays := [samplePlay "11" "" 70, samplePlay "12" "" 65, samplePlay "13" "" 60] },
           { ID := "d2", Team := { Abbreviation := "BUF" }, Plays := [] },
           { ID := "d3", Team := { Abbreviation := "NE" }
             Plays := [samplePlay "31" "" 50, samplePlay "32" "" 45] }] } }

/-- The sample payload with a boxscore: team entries for BUF (twice), NE and
an abbreviation that is neither team's, and player entries for the same
three. -/
def sampleStatsSummary : SummaryResponse :=
  { sampleSummary with
    Boxscore :=
      { Teams :=
          [{ Team := { Abbreviation := "BUF" }
             Statistics := [{ Name := "totalYards", DisplayValue := "350" },
                            { Name := "firstDowns", DisplayValue := "20" }] },
           { Team := { Abbreviation := "NE" }
             Statistics := [{ Name := "totalYards", DisplayValue := "280" }] },
           { Team := { Abbreviation := "XYZ" }
             Statistics := [{ Name := "turnovers", DisplayValue := "9" }] },
           { Team := { Abbreviation := "BUF" }
             Statistics := [{ Name := "totalYards", DisplayValue := "351" }] }]
        Players :=
          [{ Team := { Abbreviation := "BUF" }
             Statistics :=
               [{ Name := "passing", Labels := ["C/ATT", "YDS"]
                  Athletes := [{ Athlete := { DisplayName := "Josh Allen", Position := "QB" }
                                 Stats := ["20/30", "250"] }] }] },
           { Team := { Abbreviation := "NE" }
             Statistics :=
               [{ Name := "rushing", Labels := ["CAR", "YDS"]
                  Athletes := [{ Athlete := { DisplayName := "R. Stevenson", Position := "RB" }
                                 Stats := ["15", "60"] },
                               { Athlete := { DisplayName := "A. Gibson", Position := "RB" }
                                 Stats := ["5", "12"] }] }] },
           { Team := { Abbreviation := "XYZ" }
             Statistics := [{ Name := "receiving", Labels := ["REC"], Athletes := [] }] }] } }

/-- The sample payload without drives: a game before its kick-off. -/
def noDrivesSummary : SummaryResponse := { sampleSummary with Drives := {} }

end models

/-! ## `regexp`: the patterns the client compiles -/

namespace regexp

/-- The syntax tree of a compiled pattern, for the operators the client's
patterns use. -/
inductive Regexp where
  /-- The assertion `^`: at the beginning of the text. -/
  | beginText : Regexp
  /-- The assertion `$` (no `m` flag): at the end of the text. -/
  | endText : Regexp
  /-- The class `\d`: one ASCII digit. -/
  | digit : Regexp
  /-- A literal character. -/
  | lit (c : Char) : Regexp
  /-- Concatenation. -/
  | concat (a b : Regexp) : Regexp
  /-- The counted repetition `r{n}`. -/
  | rep (r : Regexp) (n : Nat) : Regexp
  /-- The repetition `r+`. -/
  | plus (r : Regexp) : Regexp
deriving DecidableEq, Repr

/-- A position in the text: the number of characters before it and the
characters from it on. -/
abbrev Pos := Nat × List Char

/-- The positions reached by `n` successive matches of `f`. -/
def iter (f : Pos → List Pos) : Nat → Pos → List Pos
  | 0, st => [st]
  | n + 1, st => (f st).flatMap (iter f n)

/-- The positions reached by one or more successive matches of `f`, at most
`fuel` of them. -/
def plusIter (f : Pos → List Pos) : Nat → Pos → List Pos
  | 0, _ => []
  | fuel + 1, st => (f st).flatMap (fun s => s :: plusIter f fuel s)

/-- All positions at which a match of the expression that starts at the given
position can end.  A repetition `r+` is run for at most one round more than
there are characters left. -/
def Regexp.ends : Regexp → Pos → List Pos
  | .beginText, st => if st.1 = 0 then [st] else []
  | .endText, st => if st.2 = [] then [st] else []
  | .digit, (i, c :: cs) => if c.isDigit then [(i + 1, cs)] else []
  | .digit, (_, []) => []
  | .lit a, (i, c :: cs) => if c = a then [(i + 1, cs)] else []
  | .lit _, (_, []) => []
  | .concat a b, st => (a.ends st).flatMap (fun s => b.ends s)
  | .rep r n, st => iter (fun s => r.ends s) n st
  | .plus r, st => plusIter (fun s => r.ends s) (st.2.length + 1) st

/-- Go's `(*Regexp).MatchString`: whether the text contains a match, starting
at any position. -/
def Regexp.MatchString (re : Regexp) (s : String) : Bool :=
  (List.range (s.data.length + 1)).any (fun i => !(re.ends (i, s.data.drop i)).isEmpty)

end regexp

/-! ## Package `client` -/

namespace client

open models regexp

def baseURL : String := "https://site.api.espn.com"
def scoreboardPath : String := "/apis/site/v2/sports/football/nfl/scoreboard"
def summaryPath : String := "/apis/site/v2/sports/football/nfl/summary"
def maxResponseSize : Nat := 10 * 1024 * 1024

/-- The pattern text `^\d{8}-\d{8}$`, compiled. -/
def dateRangePattern : Regexp :=
  .concat .beginText
    (.concat (.rep .digit 8) (.concat (.lit '-') (.concat (.rep .digit 8) .endText)))

/-- The pattern text `^\d{8}$`, compiled. -/
def singleDatePattern : Regexp :=
  .concat .beginText (.concat (.rep .digit 8) .endText)

/-- The pattern text `^\d+$`, compiled. -/
def gameIDPattern : Regexp :=
  .concat .beginText (.concat (.plus .digit) .endText)

/-! ### Vocabulary for statements about the validators -/

/-- Exactly 8 ASCII digits. -/
def isEightDigits (cs : List Char) : Bool := cs.length == 8 && cs.all Char.isDigit

/-- Exactly 8 ASCII digits, a hyphen, and 8 ASCII digits. -/
def isDateRange (cs : List Char) : Bool :=
  cs.length == 17 && (cs.take 8).all Char.isDigit && (cs.drop 8).head? == some '-' &&
    (cs.drop 9).all Char.isDigit

/-- A non-empty string that consists of ASCII digits only. -/
def isNumeric (cs : List Char) : Bool := !cs.isEmpty && cs.all Char.isDigit

/-- What the client reads of an `http.Response`. -/
structure Response where
  StatusCode : Int
  Body : List Nat

/-- Go's `http.StatusOK`. -/
def StatusOK : Int := 200

/-- The Go standard library as the client and the mappers use it: the HTTP
transport behind `httpClient.Get` (the error message when the request fails),
the JSON decoder for the two payload shapes (the error message when the bytes
do not decode), and `time.Parse(time.RFC3339, _)`. -/
structure Lib where
  httpGet : String → Except String Response
  decodeScoreboard : List Nat → Except String ScoreboardResponse
  decodeSummary : List Nat → Except String SummaryResponse
  parseRFC3339 : String → Option Time

structure ESPNClient where
  baseURL : String
deriving DecidableEq, Repr

/-- The result of a call together with the URLs of the HTTP GET requests it
issued, in order. -/
structure Call (α : Type) where
  requests : List String
  result : α

/-- Go's `ESPNClient.FetchScoreboardByDates`. -/
def FetchScoreboardByDates (lib : Lib) (c : ESPNClient) (dates : String) :
    Call (Except String ScoreboardResponse) :=
  let url := c.baseURL ++ scoreboardPath
  if dates ≠ "" ∧ (!dateRangePattern.MatchString dates && !singleDatePattern.MatchString dates)
  then ⟨[], .error "invalid date format: expected YYYYMMDD or YYYYMMDD-YYYYMMDD"⟩
  else
    let url := if dates ≠ "" then url ++ "?dates=" ++ dates else url
    match lib.httpGet url with
    | .error err => ⟨[url], .error ("failed to fetch scoreboard: " ++ err)⟩
    | .ok resp =>
      if resp.StatusCode ≠ StatusOK then
        ⟨[url], .error ("unexpected status code: " ++ toString resp.StatusCode)⟩
      else
        match lib.decodeScoreboard (resp.Body.take maxResponseSize) with
        | .error err => ⟨[url], .error ("failed to parse response: " ++ err)⟩
        | .ok scoreboard => ⟨[url], .ok scoreboard⟩

/-- Go's `ESPNClient.FetchScoreboard`. -/
def FetchScoreboard (lib : Lib) (c : ESPNClient) : Call (Except String ScoreboardResponse) :=
  FetchScoreboardByDates lib c ""

/-- Go's `ESPNClient.FetchGameSummary`. -/
def FetchGameSummary (lib : Lib) (c : ESPNClient) (gameID : String) :
    Call (Except String SummaryResponse) :=
  if !gameIDPattern.MatchString gameID then
    ⟨[], .error "invalid game ID: expected numeric value"⟩
  else
    let url := c.baseURL ++ summaryPath ++ "?event=" ++ gameID
    match lib.httpGet url with
    | .error err => ⟨[url], .error ("failed to fetch game summary: " ++ err)⟩
    | .ok resp =>
      if resp.StatusCode ≠ StatusOK then
        ⟨[url], .error ("unexpected status code: " ++ toString resp.StatusCode)⟩
      else
        match lib.decodeSummary (resp.Body.take maxResponseSize) with
        | .error err => ⟨[url], .error ("failed to parse game summary: " ++ err)⟩
        | .ok summary => ⟨[url], .ok summary⟩

/-- Go's `ESPNClient.FetchGameReplay`; the value may be the nil pointer
(`none`) with a nil error. -/
def FetchGameReplay (lib : Lib) (c : ESPNClient) (gameID : String) :
    Call (Except String (Option GameReplay)) :=
  let fetched := FetchGameSummary lib c gameID
  match fetched.result with
  | .error err => ⟨fetched.requests, .error err⟩
  | .ok summary => ⟨fetched.requests, .ok summary.ToGameReplay⟩

/-- Go's `ESPNClient.FetchGameStats`; the value may be the nil pointer
(`none`) with a nil error. -/
def FetchGameStats (lib : Lib) (c : ESPNClient) (gameID : String) :
    Call (Except String (Option GameStats)) :=
  let fetched := FetchGameSummary lib c gameID
  match fetched.result with
  | .error err => ⟨fetched.requests, .error err⟩
  | .ok summary => ⟨fetched.requests, .ok summary.ToGameStats⟩

end client

/-! ## Package `service` -/

namespace service

open models client

structure ScoreService where
  client : ESPNClient
deriving DecidableEq, Repr

/-- Go's `ScoreService.GetScoresByDates`: the games and the error, as Go
returns them (`none` is the nil error). -/
def GetScoresByDates (lib : Lib) (s : ScoreService) (dates : String) :
    Call (Slice Game × Option String) :=
  let fetched := FetchScoreboardByDates lib s.client dates
  match fetched.result with
  | .error err => ⟨fetched.requests, (Slice.null, some err)⟩
  | .ok response => ⟨fetched.requests, (response.ToGames lib.parseRFC3339, none)⟩

/-- Go's `ScoreService.GetCurrentScores`. -/
def GetCurrentScores (lib : Lib) (s : ScoreService) : Call (Slice Game × Option String) :=
  GetScoresByDates lib s ""

/-- Go's `ScoreService.GetLiveGames`. -/
def GetLiveGames (lib : Lib) (s : ScoreService) : Call (Slice Game × Option String) :=
  let got := GetCurrentScores lib s
  match got.result with
  | (_, some err) => ⟨got.requests, (Slice.null, some err)⟩
  | (games, none) =>
    let live := games.toList.foldl
      (fun live g => if g.Status = GameStatus.StatusInProgress then live.append g else live)
      Slice.make0
    ⟨got.requests, (live, none)⟩

/-- Go's `ScoreService.GetGameSummary`. -/
def GetGameSummary (lib : Lib) (s : ScoreService) (gameID : String) :
    Call (Except String (Option GameSummary)) :=
  let fetched := FetchGameSummary lib s.client gameID
  match fetched.result with
  | .error err => ⟨fetched.requests, .error err⟩
  | .ok response => ⟨fetched.requests, .ok (response.ToGameSummary lib.parseRFC3339)⟩

/-- Go's `ScoreService.GetGameReplay`. -/
def GetGameReplay (lib : Lib) (s : ScoreService) (gameID : String) :
    Call (Except String (Option GameReplay)) :=
  FetchGameReplay lib s.client gameID

/-- Go's `ScoreService.GetGameStats`. -/
def GetGameStats (lib : Lib) (s : ScoreService) (gameID : String) :
    Call (Except String (Option GameStats)) :=
  FetchGameStats lib s.client gameID

end service

/-! ## Package `ui`: the live view and the replay view -/

namespace ui

open models client service

/-- The Go enumeration `MascotState` (`iota` order). -/
inductive MascotState where
  | MascotNormal
  | MascotCelebrating
  | MascotSad
deriving DecidableEq, Repr

/-- The `Action` of a `tea.MouseMsg`. -/
inductive MouseAction where
  | MouseActionPress
  | MouseActionRelease
  | MouseActionMotion
deriving DecidableEq, Repr

/-- The `Button` of a `tea.MouseMsg`. -/
inductive MouseButton where
  | MouseButtonNone
  | MouseButtonLeft
  | MouseButtonMiddle
  | MouseButtonRight
  | MouseButtonWheelUp
  | MouseButtonWheelDown
  | MouseButtonWheelLeft
  | MouseButtonWheelRight
  | MouseButtonBackward
  | MouseButtonForward
  | MouseButton10
  | MouseButton11
deriving DecidableEq, Repr

/-- The `spinner.TickMsg` of the bubbles library, without its time. -/
structure SpinnerTickMsg where
  ID : Int
  tag : Int
deriving DecidableEq, Repr

/-- The `spinner.Model` of the bubbles library, reduced to its counters; its
frames and style only matter to the rendering. -/
structure SpinnerModel where
  frame : Int
  id : Int
  tag : Int
deriving DecidableEq, Repr

/-- The messages (`tea.Msg`) of the two views.  The time carried by the tick
messages is dropped: no handler reads it. -/
inductive Msg where
  /-- A `tea.KeyMsg`, by the result of its `String()`. -/
  | key (s : String)
  /-- A `tea.MouseMsg`. -/
  | mouse (Action : MouseAction) (Button : MouseButton) (X Y : Int)
  /-- A `tea.WindowSizeMsg`. -/
  | windowSize (Width Height : Int)
  /-- A `spinner.TickMsg`. -/
  | spinnerTick (t : SpinnerTickMsg)
  | tickMsg
  | mascotTickMsg
  /-- A `gameDataMsg`: the summary pointer, `none` when nil. -/
  | gameDataMsg (summary : Option GameSummary)
  /-- An `errorMsg`, by the message of its error. -/
  | errorMsg (err : String)
  | clearFlashScoreMsg
  | clearFlashPlayMsg
  | clearCelebrationMsg
  | clearSadMascotMsg
  | replayTickMsg
  /-- A `replayDataMsg`: the replay pointer, `none` when nil. -/
  | replayDataMsg (replay : Option GameReplay)
  /-- A `replayErrorMsg`, by the message of its error. -/
  | replayErrorMsg (err : String)
  | replayAutoTickMsg
  /-- A message of any other type. -/
  | other
deriving DecidableEq, Repr

/-- The commands (`tea.Cmd`) the two views return. -/
inductive Cmd where
  /-- The nil command. -/
  | none
  /-- The command `tea.Quit`. -/
  | quit
  /-- The command `tea.Tick(d, fn)`: after `d` nanoseconds, deliver the message
  that `fn` returns. -/
  | tick (d : Nat) (msg : Msg)
  /-- The command `tea.Batch(cmds...)`. -/
  | batch (cmds : List Cmd)
  /-- The command `fetchGameDataCmd(gameID, svc)`. -/
  | fetchGameData (gameID : String) (svc : ScoreService)
  /-- The command `fetchReplayDataCmd(gameID, svc)`. -/
  | fetchReplayData (gameID : String) (svc : ScoreService)
  /-- A command of the spinner, which delivers a `spinner.TickMsg`. -/
  | spinnerTick (t : SpinnerTickMsg)

/-- Go's `time.Second`, in nanoseconds. -/
def Second : Nat := 1000000000

/-- Go's `time.Millisecond`, in nanoseconds. -/
def Millisecond : Nat := 1000000

/-- The bubbles spinner as the live view uses it: `spinner.New()` with the
view's settings, the method value `Tick`, `Update` on a `spinner.TickMsg`, and
`View`. -/
structure Bubbles where
  spinnerNew : SpinnerModel
  spinnerTick : SpinnerModel → SpinnerTickMsg
  spinnerUpdate : SpinnerModel → SpinnerTickMsg → SpinnerModel × Cmd
  spinnerView : SpinnerModel → String

/-- Go's `Model` of the live view.  `summary` and `prevSummary` are pointers
(`none` when nil), `err` is the error's message (`none` when nil). -/
structure Model where
  gameID : String := ""
  service : ScoreService
  summary : Option GameSummary := none
  prevSummary : Option GameSummary := none
  spinner : SpinnerModel
  loading : Bool := false
  err : Option String := none
  plain : Bool := false
  lastPlayID : String := ""
  flashScore : Bool := false
  flashPlay : Bool := false
  width : Int := 0
  height : Int := 0
  selectedPlay : Int := 0
  expandedPlay : Int := 0
  playsStartY : Int := 0
  showMascot : Bool := false
  mascotFrame : Int := 0
  mascotState : MascotState := MascotState.MascotNormal
  lastPossession : String := ""
  showFireworks : Bool := false
deriving DecidableEq, Repr

/-- Go's `NewModel`. -/
def NewModel (b : Bubbles) (gameID : String) (svc : ScoreService) (plain : Bool) : Model :=
  { gameID := gameID
    service := svc
    spinner := b.spinnerNew
    loading := true
    plain := plain
    width := 80
    height := 24
    selectedPlay := -1
    expandedPlay := -1
    showMascot := false }

/-- Go's `NewModelWithMascot`. -/
def NewModelWithMascot (b : Bubbles) (gameID : String) (svc : ScoreService) (plain : Bool) :
    Model :=
  let m := NewModel b gameID svc plain
  { m with showMascot := true }

/-- Go's `fetchGameDataCmd`. -/
def fetchGameDataCmd (gameID : String) (svc : ScoreService) : Cmd := .fetchGameData gameID svc

/-- The message that the function of `fetchGameDataCmd(gameID, svc)` returns
when it is run. -/
def fetchGameDataMsg (lib : Lib) (gameID : String) (svc : ScoreService) : Msg :=
  match (GetGameSummary lib svc gameID).result with
  | .error err => .errorMsg err
  | .ok summary => .gameDataMsg summary

/-- Go's `tickCmd`. -/
def tickCmd : Cmd := .tick (10 * Second) .tickMsg

/-- Go's `clearFlashScore`. -/
def clearFlashScore : Cmd := .tick (2 * Second) .clearFlashScoreMsg

/-- Go's `clearFlashPlay`. -/
def clearFlashPlay : Cmd := .tick (1 * Second) .clearFlashPlayMsg

/-- Go's `clearCelebration`. -/
def clearCelebration : Cmd := .tick (5 * Second) .clearCelebrationMsg

/-- Go's `clearSadMascot`. -/
def clearSadMascot : Cmd := .tick (3 * Second) .clearSadMascotMsg

/-- Go's `mascotTickCmd`. -/
def mascotTickCmd : Cmd := .tick (300 * Millisecond) .mascotTickMsg

/-- Go's `Model.Init`. -/
def Model.Init (b : Bubbles) (m : Model) : Cmd :=
  let cmds := [Cmd.spinnerTick (b.spinnerTick m.spinner), fetchGameDataCmd m.gameID m.service,
    tickCmd]
  let cmds := if m.showMascot then cmds ++ [mascotTickCmd] else cmds
  .batch cmds

/-- The `tea.KeyMsg` case of `Model.Update`.  `none` is the run-time panic of
`m.summary.RecentPlays` on a nil summary. -/
def Model.updateKey (m : Model) (s : String) : Option (Model × Cmd) :=
  if s = "q" ∨ s = "ctrl+c" ∨ s = "esc" then
    if m.expandedPlay ≥ 0 then some ({ m with expandedPlay := -1 }, .none)
    else some (m, .quit)
  else if s = "up" ∨ s = "k" then
    match m.summary with
    | some summary =>
      if summary.RecentPlays.len > 0 then
        if m.selectedPlay > 0 then some ({ m with selectedPlay := m.selectedPlay - 1 }, .none)
        else some ({ m with selectedPlay := (summary.RecentPlays.len : Int) - 1 }, .none)
      else some (m, .none)
    | none => some (m, .none)
  else if s = "down" ∨ s = "j" then
    match m.summary with
    | some summary =>
      if summary.RecentPlays.len > 0 then
        if m.selectedPlay < (summary.RecentPlays.len : Int) - 1 then
          some ({ m with selectedPlay := m.selectedPlay + 1 }, .none)
        else some ({ m with selectedPlay := 0 }, .none)
      else some (m, .none)
    | none => some (m, .none)
  else if s = "enter" ∨ s = " " then
    if m.selectedPlay ≥ 0 then
      match m.summary with
      | none => none
      | some summary =>
        if m.selectedPlay < (summary.RecentPlays.len : Int) then
          if m.expandedPlay = m.selectedPlay then some ({ m with expandedPlay := -1 }, .none)
          else some ({ m with expandedPlay := m.selectedPlay }, .none)
        else some (m, .none)
    else some (m, .none)
  else some (m, .none)

/-- The `tea.MouseMsg` case of `Model.Update`. -/
def Model.updateMouse (m : Model) (Action : MouseAction) (Button : MouseButton) (Y : Int) :
    Model × Cmd :=
  if Action = .MouseActionPress ∧ Button = .MouseButtonLeft then
    let playsStartRow : Int := 18
    let playRow := Y - playsStartRow
    match m.summary with
    | some summary =>
      if playRow ≥ 0 ∧ playRow < (summary.RecentPlays.len : Int) then
        let m := { m with selectedPlay := playRow }
        if m.expandedPlay = playRow then ({ m with expandedPlay := -1 }, .none)
        else ({ m with expandedPlay := playRow }, .none)
      else (m, .none)
    | none => (m, .none)
  else (m, .none)

/-- The `gameDataMsg` case of `Model.Update`. -/
def Model.updateGameData (m : Model) (msg : Option GameSummary) : Model × Cmd :=
  let m := { m with loading := false }
  let m := { m with prevSummary := m.summary }
  let m := { m with summary := msg }
  match m.summary with
  | none => (m, .none)
  | some summary =>
    match summary.CurrentPlay with
    | none => (m, .none)
    | some currentPlay =>
      let currentPossession := currentPlay.Possession
      let tracked : Model × Cmd :=
        ({ m with lastPlayID := currentPlay.ID, lastPossession := currentPossession }, .none)
      match m.prevSummary with
      | none => tracked
      | some prevSummary =>
        if summary.Game.HomeTeam.Score ≠ prevSummary.Game.HomeTeam.Score ∨
            summary.Game.AwayTeam.Score ≠ prevSummary.Game.AwayTeam.Score then
          ({ m with
              flashScore := true
              showFireworks := true
              mascotState := .MascotCelebrating }, clearCelebration)
        else if m.lastPossession ≠ "" ∧ currentPossession ≠ m.lastPossession then
          ({ m with mascotState := .MascotSad }, clearSadMascot)
        else if currentPlay.ID ≠ m.lastPlayID then
          ({ m with flashPlay := true, lastPlayID := currentPlay.ID }, clearFlashPlay)
        else tracked

/-- Go's `Model.Update` of the live view: the new model and the command, or
`none` when the handler panics.  `errorMsg` and `replayErrorMsg` are both
defined as the interface type `error`, so `case errorMsg` of the type switch
takes the error message of either view. -/
def Model.Update (b : Bubbles) (m : Model) (msg : Msg) : Option (Model × Cmd) :=
  match msg with
  | .key s => m.updateKey s
  | .mouse Action Button _ Y => some (m.updateMouse Action Button Y)
  | .windowSize Width Height => some ({ m with width := Width, height := Height }, .none)
  | .spinnerTick t =>
    let (spinner, cmd) := b.spinnerUpdate m.spinner t
    some ({ m with spinner := spinner }, cmd)
  | .tickMsg => some (m, .batch [fetchGameDataCmd m.gameID m.service, tickCmd])
  | .mascotTickMsg => some ({ m with mascotFrame := m.mascotFrame + 1 }, mascotTickCmd)
  | .gameDataMsg summary => some (m.updateGameData summary)
  | .clearCelebrationMsg =>
    some ({ m with
      flashScore := false
      showFireworks := false
      mascotState := .MascotNormal }, .none)
  | .clearSadMascotMsg => some ({ m with mascotState := .MascotNormal }, .none)
  | .clearFlashScoreMsg => some ({ m with flashScore := false }, .none)
  | .clearFlashPlayMsg => some ({ m with flashPlay := false }, .none)
  | .errorMsg err => some ({ m with err := some err, loading := false }, .none)
  | .replayErrorMsg err => some ({ m with err := some err, loading := false }, .none)
  | _ => some (m, .none)

/-- The string that `Model.View` returns, by the branch that produces it: one
of the three literal screens, as text, or the output of one of the three game
renderers, which are not modelled here. -/
inductive Screen where
  | text (s : String)
  | renderVictory
  | renderPlain
  | renderStyled
deriving DecidableEq, Repr

/-- Go's `Model.View`. -/
def Model.View (b : Bubbles) (m : Model) : Screen :=
  if m.loading ∧ m.summary = none then
    .text ("\n\n   " ++ b.spinnerView m.spinner ++ " Loading game data...\n")
  else
    match m.err with
    | some err => .text ("\n\n   Error: " ++ err ++ "\n\n   Press q to quit.\n")
    | none =>
      match m.summary with
      | none => .text "\n\n   No game data available.\n\n   Press q to quit.\n"
      | some summary =>
        if m.showMascot ∧ summary.Game.Status = GameStatus.StatusFinal then .renderVictory
        else if m.plain then .renderPlain
        else .renderStyled

/-- The model after the live view has handled the messages in order, `none`
when a handler panicked. -/
def Model.run (b : Bubbles) (m : Model) : List Msg → Option Model
  | [] => some m
  | msg :: rest =>
    match m.Update b msg with
    | none => none
    | some (m', _) => m'.run b rest

/-! ### The replay view -/

/-- Go's `ReplayModel`. -/
structure ReplayModel where
  gameID : String := ""
  service : ScoreService
  replay : Option GameReplay := none
  loading : Bool := false
  err : Option String := none
  plain : Bool := false
  playIndex : Int := 0
  autoPlay : Bool := false
  autoSpeed : Int := 0
  width : Int := 0
  height : Int := 0
  showMascot : Bool := false
  mascotFrame : Int := 0
deriving DecidableEq, Repr

/-- Go's `NewReplayModel`. -/
def NewReplayModel (gameID : String) (svc : ScoreService) (plain mascot : Bool) : ReplayModel :=
  { gameID := gameID
    service := svc
    loading := true
    plain := plain
    playIndex := 0
    autoPlay := false
    autoSpeed := 2
    width := 80
    height := 24
    showMascot := mascot }

/-- Go's `fetchReplayDataCmd`. -/
def fetchReplayDataCmd (gameID : String) (svc : ScoreService) : Cmd :=
  .fetchReplayData gameID svc

/-- The message that the function of `fetchReplayDataCmd(gameID, svc)` returns
when it is run. -/
def fetchReplayDataMsg (lib : Lib) (gameID : String) (svc : ScoreService) : Msg :=
  match (GetGameReplay lib svc gameID).result with
  | .error err => .replayErrorMsg err
  | .ok replay => .replayDataMsg replay

/-- Go's `replayAutoTickCmd`; `time.Duration(seconds) * time.Second` is taken
for the non-negative `seconds` the view passes. -/
def replayAutoTickCmd (seconds : Int) : Cmd := .tick (seconds.toNat * Second) .replayAutoTickMsg

/-- Go's `replayMascotTickCmd`. -/
def replayMascotTickCmd : Cmd := .tick (300 * Millisecond) .replayTickMsg

/-- Go's `ReplayModel.Init`. -/
def ReplayModel.Init (m : ReplayModel) : Cmd :=
  .batch [fetchReplayDataCmd m.gameID m.service, replayMascotTickCmd]

/-- The `tea.KeyMsg` case of `ReplayModel.Update`. -/
def ReplayModel.updateKey (m : ReplayModel) (s : String) : ReplayModel × Cmd :=
  if s = "q" ∨ s = "ctrl+c" ∨ s = "esc" then (m, .quit)
  else if s = "right" ∨ s = "l" ∨ s = "n" then
    match m.replay with
    | some replay =>
      if m.playIndex < (replay.Plays.len : Int) - 1 then
        ({ m with playIndex := m.playIndex + 1 }, .none)
      else (m, .none)
    | none => (m, .none)
  else if s = "left" ∨ s = "h" ∨ s = "p" then
    if m.playIndex > 0 then ({ m with playIndex := m.playIndex - 1 }, .none)
    else (m, .none)
  else if s = " " then
    let m := { m with autoPlay := !m.autoPlay }
    if m.autoPlay then (m, replayAutoTickCmd m.autoSpeed)
    else (m, .none)
  else if s = "+" ∨ s = "=" then
    if m.autoSpeed > 1 then ({ m with autoSpeed := m.autoSpeed - 1 }, .none)
    else (m, .none)
  else if s = "-" ∨ s = "_" then
    if m.autoSpeed < 5 then ({ m with autoSpeed := m.autoSpeed + 1 }, .none)
    else (m, .none)
  else if s = "home" ∨ s = "0" then ({ m with playIndex := 0 }, .none)
  else if s = "end" ∨ s = "$" then
    match m.replay with
    | some replay => ({ m with playIndex := (replay.Plays.len : Int) - 1 }, .none)
    | none => (m, .none)
  else (m, .none)

/-- Go's `ReplayModel.Update`.  `case replayErrorMsg` of the type switch takes
the error message of either view, as both types are the interface `error`. -/
def ReplayModel.Update (m : ReplayModel) (msg : Msg) : ReplayModel × Cmd :=
  match msg with
  | .key s => m.updateKey s
  | .windowSize Width Height => ({ m with width := Width, height := Height }, .none)
  | .replayTickMsg => ({ m with mascotFrame := m.mascotFrame + 1 }, replayMascotTickCmd)
  | .replayDataMsg replay => ({ m with loading := false, replay := replay }, .none)
  | .replayErrorMsg err => ({ m with err := some err, loading := false }, .none)
  | .errorMsg err => ({ m with err := some err, loading := false }, .none)
  | .replayAutoTickMsg =>
    match m.replay with
    | some replay =>
      if m.autoPlay ∧ m.playIndex < (replay.Plays.len : Int) - 1 then
        let m := { m with playIndex := m.playIndex + 1 }
        (m, replayAutoTickCmd m.autoSpeed)
      else ({ m with autoPlay := false }, .none)
    | none => ({ m with autoPlay := false }, .none)
  | _ => (m, .none)

/-! ### The plain field -/

/-- Go's `fieldWidth`. -/
def fieldWidth : Int := 60

/-- Go's `fieldHeight`. -/
def fieldHeight : Int := 11

/-- The value of a Go `int` expression after 64-bit wrap-around. -/
def wrapInt64 (x : Int) : Int := (x + 2 ^ 63) % 2 ^ 64 - 2 ^ 63

/-- Go's `strings.Repeat`, as the bytes of the result: `none` is its panic on
a negative count. -/
def stringsRepeat (s : String) (count : Int) : Option (List Nat) :=
  if count < 0 then none
  else some ((List.replicate count.toNat (goBytes s)).flatMap id)

/-- Go's `centerText`, on the bytes of `s`; `none` is a panic of the slice
expression or of `strings.Repeat`. -/
def centerText (s : List Nat) (width : Int) : Option (List Nat) :=
  if (s.length : Int) ≥ width then
    if width < 0 then none else some (s.take width.toNat)
  else do
    let padding := Int.tdiv (width - (s.length : Int)) 2
    let left ← stringsRepeat " " padding
    let right ← stringsRepeat " " (width - (s.length : Int) - padding)
    some (left ++ s ++ right)

/-- The ball offset that `renderFieldPlain` computes:
`int(float64(100-yardsToEndzone) / 100.0 * float64(fieldWidth-4))`, then
clamped to `[0, fieldWidth-4]`.  The floating-point product is exact when
`100-yardsToEndzone` is a multiple of 25 and otherwise at least 0.04 away from
an integer, far more than its rounding error, so its truncation is the
truncated integer quotient wherever the clamp does not decide the result. -/
def plainBallPos (yardsToEndzone : Int) : Int :=
  let ballPos := Int.tdiv (wrapInt64 (100 - yardsToEndzone) * (fieldWidth - 4)) 100
  let ballPos := if ballPos < 0 then 0 else ballPos
  if ballPos > fieldWidth - 4 then fieldWidth - 4 else ballPos

/-- The row `i` of the loop "Field with ball" of `renderFieldPlain`. -/
def plainFieldRow (ballPos : Int) (i : Nat) : Option (List Nat) := do
  let middle ←
    if i = 1 then do
      let before ← stringsRepeat " " ballPos
      let after ← stringsRepeat " " (fieldWidth - 12 - ballPos - 2)
      pure (before ++ goBytes "üèà" ++ after)
    else stringsRepeat " " (fieldWidth - 12)
  pure (goBytes "  ‚ïë     ‚îÇ" ++ middle ++ goBytes "‚îÇ     ‚ïë\n")

/-- Go's `renderFieldPlain`, as the bytes of the string it returns; `none` is
a run-time panic. -/
def renderFieldPlain (yardsToEndzone : Int) (possession : String) : Option (List Nat) := do
  let ballPos := plainBallPos yardsToEndzone
  let sb : List Nat := []
  -- Top border
  let border ← stringsRepeat "‚ïê" fieldWidth
  let sb := sb ++ (goBytes "  ‚ïî" ++ border ++ goBytes "‚ïó\n")
  -- End zone labels
  let endLeft ← centerText (goBytes "END") 5
  let sb := sb ++ (goBytes "  ‚ïë" ++ endLeft ++ goBytes "‚îÇ")
  let gap ← centerText (goBytes "") (fieldWidth - 12)
  let sb := sb ++ gap
  let endRight ← centerText (goBytes "END") 5
  let sb := sb ++ (goBytes "‚îÇ" ++ endRight ++ goBytes "‚ïë\n")
  -- Yard markers
  let sb := sb ++ goBytes "  ‚ïë     ‚îÇ"
  let markers := "  10   20   30   40   50   40   30   20   10  "
  let sb := sb ++ goBytes markers
  let sb := sb ++ goBytes "‚îÇ     ‚ïë\n"
  -- Field with ball
  let sb ← (List.range 3).foldlM
    (fun sb i => do
      let row ← plainFieldRow ballPos i
      pure (sb ++ row))
    sb
  -- Yard line markers (dashes)
  let sb := sb ++ goBytes "  ‚ïë     ‚îÇ"
  let sb := (List.range (fieldWidth - 12).toNat).foldl
    (fun sb i => if i % 5 = 2 then sb ++ goBytes "‚îº" else sb ++ goBytes "‚îÄ")
    sb
  let sb := sb ++ goBytes "‚îÇ     ‚ïë\n"
  -- Bottom info
  let sb := sb ++ goBytes "  ‚ïë     ‚îÇ"
  let info ← centerText (goBytes ("‚Üê " ++ possession ++ " BALL ‚Üí")) (fieldWidth - 12)
  let sb := sb ++ info
  let sb := sb ++ goBytes "‚îÇ     ‚ïë\n"
  -- Bottom border
  let border ← stringsRepeat "‚ïê" fieldWidth
  let sb := sb ++ (goBytes "  ‚ïö" ++ border ++ goBytes "‚ïù\n")
  pure sb

/-- The call `RenderField(yardsToEndzone, possession, true)` of
`Model.renderPlain`, with the arguments it computes from the summary: 50 yards
when the summary's yards-to-endzone is 0, the current play's possession when
there is a current play. -/
def renderPlainField (summary : GameSummary) : Option (List Nat) :=
  let yardsToEndzone := summary.YardsToEndzone
  let yardsToEndzone := if yardsToEndzone = 0 then 50 else yardsToEndzone
  let possession :=
    match summary.CurrentPlay with
    | some currentPlay => currentPlay.Possession
    | none => ""
  renderFieldPlain yardsToEndzone possession

/-! ### Runs of the replay view -/

/-- The number of auto-advance ticks a command schedules: the commands
`tea.Tick` that deliver a `replayAutoTickMsg`. -/
def Cmd.autoTicks : Cmd → Nat
  | .tick _ .replayAutoTickMsg => 1
  | .batch cmds => sumTicks cmds
  | _ => 0
where
  /-- The auto-advance ticks of the commands of a batch. -/
  sumTicks : List Cmd → Nat
    | [] => 0
    | c :: cs => Cmd.autoTicks c + sumTicks cs

/-- The number of fetches a command starts: the commands `fetchGameDataCmd`
and `fetchReplayDataCmd`, also inside a batch. -/
def Cmd.fetches : Cmd → Nat
  | .fetchGameData _ _ => 1
  | .fetchReplayData _ _ => 1
  | .batch cmds => sumFetches cmds
  | _ => 0
where
  /-- The fetches of the commands of a batch. -/
  sumFetches : List Cmd → Nat
    | [] => 0
    | c :: cs => Cmd.fetches c + sumFetches cs

/-- The model after the replay view has handled the messages in order. -/
def ReplayModel.run (m : ReplayModel) : List Msg → ReplayModel
  | [] => m
  | msg :: rest => ((m.Update msg).1).run rest

/-- The replay view together with the number of auto-advance ticks that are
pending: a delivered `replayAutoTickMsg` takes one pending tick away, every
auto-advance tick in the command that `Update` returns adds one.  `none` when
the messages deliver a tick while none is pending. -/
def ReplayModel.runPending (m : ReplayModel) (pending : Nat) :
    List Msg → Option (ReplayModel × Nat)
  | [] => some (m, pending)
  | msg :: rest =>
    if msg = .replayAutoTickMsg ∧ pending = 0 then none
    else
      let pending := if msg = .replayAutoTickMsg then pending - 1 else pending
      let (m', cmd) := m.Update msg
      m'.runPending (pending + cmd.autoTicks) rest

/-! ### Sample states -/

/-- A spinner that never changes. -/
def sampleBubbles : Bubbles :=
  { spinnerNew := { frame := 0, id := 1, tag := 0 }
    spinnerTick := fun sp => { ID := sp.id, tag := sp.tag }
    spinnerUpdate := fun sp _ => (sp, .none)
    spinnerView := fun _ => "." }

/-- The service over the client for the public API. -/
def sampleService : ScoreService := { client := { baseURL := client.baseURL } }

/-- A live summary with the given scores whose current play has the given
identifier and possession; the play is also the one recent play. -/
def liveSummary (home away : Int) (playID possession : String) : GameSummary :=
  { Game :=
      { ID := "401547"
        HomeTeam := { Name := "Buffalo Bills", Abbreviation := "BUF", Score := home }
        AwayTeam := { Name := "New England Patriots", Abbreviation := "NE", Score := away }
        Status := GameStatus.StatusInProgress }
    CurrentPlay := some { ID := playID, Text := "play " ++ playID, Possession := possession }
    RecentPlays := Slice.alloc [{ ID := playID, Text := "play " ++ playID }] }

/-- A live summary with the given scores and no current play. -/
def liveSummaryNoPlay (home away : Int) : GameSummary :=
  { Game :=
      { ID := "401547"
        HomeTeam := { Name := "Buffalo Bills", Abbreviation := "BUF", Score := home }
        AwayTeam := { Name := "New England Patriots", Abbreviation := "NE", Score := away }
        Status := GameStatus.StatusInProgress }
    RecentPlays := Slice.alloc [] }

/-- The live model that holds the summary `7 : 3`, play "p1", NE in
possession, after its first successful fetch. -/
def sampleModel : Model :=
  { NewModel sampleBubbles "401547" sampleService false with
    loading := false
    summary := some (liveSummary 7 3 "p1" "NE")
    lastPlayID := "p1"
    lastPossession := "NE" }

/-- A live summary `7 : 3` with three recent plays, newest first. -/
def threePlaySummary : GameSummary :=
  { liveSummary 7 3 "p3" "NE" with
    RecentPlays := Slice.alloc
      [{ ID := "p3", Text := "play p3" }, { ID := "p2", Text := "play p2" },
       { ID := "p1", Text := "play p1" }] }

/-- The live model that holds the three-play summary with the selection at
`i`. -/
def sampleModelAt (i : Int) : Model :=
  { NewModel sampleBubbles "401547" sampleService false with
    loading := false
    summary := some threePlaySummary
    lastPlayID := "p3"
    lastPossession := "NE"
    selectedPlay := i }

/-- A replay of `n` plays, numbered from 0. -/
def sampleReplay (n : Nat) : GameReplay :=
  { Game := { ID := "401547" }
    Plays := Slice.alloc ((List.range n).map (fun i => { ID := toString i }))
    Drives := Slice.alloc [] }

/-- The replay model that holds a replay of `n` plays with the cursor at
`i`. -/
def sampleReplayModel (n : Nat) (i : Int) : ReplayModel :=
  { NewReplayModel "401547" sampleService false false with
    loading := false
    replay := some (sampleReplay n)
    playIndex := i }

end ui

/-! ## Package `formatter`: the statistics -/

namespace formatter

open models

/-- Go's `TerminalFormatter`. -/
structure TerminalFormatter where
  width : Int
  plain : Bool
deriving DecidableEq, Repr

/-- Go's `NewTerminalFormatter`. -/
def NewTerminalFormatter (width : Int) (plain : Bool) : TerminalFormatter :=
  let width := if width ≤ 0 then 80 else width
  { width := width, plain := plain }

/-- The texts that `formatStatsPlain` and `formatStatsStyled` build from
statistics that are present, and the text of `FormatError`; the layout of
these texts is not modelled. -/
structure Texts where
  statsPlain : GameStats → String
  statsStyled : GameStats → String
  error : TerminalFormatter → String → String

/-- Go's `formatStatsPlain`: its first statement, `g := stats.Game`, reads
through the pointer `stats`, so a nil pointer (`none`) is a run-time panic
(`none`). -/
def TerminalFormatter.formatStatsPlain (_f : TerminalFormatter) (t : Texts)
    (stats : Option GameStats) : Option String :=
  match stats with
  | none => none
  | some stats => some (t.statsPlain stats)

/-- Go's `formatStatsStyled`: as `formatStatsPlain`, it starts with
`g := stats.Game`. -/
def TerminalFormatter.formatStatsStyled (_f : TerminalFormatter) (t : Texts)
    (stats : Option GameStats) : Option String :=
  match stats with
  | none => none
  | some stats => some (t.statsStyled stats)

/-- Go's `FormatGameStats`; `none` is a run-time panic. -/
def TerminalFormatter.FormatGameStats (f : TerminalFormatter) (t : Texts)
    (stats : Option GameStats) : Option String :=
  if f.plain then f.formatStatsPlain t stats
  else f.formatStatsStyled t stats

end formatter

/-! ## Package `main`: the stats mode -/

namespace main

open models client service formatter

/-- How a run of a mode ends: the text printed to standard output, an exit
with a code after a text on standard error, or a run-time panic. -/
inductive Outcome where
  | printed (text : String)
  | exited (code : Nat) (stderr : String)
  | panicked
deriving DecidableEq, Repr

/-- Go's `runStatsMode` for a game identifier that is given (`gameID != ""`):
fetch the statistics and print them. -/
def runStatsMode (lib : Lib) (t : Texts) (svc : ScoreService) (f : TerminalFormatter)
    (gameID : String) : Outcome :=
  match (GetGameStats lib svc gameID).result with
  | .error err => .exited 1 (t.error f err)
  | .ok stats =>
    match f.FormatGameStats t stats with
    | none => .panicked
    | some text => .printed text

/-! ### Sample collaborators -/

/-- A summary payload whose header has no competitions. -/
def noCompetitionsSummary : SummaryResponse := { Header := { ID := "401547" } }

/-- A library whose transport answers every request with status 200 and whose
decoder yields the given summary payload. -/
def sampleLib (summary : SummaryResponse) : Lib :=
  { httpGet := fun _ => .ok { StatusCode := 200, Body := [] }
    decodeScoreboard := fun _ => .ok {}
    decodeSummary := fun _ => .ok summary
    parseRFC3339 := fun _ => none }

/-- Texts that only name the formatter that built them. -/
def sampleTexts : Texts :=
  { statsPlain := fun _ => "plain statistics"
    statsStyled := fun _ => "styled statistics"
    error := fun _ err => "Error: " ++ err }

end main

/-! # Properties -/

/-! ## Scoreboard mapping -/

namespace models

open GameStatus

/-- The event loop of `ToGames` appends, to the games built so far, the Game
of every event that has a competition, in order. -/
theorem ToGames_loop (parseRFC3339 : String → Option Time) (evs : List Event)
    (acc : List Game) :
    evs.foldl
        (fun games event =>
          match event.Competitions with
          | [] => games
          | comp0 :: _ => games.append (eventGame parseRFC3339 event comp0))
        (Slice.alloc acc)
      = Slice.alloc (acc ++ evs.filterMap (fun e =>
          match e.Competitions with
          | [] => none
          | comp0 :: _ => some (eventGame parseRFC3339 e comp0))) := by
  induction evs generalizing acc with
  | nil => simp
  | cons e rest ih =>
    cases hc : e.Competitions with
    | nil => simp [List.foldl_cons, List.filterMap_cons, hc, ih]
    | cons c0 cs =>
      rw [List.foldl_cons, List.filterMap_cons]
      simp only [hc]
      rw [show (Slice.alloc acc).append (eventGame parseRFC3339 e c0)
        = Slice.alloc (acc ++ [eventGame parseRFC3339 e c0]) from rfl, ih]
      simp

/-- The games of `ToGames`, as a list. -/
theorem ToGames_toList (parseRFC3339 : String → Option Time) (r : ScoreboardResponse) :
    r.ToGames parseRFC3339
      = Slice.alloc (r.Events.filterMap (fun e =>
          match e.Competitions with
          | [] => none
          | comp0 :: _ => some (eventGame parseRFC3339 e comp0))) := by
  unfold ScoreboardResponse.ToGames Slice.make0
  rw [ToGames_loop]
  simp

/-- The competitor loop changes neither the identifier, the status nor the
status text of the game. -/
theorem foldl_setCompetitor_fixed (cs : List Competitor) (g : Game) :
    (cs.foldl setCompetitor g).ID = g.ID ∧ (cs.foldl setCompetitor g).Status = g.Status := by
  induction cs generalizing g with
  | nil => simp
  | cons c rest ih =>
    rw [List.foldl_cons]
    obtain ⟨h1, h2⟩ := ih (setCompetitor g c)
    rw [h1, h2]
    unfold setCompetitor
    split <;> simp

theorem eventGame_ID (parseRFC3339 : String → Option Time) (e : Event) (c0 : Competition) :
    (eventGame parseRFC3339 e c0).ID = e.ID := by
  unfold eventGame
  rw [(foldl_setCompetitor_fixed _ _).1]
  cases parseRFC3339 e.Date <;> rfl

theorem eventGame_Status (parseRFC3339 : String → Option Time) (e : Event) (c0 : Competition) :
    (eventGame parseRFC3339 e c0).Status = mapStatus e.Status.Type_.State := by
  unfold eventGame
  rw [(foldl_setCompetitor_fixed _ _).2]
  cases parseRFC3339 e.Date <;> rfl

/-- Mapping a function over the games of the events that have a competition,
when the function's value on a game is a function of the event. -/
theorem map_filterMap_eventGame {β : Type} (parseRFC3339 : String → Option Time)
    (f : Game → β) (g : Event → β)
    (hfg : ∀ e c0, f (eventGame parseRFC3339 e c0) = g e) (evs : List Event) :
    (evs.filterMap (fun e =>
        match e.Competitions with
        | [] => none
        | comp0 :: _ => some (eventGame parseRFC3339 e comp0))).map f
      = (evs.filter (fun e => decide (e.Competitions.length ≥ 1))).map g := by
  induction evs with
  | nil => simp
  | cons e rest ih =>
    cases hc : e.Competitions with
    | nil => simp [List.filterMap_cons, List.filter_cons, hc, ih]
    | cons c0 cs => simp [List.filterMap_cons, List.filter_cons, hc, ih, hfg]

/-- C1: for every scoreboard payload `ToGames` returns an allocated slice with
exactly one Game per event that has at least one competition, in the order of
the events: the identifiers of the returned games are, position by position,
the identifiers of those events; events without a competition are dropped. -/
theorem ToGames_one_game_per_event (parseRFC3339 : String → Option Time)
    (r : ScoreboardResponse) :
    (r.ToGames parseRFC3339).isNil = false ∧
    (r.ToGames parseRFC3339).len
      = (r.Events.filter (fun e => decide (e.Competitions.length ≥ 1))).length ∧
    (r.ToGames parseRFC3339).toList.map Game.ID
      = (r.Events.filter (fun e => decide (e.Competitions.length ≥ 1))).map Event.ID := by
  have hmap := map_filterMap_eventGame parseRFC3339 Game.ID Event.ID
    (eventGame_ID parseRFC3339) r.Events
  rw [ToGames_toList]
  refine ⟨rfl, ?_, hmap⟩
  have hlen := congrArg List.length hmap
  simpa [Slice.len, Slice.toList] using hlen

/-- C2: `mapStatus` sends "in" to InProgress, "post" to Final and every other
string, the empty one included, to Scheduled; and the statuses of the games
that `ToGames` returns are, position by position, what `mapStatus` assigns to
the `status.type.state` of the events that have a competition. -/
theorem mapStatus_and_ToGames_status (parseRFC3339 : String → Option Time)
    (r : ScoreboardResponse) :
    (∀ s : String,
      (s = "in" ∧ mapStatus s = StatusInProgress) ∨
      (s = "post" ∧ mapStatus s = StatusFinal) ∨
      (s ≠ "in" ∧ s ≠ "post" ∧ mapStatus s = StatusScheduled)) ∧
    mapStatus "" = StatusScheduled ∧
    (r.ToGames parseRFC3339).toList.map Game.Status
      = (r.Events.filter (fun e => decide (e.Competitions.length ≥ 1))).map
          (fun e => mapStatus e.Status.Type_.State) := by
  refine ⟨?_, by decide, ?_⟩
  · intro s
    by_cases h1 : s = "in"
    · left; subst h1; exact ⟨rfl, by decide⟩
    · by_cases h2 : s = "post"
      · right; left; subst h2; exact ⟨rfl, by decide⟩
      · right; right; exact ⟨h1, h2, by simp [mapStatus, h1, h2]⟩
  · rw [ToGames_toList]
    exact map_filterMap_eventGame parseRFC3339 Game.Status
      (fun e => mapStatus e.Status.Type_.State) (eventGame_Status parseRFC3339) r.Events

end models

/-! ## `strconv.Atoi` on strings that are no integers -/

theorem utf8Bytes_lt (c : Char) : ∀ b ∈ utf8Bytes c, b < 256 := by
  have hc : c.toNat < 0x110000 := by
    have h := c.valid
    show c.val.toNat < 0x110000
    rcases h with h | h
    · exact Nat.lt_trans h (by decide)
    · exact h.2
  intro b hb
  unfold utf8Bytes at hb
  simp only at hb
  split_ifs at hb <;> simp at hb <;> omega

theorem goBytes_lt (s : String) : ∀ b ∈ goBytes s, b < 256 := by
  intro b hb
  unfold goBytes at hb
  rw [List.mem_flatMap] at hb
  obtain ⟨c, _, hc⟩ := hb
  exact utf8Bytes_lt c b hc

namespace strconv

theorem le_digitsValue (ds : List Nat) (n : Nat) : n ≤ digitsValue n ds := by
  induction ds generalizing n with
  | nil => exact Nat.le_refl n
  | cons d rest ih =>
    have h := ih (n * 10 + (d - 48))
    have h' : digitsValue n (d :: rest) = digitsValue (n * 10 + (d - 48)) rest := rfl
    omega

/-- The fast path reports a syntax error when some byte is no digit. -/
theorem atoiFastLoop_none (cs : List Nat) (n : Nat) (hlt : ∀ b ∈ cs, b < 256)
    (hbad : cs.all isDigitByte = false) : atoiFastLoop cs n = none := by
  induction cs generalizing n with
  | nil => simp at hbad
  | cons c rest ih =>
    unfold atoiFastLoop
    have hc : c < 256 := hlt c (List.mem_cons_self c rest)
    by_cases hd : isDigitByte c = true
    · have hrest : rest.all isDigitByte = false := by
        rw [List.all_cons, hd] at hbad
        simpa using hbad
      have hd' : 48 ≤ c ∧ c ≤ 57 := by simpa [isDigitByte] using hd
      have h9 : ¬ (c + 256 - 48) % 256 > 9 := by omega
      simp only [h9, if_false]
      exact ih _ (fun b hb => hlt b (List.mem_cons_of_mem c hb)) hrest
    · have hd' : ¬ (48 ≤ c ∧ c ≤ 57) := by simpa [isDigitByte] using hd
      have h9 : (c + 256 - 48) % 256 > 9 := by omega
      simp only [h9, if_true]

/-- The digit loop of `ParseUint` reports a syntax error, with value 0, when it
meets a byte that is no digit before the digits read overflow 64 bits. -/
theorem parseUintLoop_syntaxError (cs : List Nat) (n : Nat)
    (hfit : digitsValue n (cs.takeWhile isDigitByte) < 2 ^ 64)
    (hbad : cs.all isDigitByte = false) :
    parseUintLoop (2 ^ 64 - 1) ((2 ^ 64 - 1) / 10 + 1) cs n = (0, some .ErrSyntax) := by
  induction cs generalizing n with
  | nil => simp at hbad
  | cons c rest ih =>
    unfold parseUintLoop
    by_cases hd : isDigitByte c = true
    · have hrest : rest.all isDigitByte = false := by
        rw [List.all_cons, hd] at hbad
        simpa using hbad
      have hd' : 48 ≤ c ∧ c ≤ 57 := by simpa [isDigitByte] using hd
      rw [List.takeWhile_cons, if_pos hd] at hfit
      have hfit' : digitsValue (n * 10 + (c - 48)) (rest.takeWhile isDigitByte) < 2 ^ 64 := hfit
      have hle := le_digitsValue (rest.takeWhile isDigitByte) (n * 10 + (c - 48))
      have hn : n * 10 + (c - 48) < 2 ^ 64 := Nat.lt_of_le_of_lt hle hfit'
      norm_num at hn
      have e1 : (n * 10) % 18446744073709551616 = n * 10 := Nat.mod_eq_of_lt (by omega)
      have e2 : (n * 10 + (c - 48)) % 18446744073709551616 = n * 10 + (c - 48) :=
        Nat.mod_eq_of_lt hn
      have h10 : ¬ c - 48 ≥ 10 := by omega
      have hcut : ¬ n ≥ 1844674407370955162 := by omega
      have hov : ¬ (n * 10 + (c - 48) < n * 10 ∨ n * 10 + (c - 48) > 18446744073709551615) := by
        omega
      have ih' := ih (n * 10 + (c - 48)) hfit' hrest
      norm_num at ih'
      norm_num [hd', h10, hcut, e1, e2, hov, ih']
      omega
    · have hd' : ¬ (48 ≤ c ∧ c ≤ 57) := by simpa [isDigitByte] using hd
      simp only [hd', if_false]
      split
      · rfl
      · rename_i d hdeq
        split at hdeq
        · have : d = lower c - 97 + 10 := by simpa using hdeq.symm
          have h10 : d ≥ 10 := by omega
          simp [h10]
        · simp at hdeq

/-- On bytes that are not written as a decimal integer and whose leading digits
fit 64 bits, `Atoi` reports a syntax error with value 0. -/
theorem atoiBytes_syntaxError (s : List Nat) (hlt : ∀ b ∈ s, b < 256)
    (hbad : isIntegerSyntax s = false) (hfit : leadingValue s < 2 ^ 64) :
    atoiBytes s = (0, some .ErrSyntax) := by
  cases s with
  | nil => decide
  | cons c0 rest =>
    have hu : unsigned (c0 :: rest) = if c0 = 43 ∨ c0 = 45 then rest else c0 :: rest := rfl
    have hall : unsigned (c0 :: rest) = [] ∨ (unsigned (c0 :: rest)).all isDigitByte = false := by
      unfold isIntegerSyntax at hbad
      cases hemp : unsigned (c0 :: rest) with
      | nil => exact Or.inl rfl
      | cons x xs =>
        right
        rw [hemp] at hbad
        simpa using hbad
    unfold atoiBytes
    dsimp only
    by_cases hfast : (intSize = 32 ∧ 0 < (c0 :: rest).length ∧ (c0 :: rest).length < 10) ∨
        (intSize = 64 ∧ 0 < (c0 :: rest).length ∧ (c0 :: rest).length < 19)
    · -- the fast path
      rw [if_pos hfast]
      by_cases hsign : c0 = 45 ∨ c0 = 43
      · have hsign' : c0 = 43 ∨ c0 = 45 := hsign.symm
        rw [if_pos hsign'] at hu
        simp only [hsign, if_true, true_and]
        rw [hu] at hall
        rcases hall with h | h
        · subst h; simp
        · have hl : ¬ rest.length < 1 := by
            cases rest with
            | nil => simp at h
            | cons x xs => simp
          simp only [hl, if_false]
          rw [atoiFastLoop_none rest 0 (fun b hb => hlt b (List.mem_cons_of_mem c0 hb)) h]
      · have hsign' : ¬ (c0 = 43 ∨ c0 = 45) := fun h => hsign h.symm
        rw [if_neg hsign'] at hu
        simp only [hsign, if_false, false_and]
        rw [hu] at hall
        rcases hall with h | h
        · exact absurd h (List.cons_ne_nil c0 rest)
        · rw [atoiFastLoop_none (c0 :: rest) 0 hlt h]
    · -- the slow path, through `ParseInt`
      rw [if_neg hfast]
      unfold ParseInt
      have hbody : (if c0 = 43 then rest else if c0 = 45 then rest else c0 :: rest)
          = unsigned (c0 :: rest) := by
        rw [hu]
        by_cases h1 : c0 = 43
        · simp [h1]
        · by_cases h2 : c0 = 45 <;> simp [h1, h2]
      simp only [hbody]
      have hpu : ParseUint (unsigned (c0 :: rest)) intSize = (0, some .ErrSyntax) := by
        unfold ParseUint
        rcases hall with h | h
        · simp [h]
        · have hne : unsigned (c0 :: rest) ≠ [] := by
            intro h0
            rw [h0] at h
            simp at h
          simp only [hne, if_false]
          exact parseUintLoop_syntaxError _ 0 hfit h
      rw [hpu]
      simp

/-- `Atoi` on a string that is not written as a decimal integer and whose
leading digits fit 64 bits: value 0, syntax error. -/
theorem Atoi_syntaxError (s : String) (hbad : isIntegerSyntax (goBytes s) = false)
    (hfit : leadingValue (goBytes s) < 2 ^ 64) : Atoi s = (0, some .ErrSyntax) :=
  atoiBytes_syntaxError (goBytes s) (goBytes_lt s) hbad hfit

end strconv

namespace models

/-- A team stored in its slot stays there while the competitors that follow
all go to the other slot. -/
theorem foldl_setCompetitor_keeps (post : List Competitor) (g : Game) (c : Competitor)
    (t : Team) (hpost : ∀ x ∈ post, (x.HomeAway = "home" ↔ ¬ c.HomeAway = "home"))
    (hg : (if c.HomeAway = "home" then g.HomeTeam else g.AwayTeam) = t) :
    (if c.HomeAway = "home" then (post.foldl setCompetitor g).HomeTeam
      else (post.foldl setCompetitor g).AwayTeam) = t := by
  induction post generalizing g with
  | nil => exact hg
  | cons x rest ih =>
    rw [List.foldl_cons]
    apply ih (setCompetitor g x) (fun y hy => hpost y (List.mem_cons_of_mem x hy))
    have hx := hpost x (List.mem_cons_self x rest)
    unfold setCompetitor
    by_cases hc : c.HomeAway = "home"
    · have hxn : ¬ x.HomeAway = "home" := fun h => (hx.mp h) hc
      simpa [hc, hxn] using hg
    · have hxh : x.HomeAway = "home" := hx.mpr hc
      simpa [hc, hxh] using hg

/-- C3 (amended): a competitor score string that is not written as a decimal
integer (empty, a bare sign, non-numeric, trailing garbage) and whose leading
digits do not exceed 64 bits gives Score 0, and `ToGames` still returns the
game: for every event of the payload with a first competition, and every
competitor of it that no later competitor of the same side overwrites, the
returned game of that event holds, in the competitor's slot, the competitor's
team with Score 0. -/
theorem ToGames_score_zero_on_syntax_error (parseRFC3339 : String → Option Time)
    (r : ScoreboardResponse) (e : Event) (comp0 : Competition) (others : List Competition)
    (pre post : List Competitor) (c : Competitor)
    (he : e ∈ r.Events) (hcomp : e.Competitions = comp0 :: others)
    (hsplit : comp0.Competitors = pre ++ c :: post)
    (hlast : ∀ x ∈ post, (x.HomeAway = "home" ↔ ¬ c.HomeAway = "home"))
    (hbad : strconv.isIntegerSyntax (goBytes c.Score) = false)
    (hfit : strconv.leadingValue (goBytes c.Score) < 2 ^ 64) :
    ∃ g ∈ (r.ToGames parseRFC3339).toList, g.ID = e.ID ∧
      (if c.HomeAway = "home" then g.HomeTeam else g.AwayTeam)
        = { Name := c.Team.DisplayName, Abbreviation := c.Team.Abbreviation, Score := 0 } := by
  refine ⟨eventGame parseRFC3339 e comp0, ?_, eventGame_ID parseRFC3339 e comp0, ?_⟩
  · rw [ToGames_toList]
    show _ ∈ List.filterMap _ r.Events
    rw [List.mem_filterMap]
    exact ⟨e, he, by simp [hcomp]⟩
  · unfold eventGame
    dsimp only
    rw [hsplit, List.foldl_append, List.foldl_cons]
    apply foldl_setCompetitor_keeps post _ c _ hlast
    unfold setCompetitor
    rw [strconv.Atoi_syntaxError c.Score hbad hfit]
    by_cases hc : c.HomeAway = "home" <;> simp [hc]

/-- C3, witness: the home score "12a" (trailing garbage) of a one-event payload
becomes Score 0. -/
theorem ToGames_score_zero_on_syntax_error_witness :
    ∃ g ∈ (({ Events := [{ ID := "401", Competitions := [{ Competitors :=
          [{ HomeAway := "home", Team := { DisplayName := "Bills", Abbreviation := "BUF" },
             Score := "12a" },
           { HomeAway := "away", Team := { DisplayName := "Jets", Abbreviation := "NYJ" },
             Score := "7" }] }] }] } : ScoreboardResponse).ToGames
          (fun _ => none)).toList,
      g.ID = "401" ∧ g.HomeTeam = { Name := "Bills", Abbreviation := "BUF", Score := 0 } :=
  ToGames_score_zero_on_syntax_error (fun _ => none) _
    { ID := "401", Competitions := [{ Competitors :=
          [{ HomeAway := "home", Team := { DisplayName := "Bills", Abbreviation := "BUF" },
             Score := "12a" },
           { HomeAway := "away", Team := { DisplayName := "Jets", Abbreviation := "NYJ" },
             Score := "7" }] }] }
    _ [] []
    [{ HomeAway := "away", Team := { DisplayName := "Jets", Abbreviation := "NYJ" },
       Score := "7" }]
    { HomeAway := "home", Team := { DisplayName := "Bills", Abbreviation := "BUF" },
      Score := "12a" }
    (List.mem_singleton.mpr rfl) rfl rfl (by decide) (by decide) (by decide)

/-- C3, counterexample: the score "9223372036854775808", a digit string too
large for the 64-bit integer type, does not parse (`Atoi` reports a range
error), yet the Team that `ToGames` builds has Score 9223372036854775807, not
0. -/
theorem ToGames_score_out_of_range_not_zero :
    (strconv.Atoi "9223372036854775808").2 = some strconv.NumError.ErrRange ∧
    (({ Events := [{ ID := "401", Competitions := [{ Competitors :=
          [{ HomeAway := "home", Team := { DisplayName := "Bills", Abbreviation := "BUF" },
             Score := "9223372036854775808" }] }] }] } : ScoreboardResponse).ToGames
        (fun _ => none)).toList.map (fun g => (g.HomeTeam.Score, decide (g.HomeTeam.Score = 0)))
      = [(9223372036854775807, false)] := by
  decide

end models

/-! ## The validation patterns -/

namespace regexp

theorem iter_digit (n i : Nat) (cs : List Char) :
    iter (fun s => Regexp.ends .digit s) n (i, cs)
      = if n ≤ cs.length ∧ (cs.take n).all Char.isDigit = true then [(i + n, cs.drop n)] else [] := by
  induction n generalizing i cs with
  | zero => simp [iter]
  | succ n ih =>
    cases cs with
    | nil => simp [iter, Regexp.ends]
    | cons c rest =>
      by_cases hc : c.isDigit = true
      · simp [iter, Regexp.ends, hc, ih, Nat.add_assoc, Nat.add_comm 1 n]
      · simp [iter, Regexp.ends, hc]

theorem anchored_MatchString (x : Regexp) (s : String) :
    (Regexp.concat .beginText x).MatchString s = !(x.ends (0, s.data)).isEmpty := by
  unfold Regexp.MatchString
  rw [List.range_succ_eq_map, List.any_cons]
  have h : ((List.map Nat.succ (List.range s.data.length)).any
      (fun i => !((Regexp.concat .beginText x).ends (i, s.data.drop i)).isEmpty)) = false := by
    rw [List.any_eq_false]
    intro i hi
    rw [List.mem_map] at hi
    obtain ⟨j, _, rfl⟩ := hi
    simp [Regexp.ends]
  rw [h]
  simp [Regexp.ends]

theorem plus_digit_end (cs : List Char) (fuel i : Nat) (hfuel : cs.length ≤ fuel) :
    (plusIter (fun s => Regexp.ends .digit s) fuel (i, cs)).flatMap
        (fun s => Regexp.ends .endText s) = []
      ↔ (cs = [] ∨ cs.all Char.isDigit = false) := by
  induction cs generalizing fuel i with
  | nil =>
    cases fuel with
    | zero => simp [plusIter]
    | succ k => simp [plusIter, Regexp.ends]
  | cons c rest ih =>
    cases fuel with
    | zero => simp at hfuel
    | succ k =>
      have hk : rest.length ≤ k := by simpa using hfuel
      by_cases hc : c.isDigit = true
      · have hstep : plusIter (fun s => Regexp.ends .digit s) (k + 1) (i, c :: rest)
            = (i + 1, rest) :: plusIter (fun s => Regexp.ends .digit s) k (i + 1, rest) := by
          simp [plusIter, Regexp.ends, hc]
        rw [hstep, List.flatMap_cons, List.append_eq_nil, ih k (i + 1) hk]
        cases rest with
        | nil => simp [Regexp.ends, hc]
        | cons r rs => simp [Regexp.ends, hc]
      · simp [plusIter, Regexp.ends, hc]

end regexp

namespace client

open models regexp

theorem singleDatePattern_MatchString (s : String) :
    singleDatePattern.MatchString s = isEightDigits s.data := by
  unfold singleDatePattern isEightDigits
  rw [anchored_MatchString]
  generalize s.data = cs
  simp only [Regexp.ends, iter_digit]
  by_cases h8 : cs.length = 8
  · have ht : cs.take 8 = cs := List.take_of_length_le (by omega)
    have hd : cs.drop 8 = [] := List.drop_of_length_le (by omega)
    by_cases hall : cs.all Char.isDigit = true
    · simp [h8, ht, hd, hall]
    · simp [h8, ht, hd, hall]
  · by_cases hle : 8 ≤ cs.length ∧ (cs.take 8).all Char.isDigit = true
    · have hd : cs.drop 8 ≠ [] := by
        intro h0
        have := List.drop_eq_nil_iff.mp h0
        omega
      rw [if_pos hle]
      simp [h8, hd]
    · rw [if_neg hle]
      simp [h8]

theorem gameIDPattern_MatchString (s : String) :
    gameIDPattern.MatchString s = isNumeric s.data := by
  unfold gameIDPattern isNumeric
  rw [anchored_MatchString]
  generalize s.data = cs
  have h := plus_digit_end cs (cs.length + 1) 0 (Nat.le_succ _)
  have e : (Regexp.concat (.plus .digit) .endText).ends (0, cs)
      = (plusIter (fun s => Regexp.ends .digit s) (cs.length + 1) (0, cs)).flatMap
        (fun s => Regexp.ends .endText s) := by
    simp [Regexp.ends]
  rw [e]
  cases hl : (plusIter (fun s => Regexp.ends .digit s) (cs.length + 1) (0, cs)).flatMap
        (fun s => Regexp.ends .endText s) with
  | nil =>
    rcases h.mp hl with h1 | h1
    · simp [h1]
    · simp [h1]
  | cons x xs =>
    have hne : ¬ (cs = [] ∨ cs.all Char.isDigit = false) := fun hh => by
      have := h.mpr hh
      rw [hl] at this
      exact List.cons_ne_nil _ _ this
    have h1 : cs ≠ [] := fun h0 => hne (Or.inl h0)
    have h2 : cs.all Char.isDigit = true := by
      cases hb : cs.all Char.isDigit with
      | true => rfl
      | false => exact absurd (Or.inr hb) hne
    cases cs with
    | nil => exact absurd rfl h1
    | cons c rest => simp [h2]

theorem dateRangePattern_MatchString (s : String) :
    dateRangePattern.MatchString s = isDateRange s.data := by
  unfold dateRangePattern isDateRange
  rw [anchored_MatchString]
  generalize s.data = cs
  simp only [Regexp.ends, iter_digit]
  by_cases hle : 8 ≤ cs.length ∧ (cs.take 8).all Char.isDigit = true
  · rw [if_pos hle, List.flatMap_cons, List.flatMap_nil, List.append_nil]
    have hsplit : cs.drop 9 = (cs.drop 8).drop 1 := by rw [List.drop_drop]
    have hlen : (cs.drop 8).length = cs.length - 8 := List.length_drop 8 cs
    rw [hsplit]
    cases hd : cs.drop 8 with
    | nil =>
      rw [hd] at hlen
      have : cs.length ≠ 17 := by simp at hlen; omega
      simp [Regexp.ends, this]
    | cons c rest =>
      rw [hd] at hlen
      simp only [List.length_cons] at hlen
      by_cases hc : c = '-'
      · subst hc
        simp only [Regexp.ends, if_true, List.flatMap_cons, List.flatMap_nil, List.append_nil,
          iter_digit, List.drop_one, List.tail_cons, List.head?_cons]
        by_cases h8 : rest.length = 8
        · have ht : rest.take 8 = rest := List.take_of_length_le (by omega)
          have hdr : rest.drop 8 = [] := List.drop_of_length_le (by omega)
          have h17 : cs.length = 17 := by omega
          by_cases hall : rest.all Char.isDigit = true
          · simp [h8, ht, hdr, hall, h17, hle.2]
          · simp [h8, ht, hdr, hall, h17, hle.2]
        · have h17 : cs.length ≠ 17 := by omega
          by_cases hle2 : 8 ≤ rest.length ∧ (rest.take 8).all Char.isDigit = true
          · have hdr : rest.drop 8 ≠ [] := by
              intro h0
              have := List.drop_eq_nil_iff.mp h0
              omega
            rw [if_pos hle2]
            simp [hdr, h17]
          · rw [if_neg hle2]
            simp [h17]
      · simp [Regexp.ends, hc]
  · rw [if_neg hle]
    have : ¬ (cs.length = 17 ∧ (cs.take 8).all Char.isDigit = true) := by
      intro h
      exact hle ⟨by omega, h.2⟩
    by_cases h17 : cs.length = 17
    · have hf : (cs.take 8).all Char.isDigit = false := by
        cases hb : (cs.take 8).all Char.isDigit with
        | false => rfl
        | true => exact absurd ⟨h17, hb⟩ this
      simp [hf]
    · simp [h17]

theorem append_ne_of_head (p e q : String) (a b : Char) (as bs : List Char)
    (hp : p.data = a :: as) (hq : q.data = b :: bs) (hab : a ≠ b) : p ++ e ≠ q := by
  intro h
  have hd := congrArg String.data h
  rw [String.data_append, hp, hq] at hd
  simp at hd
  exact hab hd.1


/-! ## Request validation in the client -/

/-- With a date token that fails validation the scoreboard fetch returns the
invalid-date-format error and issues no request. -/
theorem FetchScoreboardByDates_invalid (lib : Lib) (c : ESPNClient) (d : String)
    (hd : d ≠ "") (hbad : (isEightDigits d.data || isDateRange d.data) = false) :
    FetchScoreboardByDates lib c d
      = ⟨[], .error "invalid date format: expected YYYYMMDD or YYYYMMDD-YYYYMMDD"⟩ := by
  have h1 : isEightDigits d.data = false := by
    cases h : isEightDigits d.data <;> simp [h] at hbad ⊢
  have h2 : isDateRange d.data = false := by
    cases h : isDateRange d.data <;> simp [h] at hbad ⊢
  unfold FetchScoreboardByDates
  simp [hd, singleDatePattern_MatchString, dateRangePattern_MatchString, h1, h2]

/-- With a date token that passes validation the scoreboard fetch issues one
request, with the token as the `dates` parameter, and its result is not the
invalid-date-format error. -/
theorem FetchScoreboardByDates_valid (lib : Lib) (c : ESPNClient) (d : String)
    (hd : d ≠ "") (hok : (isEightDigits d.data || isDateRange d.data) = true) :
    (FetchScoreboardByDates lib c d).requests
        = [c.baseURL ++ scoreboardPath ++ "?dates=" ++ d] ∧
      (FetchScoreboardByDates lib c d).result
        ≠ .error "invalid date format: expected YYYYMMDD or YYYYMMDD-YYYYMMDD" := by
  have hcond : ¬ (d ≠ "" ∧
      (!dateRangePattern.MatchString d && !singleDatePattern.MatchString d) = true) := by
    rw [singleDatePattern_MatchString, dateRangePattern_MatchString]
    intro h
    have h' := h.2
    cases h1 : isEightDigits d.data <;> cases h2 : isDateRange d.data <;>
      simp [h1, h2] at hok h'
  unfold FetchScoreboardByDates
  dsimp only
  rw [if_neg hcond, if_pos hd]
  cases lib.httpGet (c.baseURL ++ scoreboardPath ++ "?dates=" ++ d) with
  | error err =>
    refine ⟨rfl, ?_⟩
    intro h
    injection h with h
    exact append_ne_of_head _ err _ 'f' 'i' _ _ rfl rfl (by decide) h
  | ok resp =>
    dsimp only
    split_ifs with hs
    · refine ⟨rfl, ?_⟩
      intro h
      injection h with h
      exact append_ne_of_head _ _ _ 'u' 'i' _ _ rfl rfl (by decide) h
    · cases lib.decodeScoreboard (resp.Body.take maxResponseSize) with
      | error err =>
        refine ⟨rfl, ?_⟩
        intro h
        injection h with h
        exact append_ne_of_head _ err _ 'f' 'i' _ _ rfl rfl (by decide) h
      | ok sb => exact ⟨rfl, fun h => by injection h⟩

/-- C4: for every non-empty date token, `FetchScoreboardByDates` fails with the
invalid-date-format error exactly when the token is neither 8 ASCII digits nor
8 ASCII digits, a hyphen and 8 ASCII digits; it then has issued no HTTP
request, and otherwise it issues the request with the token. -/
theorem FetchScoreboardByDates_rejects_iff (lib : Lib) (c : ESPNClient) (d : String)
    (hd : d ≠ "") :
    ((FetchScoreboardByDates lib c d).result
        = .error "invalid date format: expected YYYYMMDD or YYYYMMDD-YYYYMMDD"
      ↔ (isEightDigits d.data || isDateRange d.data) = false) ∧
    (((FetchScoreboardByDates lib c d).result
        = .error "invalid date format: expected YYYYMMDD or YYYYMMDD-YYYYMMDD" ∧
      (FetchScoreboardByDates lib c d).requests = [])
      ↔ (isEightDigits d.data || isDateRange d.data) = false) ∧
    ((FetchScoreboardByDates lib c d).requests
        = [c.baseURL ++ scoreboardPath ++ "?dates=" ++ d]
      ↔ (isEightDigits d.data || isDateRange d.data) = true) := by
  cases hv : (isEightDigits d.data || isDateRange d.data) with
  | false =>
    have h := FetchScoreboardByDates_invalid lib c d hd hv
    refine ⟨⟨fun _ => rfl, fun _ => by rw [h]⟩, ⟨fun _ => rfl, fun _ => by rw [h]; exact ⟨rfl, rfl⟩⟩,
      ⟨fun h' => ?_, fun h' => by cases h'⟩⟩
    rw [h] at h'
    cases h'
  | true =>
    obtain ⟨h1, h2⟩ := FetchScoreboardByDates_valid lib c d hd hv
    refine ⟨⟨fun h => absurd h h2, fun h => by cases h⟩,
      ⟨fun h => absurd h.1 h2, fun h => by cases h⟩, ⟨fun _ => rfl, fun _ => h1⟩⟩

/-- C4, witness: "2024-12-01" and "202412011" are rejected without a request,
"20241201" and "20241201-20241208" pass validation and are requested, here
with a transport that fails every request. -/
theorem FetchScoreboardByDates_rejects_iff_witness :
    (FetchScoreboardByDates
        ⟨fun _ => .error "down", fun _ => .error "json", fun _ => .error "json", fun _ => none⟩
        ⟨baseURL⟩ "2024-12-01").result
      = .error "invalid date format: expected YYYYMMDD or YYYYMMDD-YYYYMMDD" ∧
    (FetchScoreboardByDates
        ⟨fun _ => .error "down", fun _ => .error "json", fun _ => .error "json", fun _ => none⟩
        ⟨baseURL⟩ "202412011").requests = [] ∧
    (FetchScoreboardByDates
        ⟨fun _ => .error "down", fun _ => .error "json", fun _ => .error "json", fun _ => none⟩
        ⟨baseURL⟩ "20241201").requests = [baseURL ++ scoreboardPath ++ "?dates=" ++ "20241201"] ∧
    (FetchScoreboardByDates
        ⟨fun _ => .error "down", fun _ => .error "json", fun _ => .error "json", fun _ => none⟩
        ⟨baseURL⟩ "20241201-20241208").requests
      = [baseURL ++ scoreboardPath ++ "?dates=" ++ "20241201-20241208"] :=
  ⟨(FetchScoreboardByDates_rejects_iff _ _ "2024-12-01" (by decide)).1.mpr (by decide),
   ((FetchScoreboardByDates_rejects_iff _ _ "202412011" (by decide)).2.1.mpr (by decide)).2,
   (FetchScoreboardByDates_rejects_iff _ _ "20241201" (by decide)).2.2.mpr (by decide),
   (FetchScoreboardByDates_rejects_iff _ _ "20241201-20241208" (by decide)).2.2.mpr (by decide)⟩

/-- With an identifier that fails validation the summary fetch returns the
invalid-game-ID error and issues no request. -/
theorem FetchGameSummary_invalid (lib : Lib) (c : ESPNClient) (g : String)
    (hbad : isNumeric g.data = false) :
    FetchGameSummary lib c g = ⟨[], .error "invalid game ID: expected numeric value"⟩ := by
  unfold FetchGameSummary
  simp [gameIDPattern_MatchString, hbad]

/-- With an identifier that passes validation the summary fetch issues one
request, with the identifier as the `event` parameter, and its result is not
the invalid-game-ID error. -/
theorem FetchGameSummary_valid (lib : Lib) (c : ESPNClient) (g : String)
    (hok : isNumeric g.data = true) :
    (FetchGameSummary lib c g).requests = [c.baseURL ++ summaryPath ++ "?event=" ++ g] ∧
      (FetchGameSummary lib c g).result ≠ .error "invalid game ID: expected numeric value" := by
  have hcond : ¬ ((!gameIDPattern.MatchString g) = true) := by
    rw [gameIDPattern_MatchString, hok]
    decide
  unfold FetchGameSummary
  dsimp only
  rw [if_neg hcond]
  cases lib.httpGet (c.baseURL ++ summaryPath ++ "?event=" ++ g) with
  | error err =>
    refine ⟨rfl, ?_⟩
    intro h
    injection h with h
    exact append_ne_of_head _ err _ 'f' 'i' _ _ rfl rfl (by decide) h
  | ok resp =>
    dsimp only
    split_ifs with hs
    · refine ⟨rfl, ?_⟩
      intro h
      injection h with h
      exact append_ne_of_head _ _ _ 'u' 'i' _ _ rfl rfl (by decide) h
    · cases lib.decodeSummary (resp.Body.take maxResponseSize) with
      | error err =>
        refine ⟨rfl, ?_⟩
        intro h
        injection h with h
        exact append_ne_of_head _ err _ 'f' 'i' _ _ rfl rfl (by decide) h
      | ok sm => exact ⟨rfl, fun h => by injection h⟩

/-- The replay fetch issues the requests of the summary fetch, and fails with
a given error exactly when the summary fetch does. -/
theorem FetchGameReplay_of_summary (lib : Lib) (c : ESPNClient) (g msg : String) :
    (FetchGameReplay lib c g).requests = (FetchGameSummary lib c g).requests ∧
    ((FetchGameReplay lib c g).result = .error msg
      ↔ (FetchGameSummary lib c g).result = .error msg) := by
  unfold FetchGameReplay
  dsimp only
  cases h : (FetchGameSummary lib c g).result with
  | error err => exact ⟨rfl, ⟨fun h' => by injection h' with h'; rw [h'],
      fun h' => by injection h' with h'; rw [h']⟩⟩
  | ok sm => exact ⟨rfl, ⟨fun h' => by injection h', fun h' => by injection h'⟩⟩

/-- The statistics fetch issues the requests of the summary fetch, and fails
with a given error exactly when the summary fetch does. -/
theorem FetchGameStats_of_summary (lib : Lib) (c : ESPNClient) (g msg : String) :
    (FetchGameStats lib c g).requests = (FetchGameSummary lib c g).requests ∧
    ((FetchGameStats lib c g).result = .error msg
      ↔ (FetchGameSummary lib c g).result = .error msg) := by
  unfold FetchGameStats
  dsimp only
  cases h : (FetchGameSummary lib c g).result with
  | error err => exact ⟨rfl, ⟨fun h' => by injection h' with h'; rw [h'],
      fun h' => by injection h' with h'; rw [h']⟩⟩
  | ok sm => exact ⟨rfl, ⟨fun h' => by injection h', fun h' => by injection h'⟩⟩

/-- The summary fetch: the invalid-game-ID error exactly for the identifiers
that are not numeric, and then no request. -/
theorem FetchGameSummary_cases (lib : Lib) (c : ESPNClient) (g : String) :
    ((FetchGameSummary lib c g).result = .error "invalid game ID: expected numeric value"
      ↔ isNumeric g.data = false) ∧
    ((FetchGameSummary lib c g).requests = [] ↔ isNumeric g.data = false) := by
  cases hv : isNumeric g.data with
  | false =>
    rw [FetchGameSummary_invalid lib c g hv]
    exact ⟨⟨fun _ => rfl, fun _ => rfl⟩, ⟨fun _ => rfl, fun _ => rfl⟩⟩
  | true =>
    obtain ⟨h1, h2⟩ := FetchGameSummary_valid lib c g hv
    refine ⟨⟨fun h => absurd h h2, fun h => by cases h⟩, ⟨fun h => ?_, fun h => by cases h⟩⟩
    rw [h1] at h
    cases h

/-- C5: for every game identifier, `FetchGameSummary` fails with the
invalid-game-ID error exactly when the identifier is not a non-empty string of
ASCII digits, and it has issued an HTTP request exactly when the identifier is
one; `FetchGameReplay` and `FetchGameStats` reject the same identifiers, with
the same error and without a request.  The empty string, "abc" and "12a" are
rejected. -/
theorem FetchGameSummary_rejects_iff (lib : Lib) (c : ESPNClient) (g : String) :
    (((FetchGameSummary lib c g).result = .error "invalid game ID: expected numeric value"
        ↔ isNumeric g.data = false) ∧
      ((FetchGameSummary lib c g).requests = [] ↔ isNumeric g.data = false)) ∧
    (((FetchGameReplay lib c g).result = .error "invalid game ID: expected numeric value"
        ↔ isNumeric g.data = false) ∧
      ((FetchGameReplay lib c g).requests = [] ↔ isNumeric g.data = false)) ∧
    (((FetchGameStats lib c g).result = .error "invalid game ID: expected numeric value"
        ↔ isNumeric g.data = false) ∧
      ((FetchGameStats lib c g).requests = [] ↔ isNumeric g.data = false)) ∧
    isNumeric "".data = false ∧ isNumeric "abc".data = false ∧ isNumeric "12a".data = false := by
  have hs := FetchGameSummary_cases lib c g
  have hr := FetchGameReplay_of_summary lib c g "invalid game ID: expected numeric value"
  have ht := FetchGameStats_of_summary lib c g "invalid game ID: expected numeric value"
  refine ⟨hs, ⟨?_, ?_⟩, ⟨?_, ?_⟩, by decide, by decide, by decide⟩
  · rw [hr.2]; exact hs.1
  · rw [hr.1]; exact hs.2
  · rw [ht.2]; exact hs.1
  · rw [ht.1]; exact hs.2

end client

/-! ## The score service -/

namespace service

open models client GameStatus

/-- The loop of `GetLiveGames` appends the games in progress, in order. -/
theorem live_loop (games acc : List Game) :
    games.foldl
        (fun live g => if g.Status = StatusInProgress then live.append g else live)
        (Slice.alloc acc)
      = Slice.alloc (acc ++ games.filter (fun g => decide (g.Status = StatusInProgress))) := by
  induction games generalizing acc with
  | nil => simp
  | cons g rest ih =>
    rw [List.foldl_cons, List.filter_cons]
    by_cases hg : g.Status = StatusInProgress
    · rw [if_pos hg, show (Slice.alloc acc).append g = Slice.alloc (acc ++ [g]) from rfl, ih]
      simp [hg]
    · rw [if_neg hg, ih]
      simp [hg]

/-- C6: `GetLiveGames` returns, for the games of a successful scoreboard fetch,
exactly the games whose status is InProgress, in their original order, in an
allocated slice (so an empty, non-nil one when no game is in progress) and
with a nil error; it returns the error of a failed fetch unchanged, with the
nil slice.  It issues the requests of that one fetch. -/
theorem GetLiveGames_in_progress_only (lib : Lib) (s : ScoreService) :
    (GetLiveGames lib s).result =
      (match (FetchScoreboardByDates lib s.client "").result with
        | .ok response =>
          (Slice.alloc ((response.ToGames lib.parseRFC3339).toList.filter
            (fun g => decide (g.Status = StatusInProgress))), none)
        | .error err => (Slice.null, some err)) ∧
    ((GetLiveGames lib s).result.2 = none ↔ (GetLiveGames lib s).result.1.isNil = false) ∧
    (GetLiveGames lib s).requests = (FetchScoreboardByDates lib s.client "").requests := by
  unfold GetLiveGames GetCurrentScores GetScoresByDates Slice.make0
  dsimp only
  cases h : (FetchScoreboardByDates lib s.client "").result with
  | error err => exact ⟨rfl, ⟨fun h' => (by cases h'), fun h' => (by cases h')⟩, rfl⟩
  | ok response =>
    dsimp only
    rw [live_loop]
    exact ⟨by simp, ⟨fun _ => rfl, fun _ => rfl⟩, rfl⟩

end service

/-! ## Summary mapping: the current play and the recent plays -/

namespace models

/-- The recent-plays loop started at `k ≤ len(plays)` appends the plays below
`k`, newest first, until the slice holds 5. -/
theorem recentPlaysLoop_eq (plays : List PlayInfo) (k : Nat) (acc : List Play)
    (hk : k ≤ plays.length) :
    recentPlaysLoop plays k (Slice.alloc acc)
      = Slice.alloc (acc ++ ((plays.take k).reverse.take (5 - acc.length)).map recentPlay) := by
  induction k generalizing acc with
  | zero => simp [recentPlaysLoop]
  | succ k ih =>
    unfold recentPlaysLoop
    have hlen : (Slice.alloc acc).len = acc.length := rfl
    rw [hlen]
    by_cases h5 : acc.length < 5
    · rw [if_pos h5]
      have hk' : k < plays.length := hk
      rw [List.getElem?_eq_getElem hk']
      dsimp only
      rw [show (Slice.alloc acc).append (recentPlay plays[k])
        = Slice.alloc (acc ++ [recentPlay plays[k]]) from rfl, ih _ (Nat.le_of_lt hk')]
      have ht : plays.take (k + 1) = plays.take k ++ [plays[k]] := by
        rw [List.take_succ, List.getElem?_eq_getElem hk']
        rfl
      have h5' : 5 - acc.length = (5 - (acc ++ [recentPlay plays[k]]).length) + 1 := by
        simp only [List.length_append, List.length_singleton]
        omega
      rw [ht, List.reverse_append, h5']
      simp
    · rw [if_neg h5]
      have h0 : 5 - acc.length = 0 := by omega
      simp [h0]

/-- The summary of a payload with a header competition and a current drive
that has a last play. -/
theorem ToGameSummary_of_last (r : SummaryResponse) (parseRFC3339 : String → Option Time)
    (comp : SummaryCompetition) (others : List SummaryCompetition) (cur : CurrentDrive)
    (last : PlayInfo) (hcomp : r.Header.Competitions = comp :: others)
    (hcur : r.Drives.Current = some cur) (hlast : cur.Plays.getLast? = some last) :
    r.ToGameSummary parseRFC3339 = some
      { Game := summaryGame parseRFC3339 r.Header comp
        CurrentPlay := some (currentPlay cur last)
        RecentPlays := Slice.alloc ((cur.Plays.reverse.take 5).map recentPlay)
        Situation := last.End.DownDistanceText
        YardsToEndzone := last.End.YardsToEndzone } := by
  have hpos : cur.Plays.length > 0 := by
    cases hp : cur.Plays with
    | nil => rw [hp] at hlast; simp at hlast
    | cons x xs => simp
  rw [List.getLast?_eq_getElem?] at hlast
  unfold SummaryResponse.ToGameSummary
  rw [hcomp]
  dsimp only
  rw [hcur]
  dsimp only
  rw [if_pos hpos, hlast]
  dsimp only [Slice.make0]
  rw [recentPlaysLoop_eq _ _ _ (Nat.le_refl _)]
  simp

/-- The summary of a payload with a header competition and no play in a
current drive. -/
theorem ToGameSummary_of_none (r : SummaryResponse) (parseRFC3339 : String → Option Time)
    (comp : SummaryCompetition) (others : List SummaryCompetition)
    (hcomp : r.Header.Competitions = comp :: others)
    (hcur : r.Drives.Current = none ∨ ∃ cur, r.Drives.Current = some cur ∧ cur.Plays = []) :
    r.ToGameSummary parseRFC3339 = some
      { Game := summaryGame parseRFC3339 r.Header comp
        CurrentPlay := none
        RecentPlays := Slice.alloc []
        Situation := ""
        YardsToEndzone := 0 } := by
  unfold SummaryResponse.ToGameSummary
  rw [hcomp]
  dsimp only
  rcases hcur with h | ⟨cur, h, hp⟩
  · rw [h]; rfl
  · rw [h]
    dsimp only
    rw [hp]
    rfl

/-- C7: for every summary payload with at least one header competition,
`ToGameSummary` returns a summary whose CurrentPlay is absent when there is no
current drive or the current drive has no play; otherwise CurrentPlay is built
from the last play of the current drive (its id, text, type, clock, period,
scores and scoring flag, its end-of-play down-distance text and
yards-to-endzone, and the current drive's team abbreviation as possession),
and Situation and YardsToEndzone are that play's end-of-play down-distance
text and yards-to-endzone. -/
theorem ToGameSummary_CurrentPlay (r : SummaryResponse)
    (parseRFC3339 : String → Option Time) (hcomp : r.Header.Competitions.length ≥ 1) :
    ∃ summary, r.ToGameSummary parseRFC3339 = some summary ∧
      match r.Drives.Current with
      | none => summary.CurrentPlay = none
      | some cur =>
        match cur.Plays.getLast? with
        | none => summary.CurrentPlay = none
        | some last =>
          summary.CurrentPlay = some
            { ID := last.ID
              Text := last.Text
              Type_ := last.Type_.Text
              Clock := last.Clock.DisplayValue
              Period := last.Period.Number
              HomeScore := last.HomeScore
              AwayScore := last.AwayScore
              ScoringPlay := last.ScoringPlay
              Down := last.End.DownDistanceText
              Possession := cur.Team.Abbreviation
              YardsToEndzone := last.End.YardsToEndzone } ∧
          summary.Situation = last.End.DownDistanceText ∧
          summary.YardsToEndzone = last.End.YardsToEndzone := by
  cases hc : r.Header.Competitions with
  | nil => rw [hc] at hcomp; simp at hcomp
  | cons comp others =>
    cases hcur : r.Drives.Current with
    | none =>
      exact ⟨_, ToGameSummary_of_none r parseRFC3339 comp others hc (Or.inl hcur), rfl⟩
    | some cur =>
      cases hlast : cur.Plays.getLast? with
      | none =>
        have hp : cur.Plays = [] := List.getLast?_eq_none_iff.mp hlast
        refine ⟨_, ToGameSummary_of_none r parseRFC3339 comp others hc
          (Or.inr ⟨cur, hcur, hp⟩), ?_⟩
        simp only [hlast]
      | some last =>
        refine ⟨_, ToGameSummary_of_last r parseRFC3339 comp others cur last hc hcur hlast, ?_⟩
        dsimp only
        rw [hlast]
        exact ⟨rfl, rfl, rfl⟩

end models

namespace models

/-- C7, witness: the sample payload's current play is its current drive's last
play, "46", with BUF in possession. -/
theorem ToGameSummary_CurrentPlay_witness :
    ∃ summary, sampleSummary.ToGameSummary (fun _ => none) = some summary ∧
      summary.CurrentPlay = some
        { ID := "46", Text := "play 46", Type_ := "Rush", Clock := "10:00", Period := 2,
          HomeScore := 7, AwayScore := 3, ScoringPlay := false, Down := "2nd & 5 at NE 40",
          Possession := "BUF", YardsToEndzone := 40 } ∧
      summary.Situation = "2nd & 5 at NE 40" ∧ summary.YardsToEndzone = 40 :=
  ToGameSummary_CurrentPlay sampleSummary (fun _ => none) (by decide)

end models

/-! ## Summary mapping: the replay -/

namespace models

/-- The play loop of `ToGameReplay` appends one ReplayPlay per play, in
order. -/
theorem replay_play_loop (drive : DriveInfo) (plays : List PlayInfo) (acc : List ReplayPlay) :
    plays.foldl (fun plays p => plays.append (replayPlay drive p)) (Slice.alloc acc)
      = Slice.alloc (acc ++ plays.map (replayPlay drive)) := by
  induction plays generalizing acc with
  | nil => simp
  | cons p rest ih =>
    rw [List.foldl_cons, show (Slice.alloc acc).append (replayPlay drive p)
      = Slice.alloc (acc ++ [replayPlay drive p]) from rfl, ih]
    simp

/-- The drive loop of `ToGameReplay` appends the plays of the drives, drive by
drive, and one descriptor per drive. -/
theorem replay_drive_loop (drives : List DriveInfo) (game : Game) (plays0 : List ReplayPlay)
    (rds0 : List ReplayDrive) :
    drives.foldl appendReplayDrive
        { Game := game, Plays := Slice.alloc plays0, Drives := Slice.alloc rds0 }
      = { Game := game
          Plays := Slice.alloc (plays0 ++ drives.flatMap (fun d => d.Plays.map (replayPlay d)))
          Drives := Slice.alloc (rds0 ++ driveDescriptors plays0.length drives) } := by
  induction drives generalizing plays0 rds0 with
  | nil => simp [driveDescriptors]
  | cons d rest ih =>
    rw [List.foldl_cons]
    have hstep : appendReplayDrive
        { Game := game, Plays := Slice.alloc plays0, Drives := Slice.alloc rds0 } d
        = { Game := game
            Plays := Slice.alloc (plays0 ++ d.Plays.map (replayPlay d))
            Drives := Slice.alloc (rds0 ++
              [{ ID := d.ID
                 Description := d.Description
                 Team := d.Team.Abbreviation
                 StartIndex := (plays0.length : Int)
                 EndIndex := ((plays0.length + d.Plays.length : Nat) : Int) - 1 }]) } := by
      unfold appendReplayDrive
      dsimp only
      rw [replay_play_loop]
      simp [Slice.len, Slice.toList, Slice.append]
    rw [hstep, ih]
    simp [driveDescriptors]

/-- The replay of a payload with a header competition. -/
theorem ToGameReplay_eq (r : SummaryResponse) (comp : SummaryCompetition)
    (others : List SummaryCompetition) (hcomp : r.Header.Competitions = comp :: others) :
    r.ToGameReplay = some
      { Game := headerGame r.Header comp
        Plays := Slice.alloc (r.Drives.Previous.flatMap (fun d => d.Plays.map (replayPlay d)))
        Drives := Slice.alloc (driveDescriptors 0 r.Drives.Previous) } := by
  unfold SummaryResponse.ToGameReplay
  rw [hcomp]
  dsimp only [Slice.make0]
  rw [replay_drive_loop]
  simp

theorem length_driveDescriptors (drives : List DriveInfo) (start : Nat) :
    (driveDescriptors start drives).length = drives.length := by
  induction drives generalizing start with
  | nil => rfl
  | cons d rest ih => simp [driveDescriptors, ih]

/-- The `k`-th descriptor: it starts after the plays of the drives before it
and spans the plays of its drive. -/
theorem getElem?_driveDescriptors (drives : List DriveInfo) (start k : Nat) (d : DriveInfo)
    (hd : drives[k]? = some d) :
    (driveDescriptors start drives)[k]? = some
      { ID := d.ID
        Description := d.Description
        Team := d.Team.Abbreviation
        StartIndex := ((start + playsBefore drives k : Nat) : Int)
        EndIndex := ((start + playsBefore drives k + d.Plays.length : Nat) : Int) - 1 } := by
  induction drives generalizing start k with
  | nil => simp at hd
  | cons d0 rest ih =>
    cases k with
    | zero =>
      have : d0 = d := by simpa using hd
      subst this
      simp [driveDescriptors, playsBefore]
    | succ k =>
      have hd' : rest[k]? = some d := by simpa using hd
      have h := ih (start + d0.Plays.length) k hd'
      have hp : playsBefore (d0 :: rest) (k + 1) = d0.Plays.length + playsBefore rest k := by
        simp [playsBefore]
      rw [hp]
      simp only [driveDescriptors, List.getElem?_cons_succ, h, Nat.add_assoc]

/-- The plays of the `k`-th drive sit, in order, right after the plays of the
drives before it. -/
theorem getElem?_flatMap_plays (drives : List DriveInfo) (k j : Nat) (d : DriveInfo)
    (hd : drives[k]? = some d) (hj : j < d.Plays.length) :
    (drives.flatMap (fun d => d.Plays.map (replayPlay d)))[playsBefore drives k + j]?
      = (d.Plays[j]?).map (replayPlay d) := by
  induction drives generalizing k with
  | nil => simp at hd
  | cons d0 rest ih =>
    cases k with
    | zero =>
      have : d0 = d := by simpa using hd
      subst this
      have hj' : j < (d0.Plays.map (replayPlay d0)).length := by simpa using hj
      simp only [playsBefore, List.take_zero, List.map_nil, List.sum_nil, Nat.zero_add,
        List.flatMap_cons]
      rw [List.getElem?_append_left hj', List.getElem?_map]
    | succ k =>
      have hd' : rest[k]? = some d := by simpa using hd
      have hp : playsBefore (d0 :: rest) (k + 1) = d0.Plays.length + playsBefore rest k := by
        simp [playsBefore]
      rw [hp, List.flatMap_cons,
        List.getElem?_append_right (by simp only [List.length_map]; omega)]
      have hidx : d0.Plays.length + playsBefore rest k + j - (d0.Plays.map (replayPlay d0)).length
          = playsBefore rest k + j := by
        simp only [List.length_map]
        omega
      rw [hidx]
      exact ih k hd'

/-- C9: for every summary payload with at least one header competition,
`ToGameReplay` returns a replay whose Plays are the previous drives' plays,
concatenated in drive order then play order, and whose Drives hold one
descriptor per previous drive, in order: the `k`-th descriptor carries the
drive's id, description and team, its StartIndex is the number of plays in the
drives before `k`, its EndIndex is `StartIndex + (plays of drive k) - 1` (so
`StartIndex - 1` for an empty drive), and every play at an index from
StartIndex to EndIndex carries the drive's id as DriveID and its team
abbreviation as Possession. -/
theorem ToGameReplay_flattens_drives (r : SummaryResponse)
    (hcomp : r.Header.Competitions.length ≥ 1) :
    ∃ replay, r.ToGameReplay = some replay ∧
      replay.Plays = Slice.alloc (r.Drives.Previous.flatMap (fun d => d.Plays.map (fun p =>
        ({ ID := p.ID
           Text := p.Text
           Type_ := p.Type_.Text
           Clock := p.Clock.DisplayValue
           Period := p.Period.Number
           HomeScore := p.HomeScore
           AwayScore := p.AwayScore
           ScoringPlay := p.ScoringPlay
           Possession := d.Team.Abbreviation
           YardsToEndzone := p.End.YardsToEndzone
           Down := p.End.DownDistanceText
           DriveID := d.ID } : ReplayPlay)))) ∧
      replay.Drives.isNil = false ∧
      replay.Drives.len = r.Drives.Previous.length ∧
      ∀ k d, r.Drives.Previous[k]? = some d →
        ∃ rd, replay.Drives.toList[k]? = some rd ∧
          rd.ID = d.ID ∧ rd.Description = d.Description ∧ rd.Team = d.Team.Abbreviation ∧
          rd.StartIndex = (playsBefore r.Drives.Previous k : Int) ∧
          rd.EndIndex = rd.StartIndex + (d.Plays.length : Int) - 1 ∧
          ∀ i : Nat, rd.StartIndex ≤ (i : Int) → (i : Int) ≤ rd.EndIndex →
            ∃ pl, replay.Plays.toList[i]? = some pl ∧
              pl.DriveID = d.ID ∧ pl.Possession = d.Team.Abbreviation := by
  cases hc : r.Header.Competitions with
  | nil => rw [hc] at hcomp; simp at hcomp
  | cons comp others =>
    refine ⟨_, ToGameReplay_eq r comp others hc, rfl, rfl, ?_, ?_⟩
    · exact length_driveDescriptors _ _
    · intro k d hd
      refine ⟨_, getElem?_driveDescriptors r.Drives.Previous 0 k d hd, rfl, rfl, rfl, ?_, ?_, ?_⟩
      · simp
      · dsimp only
        push_cast
        omega
      · intro i hlo hhi
        dsimp only at hlo hhi
        have hlo' : playsBefore r.Drives.Previous k ≤ i := by
          have : ((0 + playsBefore r.Drives.Previous k : Nat) : Int) ≤ (i : Int) := hlo
          omega
        have hhi' : i < playsBefore r.Drives.Previous k + d.Plays.length := by
          have : (i : Int)
              ≤ ((0 + playsBefore r.Drives.Previous k + d.Plays.length : Nat) : Int) - 1 := hhi
          omega
        have hj : i - playsBefore r.Drives.Previous k < d.Plays.length := by omega
        have hget := getElem?_flatMap_plays r.Drives.Previous k
          (i - playsBefore r.Drives.Previous k) d hd hj
        have hi : playsBefore r.Drives.Previous k + (i - playsBefore r.Drives.Previous k) = i := by
          omega
        rw [hi, List.getElem?_eq_getElem hj] at hget
        exact ⟨_, hget, rfl, rfl⟩

/-- C9, witness: the sample payload has three previous drives and five plays
in them. -/
theorem ToGameReplay_flattens_drives_witness :
    ∃ replay, sampleSummary.ToGameReplay = some replay ∧
      replay.Plays.toList.map (fun pl => (pl.ID, pl.DriveID, pl.Possession))
        = [("11", "d1", "NE"), ("12", "d1", "NE"), ("13", "d1", "NE"), ("31", "d3", "NE"),
           ("32", "d3", "NE")] ∧
      replay.Drives.len = 3 := by
  obtain ⟨replay, h1, h2, _, h4, _⟩ := ToGameReplay_flattens_drives sampleSummary (by decide)
  refine ⟨replay, h1, ?_, h4⟩
  rw [h2]
  decide

/-- C10 (amended): for every summary payload with a header competition whose
previous drives have 3, 0 and 2 plays in that order, `ToGameReplay` produces
three Drive descriptors whose (StartIndex, EndIndex) pairs are (0,2), (3,2)
and (3,4). -/
theorem ToGameReplay_ranges_3_0_2 (r : SummaryResponse)
    (hcomp : r.Header.Competitions.length ≥ 1)
    (hsizes : r.Drives.Previous.map (fun d => d.Plays.length) = [3, 0, 2]) :
    ∃ replay, r.ToGameReplay = some replay ∧
      replay.Drives.toList.map (fun rd => (rd.StartIndex, rd.EndIndex))
        = [(0, 2), (3, 2), (3, 4)] := by
  cases hc : r.Header.Competitions with
  | nil => rw [hc] at hcomp; simp at hcomp
  | cons comp others =>
    refine ⟨_, ToGameReplay_eq r comp others hc, ?_⟩
    show (driveDescriptors 0 r.Drives.Previous).map (fun rd => (rd.StartIndex, rd.EndIndex)) = _
    generalize r.Drives.Previous = prev at hsizes
    rcases prev with _ | ⟨d1, _ | ⟨d2, _ | ⟨d3, _ | ⟨d4, rest⟩⟩⟩⟩
    · simp at hsizes
    · simp at hsizes
    · simp at hsizes
    · simp only [List.map_cons, List.map_nil, List.cons.injEq, and_true] at hsizes
      obtain ⟨h1, h2, h3⟩ := hsizes
      simp [driveDescriptors, h1, h2, h3]
    · simp at hsizes

/-- C10, witness: the sample payload's previous drives have 3, 0 and 2
plays. -/
theorem ToGameReplay_ranges_3_0_2_witness :
    ∃ replay, sampleSummary.ToGameReplay = some replay ∧
      replay.Drives.toList.map (fun rd => (rd.StartIndex, rd.EndIndex))
        = [(0, 2), (3, 2), (3, 4)] :=
  ToGameReplay_ranges_3_0_2 sampleSummary (by decide) (by decide)

/-- C10, counterexample: the sample payload has a header competition and
previous drives of 3, 0 and 2 plays, and the (StartIndex, EndIndex) pairs of
its replay are (0,2), (3,2) and (3,4): the third pair is not (3,5).  Without
its header competitions the same payload has no replay at all. -/
theorem sampleSummary_third_drive_ends_at_4 :
    sampleSummary.Header.Competitions.length ≥ 1 ∧
    sampleSummary.Drives.Previous.map (fun d => d.Plays.length) = [3, 0, 2] ∧
    sampleSummary.ToGameReplay.map
        (fun replay => replay.Drives.toList.map (fun rd => (rd.StartIndex, rd.EndIndex)))
      = some [(0, 2), (3, 2), (3, 4)] ∧
    sampleSummary.ToGameReplay.map
        (fun replay => replay.Drives.toList.map (fun rd => (rd.StartIndex, rd.EndIndex)))
      ≠ some [(0, 2), (3, 2), (3, 5)] ∧
    ({ sampleSummary with Header := { ID := "401547", Competitions := [] } }
      : SummaryResponse).ToGameReplay = none := by
  decide

end models

/-! ## Summary mapping: the statistics -/

theorem Slice.toList_foldl_append {α β : Type} (f : β → α) (l : List β) (s : Slice α) :
    (l.foldl (fun s x => s.append (f x)) s).toList = s.toList ++ l.map f := by
  induction l generalizing s with
  | nil => simp
  | cons x rest ih =>
    rw [List.foldl_cons, ih]
    simp [Slice.append, Slice.toList]

namespace models

theorem lookup_cons_if (key a b : String) (rest : List (String × String)) :
    List.lookup key ((a, b) :: rest) = if key = a then some b else List.lookup key rest := by
  rw [List.lookup_cons]
  by_cases h : key = a
  · simp [h]
  · have hb : (key == a) = false := by simpa using h
    simp [hb, h]

/-- Reading a key after an assignment `m[k] = v`. -/
theorem StringMap.get?_set (m : StringMap) (k v key : String) :
    (StringMap.set m k v).get? key = if key = k then some v else StringMap.get? m key := by
  have hmap : ∀ l : List (String × String),
      List.lookup key (l.map (fun e => if e.1 = k then (k, v) else e))
        = if key = k then (if l.any (fun e => decide (e.1 = k)) = true then some v else none)
          else List.lookup key l := by
    intro l
    induction l with
    | nil => simp
    | cons e rest ih =>
      obtain ⟨a, b⟩ := e
      rw [List.map_cons, List.any_cons]
      by_cases ha : a = k
      · subst ha
        by_cases hk : key = a
        · simp [lookup_cons_if, hk]
        · simp [lookup_cons_if, hk, ih]
      · by_cases hk : key = k
        · subst hk
          have hka : ¬ key = a := fun h => ha h.symm
          simp only [if_true] at ih
          simp only [ha, if_false, lookup_cons_if, hka, ih, if_true, decide_False,
            Bool.false_or]
        · simp only [ha, if_false, lookup_cons_if, ih, hk]
  have happ : ∀ l : List (String × String), l.any (fun e => decide (e.1 = k)) = false →
      List.lookup key (l ++ [(k, v)]) = if key = k then some v else List.lookup key l := by
    intro l
    induction l with
    | nil => intro _; by_cases hk : key = k <;> simp [lookup_cons_if, hk]
    | cons e rest ih =>
      intro hany
      obtain ⟨a, b⟩ := e
      rw [List.any_cons, Bool.or_eq_false_iff] at hany
      have ha : ¬ a = k := by simpa using hany.1
      have ih' := ih hany.2
      rw [List.cons_append, lookup_cons_if, ih', lookup_cons_if]
      by_cases hk : key = k
      · subst hk
        have hka : ¬ key = a := fun h => ha h.symm
        simp [hka]
      · simp [hk]
  unfold StringMap.set StringMap.get?
  by_cases hany : m.any (fun e => decide (e.1 = k)) = true
  · rw [if_pos hany, hmap, hany]
    simp
  · rw [if_neg hany]
    exact happ m ((Bool.not_eq_true _).mp hany)

/-- Reading a key after a run of assignments: the value of the last assignment
to the key, or the value before the run. -/
theorem StringMap.get?_foldl_set (pairs : List BoxscoreTeamStat) (m : StringMap) (key : String) :
    StringMap.get? (pairs.foldl (fun m p => StringMap.set m p.Name p.DisplayValue) m) key
      = match (pairs.filter (fun p => decide (p.Name = key))).getLast? with
        | some p => some p.DisplayValue
        | none => StringMap.get? m key := by
  induction pairs generalizing m with
  | nil => simp
  | cons p rest ih =>
    rw [List.foldl_cons, ih, StringMap.get?_set, List.filter_cons]
    by_cases hp : p.Name = key
    · subst hp
      simp only [decide_True, if_true, List.getLast?_cons]
      cases (rest.filter (fun q => decide (q.Name = p.Name))).getLast? <;> simp
    · have hk : ¬ key = p.Name := fun h => hp h.symm
      simp only [hp, decide_False, hk, if_false]
      rfl

/-- The statistics loop of one boxscore team entry assigns all its statistics,
in order, to the totals of the side its abbreviation selects. -/
theorem totals_entry_loop (game : Game) (abbr : String) (entries : List BoxscoreTeamStat)
    (st : GameStats) :
    entries.foldl
        (fun stats stat =>
          updateTeamStats game abbr
            (fun ts => { ts with Totals := ts.Totals.set stat.Name stat.DisplayValue }) stats)
        st
      = updateTeamStats game abbr
          (fun ts =>
            { ts with
              Totals := entries.foldl (fun m p => StringMap.set m p.Name p.DisplayValue)
                ts.Totals })
          st := by
  induction entries generalizing st with
  | nil => unfold updateTeamStats; split <;> rfl
  | cons e rest ih =>
    rw [List.foldl_cons, ih]
    unfold updateTeamStats
    split <;> rfl

/-- The team loop of `ToGameStats`: the totals of the home side receive the
statistics of the entries with the home abbreviation, the totals of the away
side those of all other entries, each in input order. -/
theorem totals_loop (game : Game) (teams : List BoxscoreTeam) (st : GameStats) :
    teams.foldl
        (fun stats teamBox =>
          teamBox.Statistics.foldl
            (fun stats stat =>
              updateTeamStats game teamBox.Team.Abbreviation
                (fun ts => { ts with Totals := ts.Totals.set stat.Name stat.DisplayValue }) stats)
            stats)
        st
      = { Game := st.Game
          HomeStats :=
            { st.HomeStats with
              Totals :=
                ((teams.filter (fun t => decide (t.Team.Abbreviation = game.HomeTeam.Abbreviation))).flatMap
                  (fun t => t.Statistics)).foldl
                  (fun m p => StringMap.set m p.Name p.DisplayValue) st.HomeStats.Totals }
          AwayStats :=
            { st.AwayStats with
              Totals :=
                ((teams.filter (fun t => !decide (t.Team.Abbreviation = game.HomeTeam.Abbreviation))).flatMap
                  (fun t => t.Statistics)).foldl
                  (fun m p => StringMap.set m p.Name p.DisplayValue) st.AwayStats.Totals } } := by
  induction teams generalizing st with
  | nil => rfl
  | cons t rest ih =>
    rw [List.foldl_cons, totals_entry_loop, ih]
    unfold updateTeamStats
    by_cases h : t.Team.Abbreviation = game.HomeTeam.Abbreviation
    · simp [h, List.filter_cons, List.foldl_append]
    · simp [h, List.filter_cons, List.foldl_append]

/-- The group loop of one boxscore player entry appends one category per
group, in order, to the side its abbreviation selects. -/
theorem players_entry_loop (game : Game) (abbr : String) (groups : List BoxscorePlayerGroup)
    (st : GameStats) :
    groups.foldl
        (fun stats statGroup =>
          updateTeamStats game abbr
            (fun ts =>
              { ts with PlayerStats := ts.PlayerStats.append (playerStatCategory statGroup) })
            stats)
        st
      = updateTeamStats game abbr
          (fun ts =>
            { ts with
              PlayerStats := groups.foldl (fun s g => s.append (playerStatCategory g))
                ts.PlayerStats })
          st := by
  induction groups generalizing st with
  | nil => unfold updateTeamStats; split <;> rfl
  | cons g rest ih =>
    rw [List.foldl_cons, ih]
    unfold updateTeamStats
    split <;> rfl

/-- The player loop of `ToGameStats`: the home side receives the categories of
the entries with the home abbreviation, the away side those of all other
entries, each in input order. -/
theorem players_loop (game : Game) (players : List BoxscorePlayer) (st : GameStats) :
    players.foldl
        (fun stats playerBox =>
          playerBox.Statistics.foldl
            (fun stats statGroup =>
              updateTeamStats game playerBox.Team.Abbreviation
                (fun ts =>
                  { ts with PlayerStats := ts.PlayerStats.append (playerStatCategory statGroup) })
                stats)
            stats)
        st
      = { Game := st.Game
          HomeStats :=
            { st.HomeStats with
              PlayerStats :=
                ((players.filter (fun t => decide (t.Team.Abbreviation = game.HomeTeam.Abbreviation))).flatMap
                  (fun t => t.Statistics)).foldl
                  (fun s g => s.append (playerStatCategory g)) st.HomeStats.PlayerStats }
          AwayStats :=
            { st.AwayStats with
              PlayerStats :=
                ((players.filter (fun t => !decide (t.Team.Abbreviation = game.HomeTeam.Abbreviation))).flatMap
                  (fun t => t.Statistics)).foldl
                  (fun s g => s.append (playerStatCategory g)) st.AwayStats.PlayerStats } } := by
  induction players generalizing st with
  | nil => rfl
  | cons t rest ih =>
    rw [List.foldl_cons, players_entry_loop, ih]
    unfold updateTeamStats
    by_cases h : t.Team.Abbreviation = game.HomeTeam.Abbreviation
    · simp [h, List.filter_cons, List.foldl_append]
    · simp [h, List.filter_cons, List.foldl_append]

/-- The category of a statistic group: its name, its labels, and one row per
athlete in input order. -/
theorem playerStatCategory_eq (g : BoxscorePlayerGroup) :
    (playerStatCategory g).Category = g.Name ∧ (playerStatCategory g).Labels = g.Labels ∧
    (playerStatCategory g).Players.toList = g.Athletes.map (fun a =>
      ({ Name := a.Athlete.DisplayName, Position := a.Athlete.Position, Stats := a.Stats }
        : PlayerStatLine)) := by
  have h : ∀ (as : List BoxscoreAthleteData) (cat : PlayerStatCategory),
      as.foldl
          (fun cat athlete =>
            { cat with
              Players := cat.Players.append
                { Name := athlete.Athlete.DisplayName
                  Position := athlete.Athlete.Position
                  Stats := athlete.Stats } })
          cat
        = { cat with
            Players := as.foldl
              (fun s a => s.append
                ({ Name := a.Athlete.DisplayName, Position := a.Athlete.Position,
                   Stats := a.Stats } : PlayerStatLine))
              cat.Players } := by
    intro as
    induction as with
    | nil => intro cat; rfl
    | cons a rest ih => intro cat; rw [List.foldl_cons, ih]; rfl
  unfold playerStatCategory
  dsimp only
  rw [h]
  refine ⟨rfl, rfl, ?_⟩
  dsimp only
  rw [Slice.toList_foldl_append]
  rfl

/-- The home team of the header game: the team of the last competitor marked
"home", the zero Team when there is none. -/
theorem headerGame_home_abbreviation (header : SummaryHeader) (comp : SummaryCompetition) :
    (headerGame header comp).HomeTeam.Abbreviation
      = (((comp.Competitors.filter (fun c => decide (c.HomeAway = "home"))).getLast?).map
          (fun c => c.Team.Abbreviation)).getD "" := by
  have h : ∀ (cs : List SummaryCompetitor) (g : Game),
      (cs.foldl setSummaryCompetitor g).HomeTeam.Abbreviation
        = (((cs.filter (fun c => decide (c.HomeAway = "home"))).getLast?).map
            (fun c => c.Team.Abbreviation)).getD g.HomeTeam.Abbreviation := by
    intro cs
    induction cs with
    | nil => intro g; rfl
    | cons c rest ih =>
      intro g
      rw [List.foldl_cons, ih, List.filter_cons]
      unfold setSummaryCompetitor
      by_cases hc : c.HomeAway = "home"
      · simp only [hc, if_true, decide_True, List.getLast?_cons]
        cases (rest.filter (fun c => decide (c.HomeAway = "home"))).getLast? <;> rfl
      · simp only [hc, if_false, decide_False]
        rfl
  unfold headerGame
  exact h _ _

/-- The statistics of a payload with a header competition. -/
theorem ToGameStats_eq (r : SummaryResponse) (comp : SummaryCompetition)
    (others : List SummaryCompetition) (hcomp : r.Header.Competitions = comp :: others) :
    ∃ stats, r.ToGameStats = some stats ∧ stats.Game = headerGame r.Header comp ∧
      stats.HomeStats.Totals
        = ((r.Boxscore.Teams.filter (fun t =>
              decide (t.Team.Abbreviation = (headerGame r.Header comp).HomeTeam.Abbreviation))).flatMap
            (fun t => t.Statistics)).foldl
            (fun m p => StringMap.set m p.Name p.DisplayValue) [] ∧
      stats.AwayStats.Totals
        = ((r.Boxscore.Teams.filter (fun t =>
              !decide (t.Team.Abbreviation = (headerGame r.Header comp).HomeTeam.Abbreviation))).flatMap
            (fun t => t.Statistics)).foldl
            (fun m p => StringMap.set m p.Name p.DisplayValue) [] ∧
      stats.HomeStats.PlayerStats.toList
        = ((r.Boxscore.Players.filter (fun t =>
              decide (t.Team.Abbreviation = (headerGame r.Header comp).HomeTeam.Abbreviation))).flatMap
            (fun t => t.Statistics)).map playerStatCategory ∧
      stats.AwayStats.PlayerStats.toList
        = ((r.Boxscore.Players.filter (fun t =>
              !decide (t.Team.Abbreviation = (headerGame r.Header comp).HomeTeam.Abbreviation))).flatMap
            (fun t => t.Statistics)).map playerStatCategory := by
  unfold SummaryResponse.ToGameStats
  rw [hcomp]
  dsimp only
  rw [totals_loop, players_loop]
  refine ⟨_, rfl, rfl, rfl, rfl, ?_, ?_⟩
  · dsimp only
    rw [Slice.toList_foldl_append]
    rfl
  · dsimp only
    rw [Slice.toList_foldl_append]
    rfl

/-- C11: for every summary payload with at least one header competition,
`ToGameStats` returns statistics in which the totals of HomeStats hold, for
every statistic name, the display value written last by the boxscore team
entries whose abbreviation equals the header's home team abbreviation, and the
totals of AwayStats the one written last by all other entries (so an entry
that matches neither team lands in AwayStats); the player categories of
HomeStats and AwayStats are, in input order, those of the player entries
selected the same way, each group giving one category with the group's name,
its labels, and one row per athlete in input order. -/
theorem ToGameStats_attribution (r : SummaryResponse)
    (hcomp : r.Header.Competitions.length ≥ 1) :
    ∃ stats, r.ToGameStats = some stats ∧
      stats.Game.HomeTeam.Abbreviation = headerHomeAbbreviation r.Header ∧
      (∀ key, stats.HomeStats.Totals.get? key
        = ((((r.Boxscore.Teams.filter (fun t =>
              decide (t.Team.Abbreviation = headerHomeAbbreviation r.Header))).flatMap
            (fun t => t.Statistics)).filter (fun p => decide (p.Name = key))).getLast?).map
          (fun p => p.DisplayValue)) ∧
      (∀ key, stats.AwayStats.Totals.get? key
        = ((((r.Boxscore.Teams.filter (fun t =>
              !decide (t.Team.Abbreviation = headerHomeAbbreviation r.Header))).flatMap
            (fun t => t.Statistics)).filter (fun p => decide (p.Name = key))).getLast?).map
          (fun p => p.DisplayValue)) ∧
      stats.HomeStats.PlayerStats.toList.map (fun c => (c.Category, c.Labels, c.Players.toList))
        = ((r.Boxscore.Players.filter (fun t =>
              decide (t.Team.Abbreviation = headerHomeAbbreviation r.Header))).flatMap
            (fun t => t.Statistics)).map (fun g => (g.Name, g.Labels, g.Athletes.map (fun a =>
              ({ Name := a.Athlete.DisplayName, Position := a.Athlete.Position,
                 Stats := a.Stats } : PlayerStatLine)))) ∧
      stats.AwayStats.PlayerStats.toList.map (fun c => (c.Category, c.Labels, c.Players.toList))
        = ((r.Boxscore.Players.filter (fun t =>
              !decide (t.Team.Abbreviation = headerHomeAbbreviation r.Header))).flatMap
            (fun t => t.Statistics)).map (fun g => (g.Name, g.Labels, g.Athletes.map (fun a =>
              ({ Name := a.Athlete.DisplayName, Position := a.Athlete.Position,
                 Stats := a.Stats } : PlayerStatLine)))) := by
  cases hc : r.Header.Competitions with
  | nil => rw [hc] at hcomp; simp at hcomp
  | cons comp others =>
    obtain ⟨stats, hs, hg, hH, hA, hP, hQ⟩ := ToGameStats_eq r comp others hc
    have hhome : headerHomeAbbreviation r.Header
        = (headerGame r.Header comp).HomeTeam.Abbreviation := by
      rw [headerGame_home_abbreviation]
      unfold headerHomeAbbreviation
      rw [hc]
    have hcat : ∀ gs : List BoxscorePlayerGroup,
        (gs.map playerStatCategory).map (fun c => (c.Category, c.Labels, c.Players.toList))
          = gs.map (fun g => (g.Name, g.Labels, g.Athletes.map (fun a =>
              ({ Name := a.Athlete.DisplayName, Position := a.Athlete.Position,
                 Stats := a.Stats } : PlayerStatLine)))) := by
      intro gs
      rw [List.map_map]
      apply List.map_congr_left
      intro g _
      obtain ⟨h1, h2, h3⟩ := playerStatCategory_eq g
      simp only [Function.comp_apply, h1, h2, h3]
    refine ⟨stats, hs, ?_, ?_, ?_, ?_, ?_⟩
    · rw [hg, hhome]
    · intro key
      rw [hH, hhome, StringMap.get?_foldl_set]
      generalize (List.filter (fun p : BoxscoreTeamStat => decide (p.Name = key)) _).getLast? = o
      cases o <;> rfl
    · intro key
      rw [hA, hhome, StringMap.get?_foldl_set]
      generalize (List.filter (fun p : BoxscoreTeamStat => decide (p.Name = key)) _).getLast? = o
      cases o <;> rfl
    · rw [hP, hhome, hcat]
    · rw [hQ, hhome, hcat]

/-- C11, witness: in the sample payload BUF is the home team; its total yards
are the value written last, "351"; the entry of "XYZ", which is neither team,
lands in AwayStats next to NE's, as does its player category. -/
theorem ToGameStats_attribution_witness :
    ∃ stats, sampleStatsSummary.ToGameStats = some stats ∧
      stats.Game.HomeTeam.Abbreviation = "BUF" ∧
      stats.HomeStats.Totals.get? "totalYards" = some "351" ∧
      stats.HomeStats.Totals.get? "turnovers" = none ∧
      stats.AwayStats.Totals.get? "totalYards" = some "280" ∧
      stats.AwayStats.Totals.get? "turnovers" = some "9" ∧
      stats.HomeStats.PlayerStats.toList.map (fun c => (c.Category, c.Labels, c.Players.toList))
        = [("passing", ["C/ATT", "YDS"],
            [{ Name := "Josh Allen", Position := "QB", Stats := ["20/30", "250"] }])] ∧
      stats.AwayStats.PlayerStats.toList.map (fun c => (c.Category, c.Players.toList.length))
        = [("rushing", 2), ("receiving", 0)] := by
  obtain ⟨stats, hs, hg, hH, hA, hP, hQ⟩ :=
    ToGameStats_attribution sampleStatsSummary (by decide)
  have hQ' := congrArg (List.map (fun t : String × List String × List PlayerStatLine =>
    (t.1, t.2.2.length))) hQ
  rw [List.map_map] at hQ'
  refine ⟨stats, hs, ?_, ?_, ?_, ?_, ?_, ?_, ?_⟩
  · rw [hg]; decide
  · rw [hH]; decide
  · rw [hH]; decide
  · rw [hA]; decide
  · rw [hA]; decide
  · rw [hP]; decide
  · exact hQ'.trans (by decide)

end models

/-! ## The live view: signals on a new summary -/

namespace ui

open models client service

/-- The `gameDataMsg` handler on a summary with a current play, for a model
that holds a preceding summary: the three tests in their order. -/
theorem updateGameData_of_prev (m : Model) (prev new : GameSummary) (cp : Play)
    (hprev : m.summary = some prev) (hcp : new.CurrentPlay = some cp) :
    m.updateGameData (some new)
      = if new.Game.HomeTeam.Score ≠ prev.Game.HomeTeam.Score ∨
            new.Game.AwayTeam.Score ≠ prev.Game.AwayTeam.Score then
          ({ m with
              loading := false
              prevSummary := some prev
              summary := some new
              flashScore := true
              showFireworks := true
              mascotState := .MascotCelebrating }, .tick (5 * Second) .clearCelebrationMsg)
        else if m.lastPossession ≠ "" ∧ cp.Possession ≠ m.lastPossession then
          ({ m with
              loading := false
              prevSummary := some prev
              summary := some new
              mascotState := .MascotSad }, .tick (3 * Second) .clearSadMascotMsg)
        else if cp.ID ≠ m.lastPlayID then
          ({ m with
              loading := false
              prevSummary := some prev
              summary := some new
              flashPlay := true
              lastPlayID := cp.ID }, .tick (1 * Second) .clearFlashPlayMsg)
        else
          ({ m with
              loading := false
              prevSummary := some prev
              summary := some new
              lastPlayID := cp.ID
              lastPossession := cp.Possession }, .none) := by
  unfold Model.updateGameData
  simp only [hprev, hcp]
  rfl

/-- C12: for every live model that holds a preceding summary and every new
summary that has a current play and in which the home or the away score
differs from the preceding one, `Update` raises the celebrate signal only: the
score flash and the fireworks are on, the mascot celebrates, and the one
command returned is the clear of the celebration after 5 seconds; the
new-play flash, the recorded play and the recorded possession stay as they
were and the mascot is not sad, whatever the possession and the identifier of
the current play are. -/
theorem Update_score_change_celebrates_only (b : Bubbles) (m : Model) (prev new : GameSummary)
    (cp : Play) (hprev : m.summary = some prev) (hcp : new.CurrentPlay = some cp)
    (hscore : new.Game.HomeTeam.Score ≠ prev.Game.HomeTeam.Score ∨
      new.Game.AwayTeam.Score ≠ prev.Game.AwayTeam.Score) :
    ∃ m', m.Update b (.gameDataMsg (some new))
        = some (m', Cmd.tick (5 * Second) .clearCelebrationMsg) ∧
      m'.flashScore = true ∧ m'.showFireworks = true ∧
      m'.mascotState = .MascotCelebrating ∧
      m'.flashPlay = m.flashPlay ∧ m'.lastPlayID = m.lastPlayID ∧
      m'.lastPossession = m.lastPossession ∧
      m'.summary = some new ∧ m'.prevSummary = some prev := by
  have h : m.Update b (.gameDataMsg (some new)) = some (m.updateGameData (some new)) := rfl
  rw [updateGameData_of_prev m prev new cp hprev hcp, if_pos hscore] at h
  exact ⟨_, h, rfl, rfl, rfl, rfl, rfl, rfl, rfl, rfl⟩

/-- C12, witness: the score goes from 7 to 14 while the possession and the
current play change too. -/
theorem Update_score_change_celebrates_only_witness :
    ∃ m', sampleModel.Update sampleBubbles (.gameDataMsg (some (liveSummary 14 3 "p2" "BUF")))
        = some (m', Cmd.tick (5 * Second) .clearCelebrationMsg) ∧
      m'.flashScore = true ∧ m'.showFireworks = true ∧
      m'.mascotState = .MascotCelebrating ∧
      m'.flashPlay = sampleModel.flashPlay ∧ m'.lastPlayID = sampleModel.lastPlayID ∧
      m'.lastPossession = sampleModel.lastPossession ∧
      m'.summary = some (liveSummary 14 3 "p2" "BUF") ∧
      m'.prevSummary = some (liveSummary 7 3 "p1" "NE") :=
  Update_score_change_celebrates_only sampleBubbles sampleModel (liveSummary 7 3 "p1" "NE")
    (liveSummary 14 3 "p2" "BUF") _ rfl rfl (Or.inl (by decide))

/-- C13 (amended): for every live model that holds a preceding summary and
every new summary in which either team's score differs from the preceding
one, `Update` raises the celebrate signal with its 5-second clear when the new
summary carries a current play; when it carries none, `Update` only stores the
summary and returns no command. -/
theorem Update_score_change_needs_current_play (b : Bubbles) (m : Model)
    (prev new : GameSummary) (hprev : m.summary = some prev)
    (hscore : new.Game.HomeTeam.Score ≠ prev.Game.HomeTeam.Score ∨
      new.Game.AwayTeam.Score ≠ prev.Game.AwayTeam.Score) :
    match new.CurrentPlay with
    | some _ =>
      ∃ m', m.Update b (.gameDataMsg (some new))
          = some (m', Cmd.tick (5 * Second) .clearCelebrationMsg) ∧
        m'.flashScore = true ∧ m'.showFireworks = true ∧
        m'.mascotState = .MascotCelebrating
    | none =>
      m.Update b (.gameDataMsg (some new))
        = some ({ m with loading := false, prevSummary := some prev, summary := some new },
            Cmd.none) := by
  cases hcp : new.CurrentPlay with
  | some cp =>
    have h : m.Update b (.gameDataMsg (some new)) = some (m.updateGameData (some new)) := rfl
    rw [updateGameData_of_prev m prev new cp hprev hcp, if_pos hscore] at h
    exact ⟨_, h, rfl, rfl, rfl⟩
  | none =>
    show some (m.updateGameData (some new)) = _
    unfold Model.updateGameData
    simp only [hprev, hcp]

/-- C13, witness: the score goes from 7 to 14 in a summary with a current
play. -/
theorem Update_score_change_needs_current_play_witness :
    ∃ m', sampleModel.Update sampleBubbles (.gameDataMsg (some (liveSummary 14 3 "p1" "NE")))
        = some (m', Cmd.tick (5 * Second) .clearCelebrationMsg) ∧
      m'.flashScore = true ∧ m'.showFireworks = true ∧
      m'.mascotState = .MascotCelebrating :=
  Update_score_change_needs_current_play sampleBubbles sampleModel (liveSummary 7 3 "p1" "NE")
    (liveSummary 14 3 "p1" "NE") rfl (Or.inl (by decide))

/-- C13, counterexample: the model holds the summary `7 : 3`; the new summary
`14 : 3` carries no current play; `Update` raises no celebrate signal and
returns no command. -/
theorem Update_score_change_without_current_play :
    sampleModel.summary = some (liveSummary 7 3 "p1" "NE") ∧
    (liveSummaryNoPlay 14 3).Game.HomeTeam.Score ≠ (liveSummary 7 3 "p1" "NE").Game.HomeTeam.Score ∧
    ∃ m', sampleModel.Update sampleBubbles (.gameDataMsg (some (liveSummaryNoPlay 14 3)))
        = some (m', Cmd.none) ∧
      m'.flashScore = false ∧ m'.showFireworks = false ∧
      m'.mascotState = .MascotNormal :=
  ⟨rfl, by decide, _, rfl, rfl, rfl, rfl⟩

/-- C14: for every live model that holds a preceding summary and a non-empty
recorded possession, and every new summary with unchanged scores whose current
play has another possession than the recorded one, `Update` raises the
turnover signal only: the mascot is sad and the one command returned is the
clear of the sad mascot after 3 seconds; the score flash, the fireworks and
the new-play flash stay as they were, and so do the recorded play and the
recorded possession, whatever the identifier of the current play is. -/
theorem Update_possession_change_turnover_only (b : Bubbles) (m : Model)
    (prev new : GameSummary) (cp : Play) (hprev : m.summary = some prev)
    (hcp : new.CurrentPlay = some cp) (hlast : m.lastPossession ≠ "")
    (hhome : new.Game.HomeTeam.Score = prev.Game.HomeTeam.Score)
    (haway : new.Game.AwayTeam.Score = prev.Game.AwayTeam.Score)
    (hposs : cp.Possession ≠ m.lastPossession) :
    ∃ m', m.Update b (.gameDataMsg (some new))
        = some (m', Cmd.tick (3 * Second) .clearSadMascotMsg) ∧
      m'.mascotState = .MascotSad ∧
      m'.flashScore = m.flashScore ∧ m'.showFireworks = m.showFireworks ∧
      m'.flashPlay = m.flashPlay ∧ m'.lastPlayID = m.lastPlayID ∧
      m'.lastPossession = m.lastPossession ∧
      m'.summary = some new ∧ m'.prevSummary = some prev := by
  have h : m.Update b (.gameDataMsg (some new)) = some (m.updateGameData (some new)) := rfl
  have hscore : ¬ (new.Game.HomeTeam.Score ≠ prev.Game.HomeTeam.Score ∨
      new.Game.AwayTeam.Score ≠ prev.Game.AwayTeam.Score) := by
    intro h'
    rcases h' with h' | h'
    · exact h' hhome
    · exact h' haway
  rw [updateGameData_of_prev m prev new cp hprev hcp, if_neg hscore,
    if_pos (And.intro hlast hposs)] at h
  exact ⟨_, h, rfl, rfl, rfl, rfl, rfl, rfl, rfl, rfl⟩

/-- C14, witness: the possession goes from "NE" to "BUF" with the scores
unchanged, and the current play changes too. -/
theorem Update_possession_change_turnover_only_witness :
    ∃ m', sampleModel.Update sampleBubbles (.gameDataMsg (some (liveSummary 7 3 "p2" "BUF")))
        = some (m', Cmd.tick (3 * Second) .clearSadMascotMsg) ∧
      m'.mascotState = .MascotSad ∧
      m'.flashScore = sampleModel.flashScore ∧ m'.showFireworks = sampleModel.showFireworks ∧
      m'.flashPlay = sampleModel.flashPlay ∧ m'.lastPlayID = sampleModel.lastPlayID ∧
      m'.lastPossession = sampleModel.lastPossession ∧
      m'.summary = some (liveSummary 7 3 "p2" "BUF") ∧
      m'.prevSummary = some (liveSummary 7 3 "p1" "NE") :=
  Update_possession_change_turnover_only sampleBubbles sampleModel (liveSummary 7 3 "p1" "NE")
    (liveSummary 7 3 "p2" "BUF") _ rfl rfl (by decide) rfl rfl (by decide)

/-- C15: for every live model that holds a preceding summary and every new
summary with unchanged scores whose current play has the recorded possession
and another identifier than the recorded one, `Update` raises the new-play
flash only: `flashPlay` is set, the recorded play is the new identifier, and
the one command returned is the clear of the flash after 1 second; the score
flash, the fireworks and the mascot stay as they were. -/
theorem Update_new_play_flash_only (b : Bubbles) (m : Model) (prev new : GameSummary)
    (cp : Play) (hprev : m.summary = some prev) (hcp : new.CurrentPlay = some cp)
    (hhome : new.Game.HomeTeam.Score = prev.Game.HomeTeam.Score)
    (haway : new.Game.AwayTeam.Score = prev.Game.AwayTeam.Score)
    (hposs : cp.Possession = m.lastPossession) (hid : cp.ID ≠ m.lastPlayID) :
    ∃ m', m.Update b (.gameDataMsg (some new))
        = some (m', Cmd.tick (1 * Second) .clearFlashPlayMsg) ∧
      m'.flashPlay = true ∧ m'.lastPlayID = cp.ID ∧
      m'.flashScore = m.flashScore ∧ m'.showFireworks = m.showFireworks ∧
      m'.mascotState = m.mascotState ∧
      m'.summary = some new ∧ m'.prevSummary = some prev := by
  have h : m.Update b (.gameDataMsg (some new)) = some (m.updateGameData (some new)) := rfl
  have hscore : ¬ (new.Game.HomeTeam.Score ≠ prev.Game.HomeTeam.Score ∨
      new.Game.AwayTeam.Score ≠ prev.Game.AwayTeam.Score) := by
    intro h'
    rcases h' with h' | h'
    · exact h' hhome
    · exact h' haway
  have hturn : ¬ (m.lastPossession ≠ "" ∧ cp.Possession ≠ m.lastPossession) :=
    fun h' => h'.2 hposs
  rw [updateGameData_of_prev m prev new cp hprev hcp, if_neg hscore, if_neg hturn,
    if_pos hid] at h
  exact ⟨_, h, rfl, rfl, rfl, rfl, rfl, rfl, rfl⟩

/-- C15, witness: a new play "p2" with NE still in possession and the scores
unchanged. -/
theorem Update_new_play_flash_only_witness :
    ∃ m', sampleModel.Update sampleBubbles (.gameDataMsg (some (liveSummary 7 3 "p2" "NE")))
        = some (m', Cmd.tick (1 * Second) .clearFlashPlayMsg) ∧
      m'.flashPlay = true ∧ m'.lastPlayID = "p2" ∧
      m'.flashScore = sampleModel.flashScore ∧ m'.showFireworks = sampleModel.showFireworks ∧
      m'.mascotState = sampleModel.mascotState ∧
      m'.summary = some (liveSummary 7 3 "p2" "NE") ∧
      m'.prevSummary = some (liveSummary 7 3 "p1" "NE") :=
  Update_new_play_flash_only sampleBubbles sampleModel (liveSummary 7 3 "p1" "NE")
    (liveSummary 7 3 "p2" "NE") _ rfl rfl rfl rfl rfl (by decide)

/-- C16, the code at the failing input: from the initial model the fetches
deliver the summary with NE in possession and then the summary with BUF in
possession (a turnover); the model now holds that summary, and delivering the
identical summary once more sets the mascot sad and schedules the 3-second
clear again, because the turnover branch returns before the recorded
possession is updated.  The same happens when the sad mascot of the turnover
has been cleared in between: the mascot goes from normal to sad.  Likewise,
after a score change whose celebration has been cleared, the identical summary
delivered once more raises the new-play flash, because the celebrate branch
returns before the recorded play is updated. -/
theorem Update_identical_summary_raises_signal :
    (∃ m2 m3,
      (NewModel sampleBubbles "401547" sampleService false).run sampleBubbles
          [.gameDataMsg (some (liveSummary 7 3 "p1" "NE")),
           .gameDataMsg (some (liveSummary 7 3 "p2" "BUF"))] = some m2 ∧
      m2.summary = some (liveSummary 7 3 "p2" "BUF") ∧ m2.lastPossession = "NE" ∧
      m2.Update sampleBubbles (.gameDataMsg (some (liveSummary 7 3 "p2" "BUF")))
        = some (m3, Cmd.tick (3 * Second) .clearSadMascotMsg) ∧
      m3.mascotState = .MascotSad) ∧
    (∃ m2 m3,
      (NewModel sampleBubbles "401547" sampleService false).run sampleBubbles
          [.gameDataMsg (some (liveSummary 7 3 "p1" "NE")),
           .gameDataMsg (some (liveSummary 7 3 "p2" "BUF")),
           .clearSadMascotMsg] = some m2 ∧
      m2.summary = some (liveSummary 7 3 "p2" "BUF") ∧
      m2.mascotState = .MascotNormal ∧
      m2.Update sampleBubbles (.gameDataMsg (some (liveSummary 7 3 "p2" "BUF")))
        = some (m3, Cmd.tick (3 * Second) .clearSadMascotMsg) ∧
      m3.mascotState = .MascotSad) ∧
    (∃ m2 m3,
      (NewModel sampleBubbles "401547" sampleService false).run sampleBubbles
          [.gameDataMsg (some (liveSummary 7 3 "p1" "NE")),
           .gameDataMsg (some (liveSummary 14 3 "p2" "NE")),
           .clearCelebrationMsg] = some m2 ∧
      m2.summary = some (liveSummary 14 3 "p2" "NE") ∧
      m2.flashPlay = false ∧ m2.lastPlayID = "p1" ∧
      m2.Update sampleBubbles (.gameDataMsg (some (liveSummary 14 3 "p2" "NE")))
        = some (m3, Cmd.tick (1 * Second) .clearFlashPlayMsg) ∧
      m3.flashPlay = true) :=
  ⟨⟨_, _, rfl, rfl, rfl, rfl, rfl⟩, ⟨_, _, rfl, rfl, rfl, rfl, rfl⟩,
    ⟨_, _, rfl, rfl, rfl, rfl, rfl, rfl⟩⟩

/-- C17: for every live model, `Update` on a poll tick returns the model
unchanged together with the batch of a new fetch of the game summary and a
tick after 10 seconds; `Update` on a fetch error records the error and clears
the loading flag, changes nothing else (the stored summary in particular), and
returns no command; the model after the error answers the next poll tick with
the fetch and the 10-second tick again. -/
theorem Update_tick_and_error (b : Bubbles) (m : Model) :
    m.Update b .tickMsg
      = some (m, Cmd.batch [Cmd.fetchGameData m.gameID m.service,
          Cmd.tick (10 * Second) .tickMsg]) ∧
    ∀ err : String,
      m.Update b (.errorMsg err) = some ({ m with err := some err, loading := false }, Cmd.none) ∧
      ({ m with err := some err, loading := false } : Model).summary = m.summary ∧
      ({ m with err := some err, loading := false } : Model).Update b .tickMsg
        = some ({ m with err := some err, loading := false },
            Cmd.batch [Cmd.fetchGameData m.gameID m.service, Cmd.tick (10 * Second) .tickMsg]) :=
  ⟨rfl, fun _ => ⟨rfl, rfl, rfl⟩⟩

/-- C18 (amended): for every live model whose error flag is set, a game-data
message that delivers a summary stores the summary but does not clear the
error: after `Update` the error flag is still set and `View` renders the error
screen, not the game. -/
theorem Update_gameData_keeps_error (b : Bubbles) (m : Model) (err : String)
    (new : GameSummary) (herr : m.err = some err) :
    ∃ m' cmd, m.Update b (.gameDataMsg (some new)) = some (m', cmd) ∧
      m'.summary = some new ∧ m'.err = some err ∧
      m'.View b = Screen.text ("\n\n   Error: " ++ err ++ "\n\n   Press q to quit.\n") := by
  have h : m.Update b (.gameDataMsg (some new)) = some (m.updateGameData (some new)) := rfl
  have hkeep : (m.updateGameData (some new)).1.summary = some new ∧
      (m.updateGameData (some new)).1.err = some err ∧
      (m.updateGameData (some new)).1.loading = false := by
    cases hcp : new.CurrentPlay with
    | none =>
      unfold Model.updateGameData
      simp only [hcp]
      exact ⟨trivial, herr, trivial⟩
    | some cp =>
      cases hprev : m.summary with
      | none =>
        unfold Model.updateGameData
        simp only [hcp, hprev]
        exact ⟨trivial, herr, trivial⟩
      | some prev =>
        rw [updateGameData_of_prev m prev new cp hprev hcp]
        split_ifs <;> exact ⟨rfl, herr, rfl⟩
  refine ⟨(m.updateGameData (some new)).1, (m.updateGameData (some new)).2, h,
    hkeep.1, hkeep.2.1, ?_⟩
  unfold Model.View
  rw [hkeep.2.1, hkeep.2.2]
  simp

/-- C18, witness: the sample model with the error "timeout" set. -/
theorem Update_gameData_keeps_error_witness :
    ∃ m' cmd, ({ sampleModel with err := some "timeout" } : Model).Update sampleBubbles
          (.gameDataMsg (some (liveSummary 7 3 "p2" "NE"))) = some (m', cmd) ∧
      m'.summary = some (liveSummary 7 3 "p2" "NE") ∧ m'.err = some "timeout" ∧
      m'.View sampleBubbles
        = Screen.text ("\n\n   Error: " ++ "timeout" ++ "\n\n   Press q to quit.\n") :=
  Update_gameData_keeps_error sampleBubbles _ "timeout" _ rfl

/-- C18, counterexample: from the initial model a failed fetch sets the error
"timeout"; the later successful fetch delivers a summary; the error flag is
still set and `View` is the error screen. -/
theorem run_error_then_data_shows_error :
    ∃ m, (NewModel sampleBubbles "401547" sampleService false).run sampleBubbles
          [.errorMsg "timeout", .gameDataMsg (some (liveSummary 7 3 "p1" "NE"))] = some m ∧
      m.summary = some (liveSummary 7 3 "p1" "NE") ∧
      m.err = some "timeout" ∧
      m.View sampleBubbles = Screen.text "\n\n   Error: timeout\n\n   Press q to quit.\n" :=
  ⟨_, rfl, rfl, rfl, by decide⟩

/-! ## The live view: the selection keys -/

/-- C19: for every live model whose summary has `n ≥ 1` recent plays and
whose selection is -1 or within `[0, n-1]`, the down key ("down", "j") changes
only the selection, from `i` to `i+1` when `i < n-1` and from `n-1` to 0, and
the up key ("up", "k") changes only the selection, from `i` to `i-1` when
`i > 0` and from 0 or -1 to `n-1`; the new selection is within `[0, n-1]`.  A
model with no summary or no recent plays is left unchanged by both keys. -/
theorem Update_selection_wraps (b : Bubbles) (m : Model) (s : GameSummary)
    (hs : m.summary = some s) (hn : s.RecentPlays.len ≥ 1)
    (hsel : m.selectedPlay = -1 ∨
      (0 ≤ m.selectedPlay ∧ m.selectedPlay < (s.RecentPlays.len : Int))) :
    (∀ k, k = "down" ∨ k = "j" →
      ∃ m', m.Update b (.key k) = some (m', Cmd.none) ∧
        m' = { m with selectedPlay := m'.selectedPlay } ∧
        (m.selectedPlay < (s.RecentPlays.len : Int) - 1 →
          m'.selectedPlay = m.selectedPlay + 1) ∧
        (m.selectedPlay = (s.RecentPlays.len : Int) - 1 → m'.selectedPlay = 0) ∧
        0 ≤ m'.selectedPlay ∧ m'.selectedPlay < (s.RecentPlays.len : Int)) ∧
    (∀ k, k = "up" ∨ k = "k" →
      ∃ m', m.Update b (.key k) = some (m', Cmd.none) ∧
        m' = { m with selectedPlay := m'.selectedPlay } ∧
        (m.selectedPlay > 0 → m'.selectedPlay = m.selectedPlay - 1) ∧
        (m.selectedPlay = 0 ∨ m.selectedPlay = -1 →
          m'.selectedPlay = (s.RecentPlays.len : Int) - 1) ∧
        0 ≤ m'.selectedPlay ∧ m'.selectedPlay < (s.RecentPlays.len : Int)) ∧
    (∀ m0 : Model,
      (m0.summary = none ∨ ∃ s0, m0.summary = some s0 ∧ s0.RecentPlays.len = 0) →
      ∀ k, k = "up" ∨ k = "k" ∨ k = "down" ∨ k = "j" →
        m0.Update b (.key k) = some (m0, Cmd.none)) := by
  have hpos : s.RecentPlays.len > 0 := hn
  have hdown : ∀ k, k = "down" ∨ k = "j" →
      m.Update b (.key k)
        = some ({ m with
            selectedPlay := if m.selectedPlay < (s.RecentPlays.len : Int) - 1
              then m.selectedPlay + 1 else 0 }, Cmd.none) := by
    intro k hk
    have hq : ¬ (k = "q" ∨ k = "ctrl+c" ∨ k = "esc") := by
      rcases hk with rfl | rfl <;> decide
    have hu : ¬ (k = "up" ∨ k = "k") := by
      rcases hk with rfl | rfl <;> decide
    show m.updateKey k = _
    unfold Model.updateKey
    rw [if_neg hq, if_neg hu, if_pos hk, hs]
    dsimp only
    rw [if_pos hpos]
    split_ifs <;> rfl
  have hup : ∀ k, k = "up" ∨ k = "k" →
      m.Update b (.key k)
        = some ({ m with
            selectedPlay := if m.selectedPlay > 0
              then m.selectedPlay - 1 else (s.RecentPlays.len : Int) - 1 }, Cmd.none) := by
    intro k hk
    have hq : ¬ (k = "q" ∨ k = "ctrl+c" ∨ k = "esc") := by
      rcases hk with rfl | rfl <;> decide
    show m.updateKey k = _
    unfold Model.updateKey
    rw [if_neg hq, if_pos hk, hs]
    dsimp only
    rw [if_pos hpos]
    split_ifs <;> rfl
  refine ⟨?_, ?_, ?_⟩
  · intro k hk
    refine ⟨_, hdown k hk, rfl, ?_, ?_, ?_, ?_⟩
    · intro h; dsimp only; rw [if_pos h]
    · intro h; dsimp only; rw [if_neg (by omega)]
    · dsimp only; split_ifs <;> omega
    · dsimp only; split_ifs <;> omega
  · intro k hk
    refine ⟨_, hup k hk, rfl, ?_, ?_, ?_, ?_⟩
    · intro h; dsimp only; rw [if_pos h]
    · intro h; dsimp only; rw [if_neg (by omega)]
    · dsimp only; split_ifs <;> omega
    · dsimp only; split_ifs <;> omega
  · intro m0 h0 k hk
    have hq : ¬ (k = "q" ∨ k = "ctrl+c" ∨ k = "esc") := by
      rcases hk with rfl | rfl | rfl | rfl <;> decide
    have he : ¬ (k = "enter" ∨ k = " ") := by
      rcases hk with rfl | rfl | rfl | rfl <;> decide
    show m0.updateKey k = _
    unfold Model.updateKey
    rw [if_neg hq]
    rcases h0 with h0 | ⟨s0, h0, hlen⟩
    · rw [h0]
      split_ifs <;> rfl
    · have hz : ¬ s0.RecentPlays.len > 0 := by omega
      rw [h0]
      dsimp only
      rw [if_neg hz]
      split_ifs <;> rfl

/-- C19, witness: on the model that holds three recent plays, "down" wraps
from the last play 2 to 0, steps from 0 to 1 and goes from no selection to 0;
"up" wraps from 0 to the last play 2, goes from no selection to 2 and steps
from 2 to 1; on the initial model, which holds no summary, "up" and "down"
change nothing. -/
theorem Update_selection_wraps_witness :
    (∃ m', (sampleModelAt 2).Update sampleBubbles (.key "down") = some (m', Cmd.none) ∧
      m'.selectedPlay = 0) ∧
    (∃ m', (sampleModelAt 0).Update sampleBubbles (.key "j") = some (m', Cmd.none) ∧
      m'.selectedPlay = 1) ∧
    (∃ m', (sampleModelAt (-1)).Update sampleBubbles (.key "down") = some (m', Cmd.none) ∧
      m'.selectedPlay = 0) ∧
    (∃ m', (sampleModelAt 0).Update sampleBubbles (.key "up") = some (m', Cmd.none) ∧
      m'.selectedPlay = 2) ∧
    (∃ m', (sampleModelAt (-1)).Update sampleBubbles (.key "k") = some (m', Cmd.none) ∧
      m'.selectedPlay = 2) ∧
    (∃ m', (sampleModelAt 2).Update sampleBubbles (.key "up") = some (m', Cmd.none) ∧
      m'.selectedPlay = 1) ∧
    (NewModel sampleBubbles "401547" sampleService false).Update sampleBubbles (.key "up")
      = some (NewModel sampleBubbles "401547" sampleService false, Cmd.none) ∧
    (NewModel sampleBubbles "401547" sampleService false).Update sampleBubbles (.key "down")
      = some (NewModel sampleBubbles "401547" sampleService false, Cmd.none) := by
  obtain ⟨hd2, hu2, hnone⟩ := Update_selection_wraps sampleBubbles (sampleModelAt 2)
    threePlaySummary rfl (by decide) (Or.inr (by decide))
  obtain ⟨hd0, hu0, _⟩ := Update_selection_wraps sampleBubbles (sampleModelAt 0)
    threePlaySummary rfl (by decide) (Or.inr (by decide))
  obtain ⟨hdn, hun, _⟩ := Update_selection_wraps sampleBubbles (sampleModelAt (-1))
    threePlaySummary rfl (by decide) (Or.inl rfl)
  obtain ⟨a, ha, _, _, ha2, _⟩ := hd2 "down" (Or.inl rfl)
  obtain ⟨b, hb, _, hb1, _, _⟩ := hd0 "j" (Or.inr rfl)
  obtain ⟨c, hc, _, hc1, _, _⟩ := hdn "down" (Or.inl rfl)
  obtain ⟨d, hd, _, _, hd2', _⟩ := hu0 "up" (Or.inl rfl)
  obtain ⟨e, he, _, _, he2, _⟩ := hun "k" (Or.inr rfl)
  obtain ⟨f, hf, _, hf1, _, _⟩ := hu2 "up" (Or.inl rfl)
  exact ⟨⟨a, ha, ha2 (by decide)⟩,
    ⟨b, hb, (hb1 (by decide)).trans (by decide)⟩,
    ⟨c, hc, (hc1 (by decide)).trans (by decide)⟩,
    ⟨d, hd, (hd2' (Or.inl (by decide))).trans (by decide)⟩,
    ⟨e, he, (he2 (Or.inr (by decide))).trans (by decide)⟩,
    ⟨f, hf, (hf1 (by decide)).trans (by decide)⟩,
    hnone _ (Or.inl rfl) "up" (Or.inl rfl),
    hnone _ (Or.inl rfl) "down" (Or.inr (Or.inr (Or.inl rfl)))⟩

/-! ## The replay view: the navigation keys -/

/-- C20: for every replay model that holds a replay of `n` plays with the
cursor `i` in `[0, n-1]` (so `n ≥ 1`), each navigation key changes only the
cursor, keeps it in `[0, n-1]`, and returns no command: 'previous' ("left",
"h", "p") leaves it at 0 when `i = 0` and gives `i-1` otherwise; 'next'
("right", "l", "n") leaves it at `n-1` when `i = n-1` and gives `i+1`
otherwise; 'home' ("home", "0") gives 0; 'end' ("end", "$") gives `n-1`. -/
theorem ReplayUpdate_navigation (m : ReplayModel) (r : GameReplay)
    (hr : m.replay = some r)
    (hi : 0 ≤ m.playIndex ∧ m.playIndex ≤ (r.Plays.len : Int) - 1) :
    (∀ k, k = "left" ∨ k = "h" ∨ k = "p" →
      ∃ m', m.Update (.key k) = (m', Cmd.none) ∧ m' = { m with playIndex := m'.playIndex } ∧
        (m.playIndex = 0 → m'.playIndex = 0) ∧
        (m.playIndex ≠ 0 → m'.playIndex = m.playIndex - 1) ∧
        0 ≤ m'.playIndex ∧ m'.playIndex ≤ (r.Plays.len : Int) - 1) ∧
    (∀ k, k = "right" ∨ k = "l" ∨ k = "n" →
      ∃ m', m.Update (.key k) = (m', Cmd.none) ∧ m' = { m with playIndex := m'.playIndex } ∧
        (m.playIndex = (r.Plays.len : Int) - 1 → m'.playIndex = (r.Plays.len : Int) - 1) ∧
        (m.playIndex ≠ (r.Plays.len : Int) - 1 → m'.playIndex = m.playIndex + 1) ∧
        0 ≤ m'.playIndex ∧ m'.playIndex ≤ (r.Plays.len : Int) - 1) ∧
    (∀ k, k = "home" ∨ k = "0" →
      ∃ m', m.Update (.key k) = (m', Cmd.none) ∧ m' = { m with playIndex := m'.playIndex } ∧
        m'.playIndex = 0 ∧ m'.playIndex ≤ (r.Plays.len : Int) - 1) ∧
    (∀ k, k = "end" ∨ k = "$" →
      ∃ m', m.Update (.key k) = (m', Cmd.none) ∧ m' = { m with playIndex := m'.playIndex } ∧
        m'.playIndex = (r.Plays.len : Int) - 1 ∧ 0 ≤ m'.playIndex) := by
  obtain ⟨hlo, hhi⟩ := hi
  refine ⟨?_, ?_, ?_, ?_⟩
  · intro k hk
    have hq : ¬ (k = "q" ∨ k = "ctrl+c" ∨ k = "esc") := by
      rcases hk with rfl | rfl | rfl <;> decide
    have hnext : ¬ (k = "right" ∨ k = "l" ∨ k = "n") := by
      rcases hk with rfl | rfl | rfl <;> decide
    have hstep : m.Update (.key k)
        = (if m.playIndex > 0 then ({ m with playIndex := m.playIndex - 1 }, Cmd.none)
            else (m, Cmd.none)) := by
      show m.updateKey k = _
      unfold ReplayModel.updateKey
      rw [if_neg hq, if_neg hnext, if_pos hk]
    by_cases h0 : m.playIndex > 0
    · rw [if_pos h0] at hstep
      refine ⟨_, hstep, rfl, fun h => ?_, fun _ => rfl, ?_, ?_⟩ <;> dsimp only <;> omega
    · rw [if_neg h0] at hstep
      refine ⟨_, hstep, rfl, fun h => h, fun h => ?_, hlo, hhi⟩
      omega
  · intro k hk
    have hq : ¬ (k = "q" ∨ k = "ctrl+c" ∨ k = "esc") := by
      rcases hk with rfl | rfl | rfl <;> decide
    have hstep : m.Update (.key k)
        = (if m.playIndex < (r.Plays.len : Int) - 1
            then ({ m with playIndex := m.playIndex + 1 }, Cmd.none)
            else (m, Cmd.none)) := by
      show m.updateKey k = _
      unfold ReplayModel.updateKey
      rw [if_neg hq, if_pos hk, hr]
    by_cases h0 : m.playIndex < (r.Plays.len : Int) - 1
    · rw [if_pos h0] at hstep
      refine ⟨_, hstep, rfl, fun h => ?_, fun _ => rfl, ?_, ?_⟩ <;> dsimp only <;> omega
    · rw [if_neg h0] at hstep
      refine ⟨_, hstep, rfl, fun h => h, fun h => ?_, hlo, hhi⟩
      omega
  · intro k hk
    have hq : ¬ (k = "q" ∨ k = "ctrl+c" ∨ k = "esc") := by
      rcases hk with rfl | rfl <;> decide
    have h1 : ¬ (k = "right" ∨ k = "l" ∨ k = "n") := by
      rcases hk with rfl | rfl <;> decide
    have h2 : ¬ (k = "left" ∨ k = "h" ∨ k = "p") := by
      rcases hk with rfl | rfl <;> decide
    have h3 : ¬ k = " " := by
      rcases hk with rfl | rfl <;> decide
    have h4 : ¬ (k = "+" ∨ k = "=") := by
      rcases hk with rfl | rfl <;> decide
    have h5 : ¬ (k = "-" ∨ k = "_") := by
      rcases hk with rfl | rfl <;> decide
    have hstep : m.Update (.key k) = ({ m with playIndex := 0 }, Cmd.none) := by
      show m.updateKey k = _
      unfold ReplayModel.updateKey
      rw [if_neg hq, if_neg h1, if_neg h2, if_neg h3, if_neg h4, if_neg h5, if_pos hk]
    refine ⟨_, hstep, rfl, rfl, ?_⟩
    dsimp only
    omega
  · intro k hk
    have hq : ¬ (k = "q" ∨ k = "ctrl+c" ∨ k = "esc") := by
      rcases hk with rfl | rfl <;> decide
    have h1 : ¬ (k = "right" ∨ k = "l" ∨ k = "n") := by
      rcases hk with rfl | rfl <;> decide
    have h2 : ¬ (k = "left" ∨ k = "h" ∨ k = "p") := by
      rcases hk with rfl | rfl <;> decide
    have h3 : ¬ k = " " := by
      rcases hk with rfl | rfl <;> decide
    have h4 : ¬ (k = "+" ∨ k = "=") := by
      rcases hk with rfl | rfl <;> decide
    have h5 : ¬ (k = "-" ∨ k = "_") := by
      rcases hk with rfl | rfl <;> decide
    have h6 : ¬ (k = "home" ∨ k = "0") := by
      rcases hk with rfl | rfl <;> decide
    have hstep : m.Update (.key k)
        = ({ m with playIndex := (r.Plays.len : Int) - 1 }, Cmd.none) := by
      show m.updateKey k = _
      unfold ReplayModel.updateKey
      rw [if_neg hq, if_neg h1, if_neg h2, if_neg h3, if_neg h4, if_neg h5, if_neg h6,
        if_pos hk, hr]
    refine ⟨_, hstep, rfl, rfl, ?_⟩
    dsimp only
    omega

/-- C20, witness: a replay of 10 plays; 'previous' at index 0 stays at 0 and
'next' at index 9 stays at 9. -/
theorem ReplayUpdate_navigation_witness :
    (∃ m', (sampleReplayModel 10 0).Update (.key "left") = (m', Cmd.none) ∧ m'.playIndex = 0) ∧
    (∃ m', (sampleReplayModel 10 9).Update (.key "right") = (m', Cmd.none) ∧
      m'.playIndex = 9) ∧
    (∃ m', (sampleReplayModel 10 4).Update (.key "end") = (m', Cmd.none) ∧ m'.playIndex = 9) := by
  obtain ⟨hprev, _, _, _⟩ := ReplayUpdate_navigation (sampleReplayModel 10 0) (sampleReplay 10)
    rfl (by decide)
  obtain ⟨_, hnext, _, _⟩ := ReplayUpdate_navigation (sampleReplayModel 10 9) (sampleReplay 10)
    rfl (by decide)
  obtain ⟨_, _, _, hend⟩ := ReplayUpdate_navigation (sampleReplayModel 10 4) (sampleReplay 10)
    rfl (by decide)
  obtain ⟨m1, h1, _, h10, _⟩ := hprev "left" (Or.inl rfl)
  obtain ⟨m2, h2, _, h20, _⟩ := hnext "right" (Or.inl rfl)
  obtain ⟨m3, h3, _, h30, _⟩ := hend "end" (Or.inl rfl)
  exact ⟨⟨m1, h1, h10 rfl⟩, ⟨m2, h2, (h20 (by decide)).trans (by decide)⟩,
    ⟨m3, h3, h30.trans (by decide)⟩⟩

end ui

/-! ## The replay view: the cursor -/

namespace ui

open models client service

/-- C21, the code at the failing input: the fetch of a game before its
kick-off delivers a replay with an empty play list; once it is loaded, the
"end" key (or "$") sets the cursor to `len(plays) - 1 = -1`.  The sibling keys
guard the empty list: "right" moves only below `len(plays) - 1` and "left"
only above 0, and they leave the cursor at 0 on the same state. -/
theorem ReplayUpdate_end_on_empty_replay :
    (∃ replay, fetchReplayDataMsg (main.sampleLib noDrivesSummary) "401547" sampleService
        = .replayDataMsg (some replay) ∧ replay.Plays.len = 0 ∧
      ((NewReplayModel "401547" sampleService false false).run
        [.replayDataMsg (some replay), .key "end"]).playIndex = -1 ∧
      ((NewReplayModel "401547" sampleService false false).run
        [.replayDataMsg (some replay), .key "$"]).playIndex = -1 ∧
      ((NewReplayModel "401547" sampleService false false).run
        [.replayDataMsg (some replay), .key "right"]).playIndex = 0 ∧
      ((NewReplayModel "401547" sampleService false false).run
        [.replayDataMsg (some replay), .key "left"]).playIndex = 0) := by
  refine ⟨_, rfl, ?_, ?_, ?_, ?_, ?_⟩ <;> decide

/-- Every message but a `replayDataMsg` keeps the loaded replay and keeps the
cursor inside the play list once it is inside. -/
theorem ReplayUpdate_keeps_cursor_in_range (m : ReplayModel) (r : GameReplay) (msg : Msg)
    (hr : m.replay = some r) (h0 : 0 ≤ m.playIndex)
    (h1 : m.playIndex ≤ (r.Plays.len : Int) - 1)
    (hmsg : ∀ replay, msg ≠ .replayDataMsg replay) :
    (m.Update msg).1.replay = some r ∧ 0 ≤ (m.Update msg).1.playIndex ∧
      (m.Update msg).1.playIndex ≤ (r.Plays.len : Int) - 1 := by
  cases m with
  | mk gameID service replay loading err plain playIndex autoPlay autoSpeed width height
      showMascot mascotFrame =>
  dsimp only at hr h0 h1
  subst hr
  cases msg with
  | key s =>
    show (ReplayModel.updateKey _ s).1.replay = some r ∧
      0 ≤ (ReplayModel.updateKey _ s).1.playIndex ∧
      (ReplayModel.updateKey _ s).1.playIndex ≤ (r.Plays.len : Int) - 1
    unfold ReplayModel.updateKey
    dsimp only
    split_ifs <;> refine ⟨rfl, ?_, ?_⟩ <;> dsimp only <;> omega
  | replayDataMsg replay => exact absurd rfl (hmsg replay)
  | replayAutoTickMsg =>
    unfold ReplayModel.Update
    dsimp only
    split_ifs <;> refine ⟨rfl, ?_, ?_⟩ <;> dsimp only <;> omega
  | _ => exact ⟨rfl, h0, h1⟩

/-- While no replay is loaded, every message but a `replayDataMsg` leaves the
cursor at 0. -/
theorem ReplayUpdate_keeps_cursor_unloaded (m : ReplayModel) (msg : Msg)
    (hr : m.replay = none) (h0 : m.playIndex = 0)
    (hmsg : ∀ replay, msg ≠ .replayDataMsg replay) :
    (m.Update msg).1.replay = none ∧ (m.Update msg).1.playIndex = 0 := by
  cases m with
  | mk gameID service replay loading err plain playIndex autoPlay autoSpeed width height
      showMascot mascotFrame =>
  dsimp only at hr h0
  subst hr
  cases msg with
  | key s =>
    show (ReplayModel.updateKey _ s).1.replay = none ∧ (ReplayModel.updateKey _ s).1.playIndex = 0
    unfold ReplayModel.updateKey
    dsimp only
    split_ifs <;> refine ⟨rfl, ?_⟩ <;> dsimp only <;> omega
  | replayDataMsg replay => exact absurd rfl (hmsg replay)
  | _ => exact ⟨rfl, h0⟩

/-- In the replay view, in every state reached from `NewReplayModel` by
messages of which exactly one is a `replayDataMsg`, and that one loads a
replay with at least one play, the cursor is inside the play list. -/
theorem ReplayModel_cursor_in_range_nonempty (gameID : String) (svc : ScoreService)
    (plain mascot : Bool) (before after : List Msg) (r : GameReplay)
    (hbefore : ∀ msg ∈ before, ∀ replay, msg ≠ .replayDataMsg replay)
    (hafter : ∀ msg ∈ after, ∀ replay, msg ≠ .replayDataMsg replay)
    (hn : 1 ≤ r.Plays.len) :
    let m := (NewReplayModel gameID svc plain mascot).run
      (before ++ [.replayDataMsg (some r)] ++ after)
    m.replay = some r ∧ 0 ≤ m.playIndex ∧ m.playIndex ≤ (r.Plays.len : Int) - 1 := by
  have hrun_append : ∀ (l1 l2 : List Msg) (m : ReplayModel),
      m.run (l1 ++ l2) = (m.run l1).run l2 := by
    intro l1
    induction l1 with
    | nil => intro l2 m; rfl
    | cons a l ih => intro l2 m; exact ih l2 _
  have hpre : ∀ (l : List Msg) (m : ReplayModel),
      (∀ msg ∈ l, ∀ replay, msg ≠ .replayDataMsg replay) →
      m.replay = none → m.playIndex = 0 →
      (m.run l).replay = none ∧ (m.run l).playIndex = 0 := by
    intro l
    induction l with
    | nil => intro m _ h1 h2; exact ⟨h1, h2⟩
    | cons a l ih =>
      intro m hl h1 h2
      obtain ⟨h3, h4⟩ := ReplayUpdate_keeps_cursor_unloaded m a h1 h2
        (hl a (List.mem_cons_self _ _))
      exact ih _ (fun x hx => hl x (List.mem_cons_of_mem _ hx)) h3 h4
  have hpost : ∀ (l : List Msg) (m : ReplayModel),
      (∀ msg ∈ l, ∀ replay, msg ≠ .replayDataMsg replay) →
      m.replay = some r → 0 ≤ m.playIndex → m.playIndex ≤ (r.Plays.len : Int) - 1 →
      (m.run l).replay = some r ∧ 0 ≤ (m.run l).playIndex ∧
        (m.run l).playIndex ≤ (r.Plays.len : Int) - 1 := by
    intro l
    induction l with
    | nil => intro m _ h1 h2 h3; exact ⟨h1, h2, h3⟩
    | cons a l ih =>
      intro m hl h1 h2 h3
      obtain ⟨h4, h5, h6⟩ := ReplayUpdate_keeps_cursor_in_range m r a h1 h2 h3
        (hl a (List.mem_cons_self _ _))
      exact ih _ (fun x hx => hl x (List.mem_cons_of_mem _ hx)) h4 h5 h6
  intro m
  obtain ⟨h1, h2⟩ := hpre before (NewReplayModel gameID svc plain mascot) hbefore rfl rfl
  have hm : m = (((NewReplayModel gameID svc plain mascot).run before).Update
      (.replayDataMsg (some r))).1.run after := by
    show ReplayModel.run _ _ = _
    rw [hrun_append, hrun_append]
    rfl
  rw [hm]
  refine hpost after _ hafter rfl ?_ ?_
  · show 0 ≤ ((NewReplayModel gameID svc plain mascot).run before).playIndex
    omega
  · show ((NewReplayModel gameID svc plain mascot).run before).playIndex ≤ _
    omega

/-! ## The replay view: auto-advance -/

/-- C22: in the replay view, when the cursor of a loaded replay is at the last
index `len(plays) - 1`, an auto-advance tick leaves the cursor there, clears
the auto-advance flag and returns the nil command (no further tick); and in
every state whose auto-advance flag is off, an auto-advance tick leaves the
model as it is, flag off and cursor unchanged, and returns the nil command. -/
theorem ReplayUpdate_autoTick_stops (m : ReplayModel) :
    (∀ r : GameReplay, m.replay = some r → m.playIndex = (r.Plays.len : Int) - 1 →
      m.Update .replayAutoTickMsg = ({ m with autoPlay := false }, Cmd.none) ∧
      (m.Update .replayAutoTickMsg).1.playIndex = (r.Plays.len : Int) - 1 ∧
      (m.Update .replayAutoTickMsg).1.autoPlay = false ∧
      (m.Update .replayAutoTickMsg).2.autoTicks = 0) ∧
    (m.autoPlay = false →
      m.Update .replayAutoTickMsg = (m, Cmd.none) ∧
      (m.Update .replayAutoTickMsg).1.playIndex = m.playIndex ∧
      (m.Update .replayAutoTickMsg).1.autoPlay = false ∧
      (m.Update .replayAutoTickMsg).2.autoTicks = 0) := by
  constructor
  · intro r hr hi
    have h : m.Update .replayAutoTickMsg = ({ m with autoPlay := false }, Cmd.none) := by
      unfold ReplayModel.Update
      dsimp only
      rw [hr]
      dsimp only
      rw [if_neg (by omega)]
    rw [h]
    exact ⟨rfl, hi, rfl, rfl⟩
  · intro ha
    have h : m.Update .replayAutoTickMsg = (m, Cmd.none) := by
      cases m with
      | mk gameID service replay loading err plain playIndex autoPlay autoSpeed width height
          showMascot mascotFrame =>
      dsimp only at ha
      subst ha
      unfold ReplayModel.Update
      dsimp only
      cases replay with
      | none => rfl
      | some r => dsimp only; rw [if_neg (by simp)]
    rw [h]
    exact ⟨rfl, rfl, ha, rfl⟩

/-- C22 at a replay of ten plays: with the cursor at play 9 and auto-advance
on, the tick stops auto-advance at play 9; with the cursor at play 4 and
auto-advance off, a late tick changes nothing. -/
theorem ReplayUpdate_autoTick_stops_witness :
    ({ sampleReplayModel 10 9 with autoPlay := true }.Update .replayAutoTickMsg
        = (sampleReplayModel 10 9, Cmd.none)) ∧
    ((sampleReplayModel 10 4).Update .replayAutoTickMsg = (sampleReplayModel 10 4, Cmd.none)) :=
  ⟨((ReplayUpdate_autoTick_stops { sampleReplayModel 10 9 with autoPlay := true }).1
      (sampleReplay 10) rfl (by decide)).1,
   ((ReplayUpdate_autoTick_stops (sampleReplayModel 10 4)).2 rfl).1⟩

/-- The command that `ReplayModel.Update` returns is the nil command, quit, an
auto-advance tick after the interval stored in the new state, or the
300-millisecond animation tick. -/
theorem ReplayUpdate_cmd_cases (m : ReplayModel) (msg : Msg) :
    (m.Update msg).2 = Cmd.none ∨ (m.Update msg).2 = Cmd.quit ∨
    (m.Update msg).2
      = Cmd.tick ((m.Update msg).1.autoSpeed.toNat * Second) .replayAutoTickMsg ∨
    (m.Update msg).2 = Cmd.tick (300 * Millisecond) .replayTickMsg := by
  cases msg with
  | key s =>
    show (m.updateKey s).2 = Cmd.none ∨ (m.updateKey s).2 = Cmd.quit ∨
      (m.updateKey s).2
        = Cmd.tick ((m.updateKey s).1.autoSpeed.toNat * Second) .replayAutoTickMsg ∨
      (m.updateKey s).2 = Cmd.tick (300 * Millisecond) .replayTickMsg
    unfold ReplayModel.updateKey
    dsimp only
    split_ifs
    · exact Or.inr (Or.inl rfl)
    · cases m.replay with
      | none => exact Or.inl rfl
      | some r => dsimp only; split_ifs <;> exact Or.inl rfl
    · exact Or.inl rfl
    · exact Or.inl rfl
    · exact Or.inr (Or.inr (Or.inl rfl))
    · exact Or.inl rfl
    · exact Or.inl rfl
    · exact Or.inl rfl
    · exact Or.inl rfl
    · exact Or.inl rfl
    · exact Or.inl rfl
    · cases m.replay with
      | none => exact Or.inl rfl
      | some r => exact Or.inl rfl
    · exact Or.inl rfl
  | replayAutoTickMsg =>
    unfold ReplayModel.Update
    dsimp only
    cases m.replay with
    | none => exact Or.inl rfl
    | some r =>
      dsimp only
      split_ifs
      · exact Or.inr (Or.inr (Or.inl rfl))
      · exact Or.inl rfl
  | replayTickMsg => exact Or.inr (Or.inr (Or.inr rfl))
  | _ => exact Or.inl rfl

/-- Every message keeps the interval of the replay view within 1..5. -/
theorem ReplayUpdate_keeps_autoSpeed (m : ReplayModel) (msg : Msg)
    (h : 1 ≤ m.autoSpeed ∧ m.autoSpeed ≤ 5) :
    1 ≤ (m.Update msg).1.autoSpeed ∧ (m.Update msg).1.autoSpeed ≤ 5 := by
  cases msg with
  | key s =>
    show 1 ≤ (m.updateKey s).1.autoSpeed ∧ (m.updateKey s).1.autoSpeed ≤ 5
    unfold ReplayModel.updateKey
    dsimp only
    split_ifs
    · exact h
    · cases m.replay with
      | none => exact h
      | some r => dsimp only; split_ifs <;> exact h
    · exact h
    · exact h
    · exact h
    · exact h
    · dsimp only; omega
    · exact h
    · dsimp only; omega
    · exact h
    · exact h
    · cases m.replay with
      | none => exact h
      | some r => exact h
    · exact h
  | replayAutoTickMsg =>
    unfold ReplayModel.Update
    dsimp only
    cases m.replay with
    | none => exact h
    | some r => dsimp only; split_ifs <;> exact h
  | _ => exact h

/-- C24: in the replay view the interval starts at 2 seconds and is within
1..5 seconds in every state reached from `NewReplayModel` by any messages; the
speed-up keys "+" and "=" take one second off unless the interval is 1 (not
above 1), the slow-down keys "-" and "_" add one second unless it is 5 (not
below 5), and a speed key leaves the cursor and the auto-advance flag as they
are and returns the nil command; whenever `Update` schedules an auto-advance
tick, the command is the tick after the interval stored in the state that
`Update` returns. -/
theorem ReplayModel_autoSpeed (gameID : String) (svc : ScoreService) (plain mascot : Bool)
    (msgs : List Msg) (m : ReplayModel) (msg : Msg) :
    (NewReplayModel gameID svc plain mascot).autoSpeed = 2 ∧
    (1 ≤ ((NewReplayModel gameID svc plain mascot).run msgs).autoSpeed ∧
      ((NewReplayModel gameID svc plain mascot).run msgs).autoSpeed ≤ 5) ∧
    (∀ k, k = "+" ∨ k = "=" →
      (m.Update (.key k)).1.autoSpeed
        = (if m.autoSpeed > 1 then m.autoSpeed - 1 else m.autoSpeed) ∧
      (m.Update (.key k)).1.playIndex = m.playIndex ∧
      (m.Update (.key k)).1.autoPlay = m.autoPlay ∧
      (m.Update (.key k)).2 = Cmd.none) ∧
    (∀ k, k = "-" ∨ k = "_" →
      (m.Update (.key k)).1.autoSpeed
        = (if m.autoSpeed < 5 then m.autoSpeed + 1 else m.autoSpeed) ∧
      (m.Update (.key k)).1.playIndex = m.playIndex ∧
      (m.Update (.key k)).1.autoPlay = m.autoPlay ∧
      (m.Update (.key k)).2 = Cmd.none) ∧
    ((m.Update msg).2.autoTicks ≥ 1 →
      (m.Update msg).2
        = Cmd.tick ((m.Update msg).1.autoSpeed.toNat * Second) .replayAutoTickMsg) := by
  refine ⟨rfl, ?_, ?_, ?_, ?_⟩
  · have hrun : ∀ (l : List Msg) (m : ReplayModel), 1 ≤ m.autoSpeed ∧ m.autoSpeed ≤ 5 →
        1 ≤ (m.run l).autoSpeed ∧ (m.run l).autoSpeed ≤ 5 := by
      intro l
      induction l with
      | nil => intro m h; exact h
      | cons a l ih => intro m h; exact ih _ (ReplayUpdate_keeps_autoSpeed m a h)
    exact hrun msgs _ ⟨by show (1 : Int) ≤ 2; decide, by show (2 : Int) ≤ 5; decide⟩
  · intro k hk
    have hq : ¬ (k = "q" ∨ k = "ctrl+c" ∨ k = "esc") := by rcases hk with rfl | rfl <;> decide
    have hr : ¬ (k = "right" ∨ k = "l" ∨ k = "n") := by rcases hk with rfl | rfl <;> decide
    have hl : ¬ (k = "left" ∨ k = "h" ∨ k = "p") := by rcases hk with rfl | rfl <;> decide
    have hs : ¬ (k = " ") := by rcases hk with rfl | rfl <;> decide
    have h : m.Update (.key k)
        = (if m.autoSpeed > 1 then ({ m with autoSpeed := m.autoSpeed - 1 }, Cmd.none)
          else (m, Cmd.none)) := by
      show m.updateKey k = _
      unfold ReplayModel.updateKey
      rw [if_neg hq, if_neg hr, if_neg hl, if_neg hs, if_pos hk]
    rw [h]
    split_ifs <;> exact ⟨rfl, rfl, rfl, rfl⟩
  · intro k hk
    have hq : ¬ (k = "q" ∨ k = "ctrl+c" ∨ k = "esc") := by rcases hk with rfl | rfl <;> decide
    have hr : ¬ (k = "right" ∨ k = "l" ∨ k = "n") := by rcases hk with rfl | rfl <;> decide
    have hl : ¬ (k = "left" ∨ k = "h" ∨ k = "p") := by rcases hk with rfl | rfl <;> decide
    have hs : ¬ (k = " ") := by rcases hk with rfl | rfl <;> decide
    have hp : ¬ (k = "+" ∨ k = "=") := by rcases hk with rfl | rfl <;> decide
    have h : m.Update (.key k)
        = (if m.autoSpeed < 5 then ({ m with autoSpeed := m.autoSpeed + 1 }, Cmd.none)
          else (m, Cmd.none)) := by
      show m.updateKey k = _
      unfold ReplayModel.updateKey
      rw [if_neg hq, if_neg hr, if_neg hl, if_neg hs, if_neg hp, if_pos hk]
    rw [h]
    split_ifs <;> exact ⟨rfl, rfl, rfl, rfl⟩
  · intro h
    rcases ReplayUpdate_cmd_cases m msg with h1 | h1 | h1 | h1
    · rw [h1] at h; exact absurd h (by decide)
    · rw [h1] at h; exact absurd h (by decide)
    · exact h1
    · rw [h1] at h; exact absurd h (by decide)

/-- C24 from the initial model: three presses of "+" leave the interval at 1
second, four presses of "-" leave it at 5 seconds; "+" on the sample state
takes the interval from 2 to 1 without a command; and turning auto-advance on
after "-" schedules the tick after 3 seconds. -/
theorem ReplayModel_autoSpeed_witness :
    ((NewReplayModel "401547" sampleService false false).run
        [.key "+", .key "+", .key "+"]).autoSpeed = 1 ∧
    ((NewReplayModel "401547" sampleService false false).run
        [.key "-", .key "-", .key "-", .key "-"]).autoSpeed = 5 ∧
    (((sampleReplayModel 10 4).Update (.key "+")).1.autoSpeed = 1 ∧
      ((sampleReplayModel 10 4).Update (.key "+")).1.playIndex = 4 ∧
      ((sampleReplayModel 10 4).Update (.key "+")).1.autoPlay = false ∧
      ((sampleReplayModel 10 4).Update (.key "+")).2 = Cmd.none) ∧
    (((sampleReplayModel 10 4).run [.key "-"]).Update (.key " ")).2
      = Cmd.tick (3 * Second) .replayAutoTickMsg :=
  ⟨by decide, by decide,
   (ReplayModel_autoSpeed "401547" sampleService false false []
      (sampleReplayModel 10 4) (.key " ")).2.2.1 "+" (Or.inl rfl),
   (ReplayModel_autoSpeed "401547" sampleService false false []
      ((sampleReplayModel 10 4).run [.key "-"]) (.key " ")).2.2.2.2 (by decide)⟩

/-- C25: in the replay view `Init` is the batch of the one fetch of the replay
data and the animation tick; for every model and every message, the command
that `Update` returns is the nil command, quit, an auto-advance tick or the
animation tick, and it holds no fetch. -/
theorem Replay_fetches_only_in_Init (m : ReplayModel) (msg : Msg) :
    m.Init = Cmd.batch [Cmd.fetchReplayData m.gameID m.service,
      Cmd.tick (300 * Millisecond) .replayTickMsg] ∧
    m.Init.fetches = 1 ∧
    ((m.Update msg).2 = Cmd.none ∨ (m.Update msg).2 = Cmd.quit ∨
      (m.Update msg).2
        = Cmd.tick ((m.Update msg).1.autoSpeed.toNat * Second) .replayAutoTickMsg ∨
      (m.Update msg).2 = Cmd.tick (300 * Millisecond) .replayTickMsg) ∧
    (m.Update msg).2.fetches = 0 := by
  refine ⟨rfl, rfl, ReplayUpdate_cmd_cases m msg, ?_⟩
  rcases ReplayUpdate_cmd_cases m msg with h | h | h | h <;> rw [h] <;> rfl

end ui

/-! ## The mappers: the sign of a score -/

namespace strconv

/-- The value of `Atoi` is negative only for bytes that begin with `'-'`
(45). -/
theorem atoiBytes_nonneg (s : List Nat) (h : s.head? ≠ some 45) : 0 ≤ (atoiBytes s).1 := by
  unfold atoiBytes
  dsimp only
  split_ifs with hfast
  · cases s with
    | nil => exact Int.le_refl 0
    | cons c0 rest =>
      have hc : c0 ≠ 45 := fun e => h (by rw [e]; rfl)
      dsimp only
      split_ifs
      all_goals first
        | exact Int.le_refl 0
        | (split
           · exact Int.le_refl 0
           · exact Int.natCast_nonneg _)
  · unfold ParseInt
    cases s with
    | nil => exact Int.le_refl 0
    | cons c0 rest =>
      have hc : c0 ≠ 45 := fun e => h (by rw [e]; rfl)
      have hneg : decide (c0 = 45) = false := by simp [hc]
      dsimp only
      rw [hneg]
      split_ifs
      all_goals first
        | exact Int.le_refl 0
        | exact Int.natCast_nonneg _
        | (exfalso; simp_all)

/-- The value of `Atoi` is negative only for a string that begins with
`'-'`. -/
theorem Atoi_nonneg (s : String) (h : (goBytes s).head? ≠ some 45) : 0 ≤ (Atoi s).1 :=
  atoiBytes_nonneg _ h

end strconv

namespace models

/-- The competitor loop of `ToGames` keeps both scores non-negative when no
score string begins with `'-'`. -/
theorem foldl_setCompetitor_nonneg (cs : List Competitor) (g : Game)
    (hcs : ∀ c ∈ cs, (goBytes c.Score).head? ≠ some 45)
    (hg : 0 ≤ g.HomeTeam.Score ∧ 0 ≤ g.AwayTeam.Score) :
    0 ≤ (cs.foldl setCompetitor g).HomeTeam.Score ∧
      0 ≤ (cs.foldl setCompetitor g).AwayTeam.Score := by
  induction cs generalizing g with
  | nil => exact hg
  | cons c rest ih =>
    rw [List.foldl_cons]
    apply ih _ (fun x hx => hcs x (List.mem_cons_of_mem _ hx))
    have hc := strconv.Atoi_nonneg c.Score (hcs c (List.mem_cons_self _ _))
    unfold setCompetitor
    dsimp only
    split_ifs
    · exact ⟨hc, hg.2⟩
    · exact ⟨hg.1, hc⟩

/-- The competitor loop of the summary mappers keeps both scores non-negative
when no score string begins with `'-'`. -/
theorem foldl_setSummaryCompetitor_nonneg (cs : List SummaryCompetitor) (g : Game)
    (hcs : ∀ c ∈ cs, (goBytes c.Score).head? ≠ some 45)
    (hg : 0 ≤ g.HomeTeam.Score ∧ 0 ≤ g.AwayTeam.Score) :
    0 ≤ (cs.foldl setSummaryCompetitor g).HomeTeam.Score ∧
      0 ≤ (cs.foldl setSummaryCompetitor g).AwayTeam.Score := by
  induction cs generalizing g with
  | nil => exact hg
  | cons c rest ih =>
    rw [List.foldl_cons]
    apply ih _ (fun x hx => hcs x (List.mem_cons_of_mem _ hx))
    have hc := strconv.Atoi_nonneg c.Score (hcs c (List.mem_cons_self _ _))
    unfold setSummaryCompetitor
    dsimp only
    split_ifs
    · exact ⟨hc, hg.2⟩
    · exact ⟨hg.1, hc⟩

/-- C26, counterexample: the competitor score string "-5" parses without
error, and the Team that each of the four mappers builds from it has Score
-5. -/
theorem mappers_Score_negative :
    strconv.Atoi "-5" = (-5, none) ∧
    (({ Events := [{ ID := "401", Competitions := [{ Competitors :=
          [{ HomeAway := "home", Team := { DisplayName := "Bills", Abbreviation := "BUF" },
             Score := "-5" }] }] }] } : ScoreboardResponse).ToGames
        (fun _ => none)).toList.map (fun g => g.HomeTeam.Score) = [-5] ∧
    (({ Header := { ID := "401", Competitions := [{ Competitors :=
          [{ HomeAway := "home", Team := { DisplayName := "Bills", Abbreviation := "BUF" },
             Score := "-5" }] }] } } : SummaryResponse).ToGameSummary
        (fun _ => none)).map (fun s => s.Game.HomeTeam.Score) = some (-5) ∧
    (({ Header := { ID := "401", Competitions := [{ Competitors :=
          [{ HomeAway := "home", Team := { DisplayName := "Bills", Abbreviation := "BUF" },
             Score := "-5" }] }] } } : SummaryResponse).ToGameReplay).map
        (fun s => s.Game.HomeTeam.Score) = some (-5) ∧
    (({ Header := { ID := "401", Competitions := [{ Competitors :=
          [{ HomeAway := "home", Team := { DisplayName := "Bills", Abbreviation := "BUF" },
             Score := "-5" }] }] } } : SummaryResponse).ToGameStats).map
        (fun s => s.Game.HomeTeam.Score) = some (-5) := by
  refine ⟨?_, ?_, ?_, ?_, ?_⟩ <;> decide

/-- C26, amended: for every scoreboard payload in which no competitor of an
event's first competition has a score string that begins with `'-'`, every
game of `ToGames` has a home and an away Team with Score >= 0; and for every
summary payload with a header competition none of whose competitors has a
score string that begins with `'-'`, `ToGameSummary`, `ToGameReplay` and
`ToGameStats` each return a result whose game has a home and an away Team with
Score >= 0. -/
theorem mappers_Score_nonneg_without_minus (parseRFC3339 : String → Option Time) :
    (∀ r : ScoreboardResponse,
      (∀ e ∈ r.Events, ∀ comp0 others, e.Competitions = comp0 :: others →
        ∀ c ∈ comp0.Competitors, (goBytes c.Score).head? ≠ some 45) →
      ∀ g ∈ (r.ToGames parseRFC3339).toList,
        0 ≤ g.HomeTeam.Score ∧ 0 ≤ g.AwayTeam.Score) ∧
    (∀ (r : SummaryResponse) (comp : SummaryCompetition) (others : List SummaryCompetition),
      r.Header.Competitions = comp :: others →
      (∀ c ∈ comp.Competitors, (goBytes c.Score).head? ≠ some 45) →
      (∃ s, r.ToGameSummary parseRFC3339 = some s ∧
        0 ≤ s.Game.HomeTeam.Score ∧ 0 ≤ s.Game.AwayTeam.Score) ∧
      (∃ s, r.ToGameReplay = some s ∧
        0 ≤ s.Game.HomeTeam.Score ∧ 0 ≤ s.Game.AwayTeam.Score) ∧
      (∃ s, r.ToGameStats = some s ∧
        0 ≤ s.Game.HomeTeam.Score ∧ 0 ≤ s.Game.AwayTeam.Score)) := by
  constructor
  · intro r hr g hg
    rw [ToGames_toList] at hg
    change g ∈ List.filterMap _ r.Events at hg
    rw [List.mem_filterMap] at hg
    obtain ⟨e, he, hge⟩ := hg
    cases hc : e.Competitions with
    | nil => rw [hc] at hge; cases hge
    | cons comp0 others =>
      rw [hc] at hge
      dsimp only at hge
      cases hge
      unfold eventGame
      dsimp only
      apply foldl_setCompetitor_nonneg _ _ (hr e he comp0 others hc)
      cases parseRFC3339 e.Date <;> exact ⟨le_refl _, le_refl _⟩
  · intro r comp others hcomp hcs
    have hsum : 0 ≤ (summaryGame parseRFC3339 r.Header comp).HomeTeam.Score ∧
        0 ≤ (summaryGame parseRFC3339 r.Header comp).AwayTeam.Score := by
      unfold summaryGame
      dsimp only
      apply foldl_setSummaryCompetitor_nonneg _ _ hcs
      cases parseRFC3339 comp.Date <;> exact ⟨le_refl _, le_refl _⟩
    have hhead : 0 ≤ (headerGame r.Header comp).HomeTeam.Score ∧
        0 ≤ (headerGame r.Header comp).AwayTeam.Score := by
      unfold headerGame
      dsimp only
      exact foldl_setSummaryCompetitor_nonneg _ _ hcs ⟨le_refl _, le_refl _⟩
    refine ⟨?_, ?_, ?_⟩
    · have hex : ∃ s, r.ToGameSummary parseRFC3339 = some s ∧
          s.Game = summaryGame parseRFC3339 r.Header comp := by
        unfold SummaryResponse.ToGameSummary
        rw [hcomp]
        dsimp only
        cases r.Drives.Current with
        | none => exact ⟨_, rfl, rfl⟩
        | some cur =>
          dsimp only
          split_ifs
          · cases cur.Plays[cur.Plays.length - 1]? with
            | none => exact ⟨_, rfl, rfl⟩
            | some last => exact ⟨_, rfl, rfl⟩
          · exact ⟨_, rfl, rfl⟩
      obtain ⟨s, hs, hg⟩ := hex
      exact ⟨s, hs, by rw [hg]; exact hsum⟩
    · rw [ToGameReplay_eq r comp others hcomp]
      exact ⟨_, rfl, hhead⟩
    · obtain ⟨s, hs, hg, _⟩ := ToGameStats_eq r comp others hcomp
      exact ⟨s, hs, by rw [hg]; exact hhead⟩

/-- C26, amended, at the sample payloads: the scores "7" and "3" give
non-negative Team scores in all four mappers. -/
theorem mappers_Score_nonneg_without_minus_witness :
    (∀ g ∈ (({ Events := [{ ID := "401", Competitions := [{ Competitors :=
          [{ HomeAway := "home", Team := { DisplayName := "Bills", Abbreviation := "BUF" },
             Score := "7" }] }] }] } : ScoreboardResponse).ToGames (fun _ => none)).toList,
      0 ≤ g.HomeTeam.Score ∧ 0 ≤ g.AwayTeam.Score) ∧
    ((∃ s, sampleSummary.ToGameSummary (fun _ => none) = some s ∧
        0 ≤ s.Game.HomeTeam.Score ∧ 0 ≤ s.Game.AwayTeam.Score) ∧
      (∃ s, sampleSummary.ToGameReplay = some s ∧
        0 ≤ s.Game.HomeTeam.Score ∧ 0 ≤ s.Game.AwayTeam.Score) ∧
      (∃ s, sampleSummary.ToGameStats = some s ∧
        0 ≤ s.Game.HomeTeam.Score ∧ 0 ≤ s.Game.AwayTeam.Score)) :=
  ⟨(mappers_Score_nonneg_without_minus (fun _ => none)).1 _ (by
      intro e he comp0 others hc c hcm
      rw [List.mem_singleton] at he
      subst he
      cases hc
      rw [List.mem_singleton] at hcm
      subst hcm
      decide),
   (mappers_Score_nonneg_without_minus (fun _ => none)).2 sampleSummary _ _ rfl (by decide)⟩

end models

/-! ## The live view: the enter key without a summary -/

namespace ui

open models client service

/-- C27, the code at the failing input: the fetch of a payload without header
competitions succeeds and delivers the nil summary.  From `NewModel`, after a
summary with one recent play has been delivered and "down" has selected play
0, the delivery of the nil summary leaves the selection at 0 with no summary,
and the next "enter" (or space) evaluates `len(m.summary.RecentPlays)` on the
nil summary: `Update` panics.  The sibling keys "up" and "down" test
`m.summary != nil` first and return on the same state. -/
theorem Update_enter_on_nil_summary_panics :
    fetchGameDataMsg (main.sampleLib main.noCompetitionsSummary) "401547" sampleService
      = .gameDataMsg none ∧
    (∃ m, (NewModel sampleBubbles "401547" sampleService false).run sampleBubbles
        [.gameDataMsg (some (liveSummary 7 3 "p1" "NE")), .key "down", .gameDataMsg none]
        = some m ∧
      m.summary = none ∧ m.selectedPlay = 0 ∧
      m.Update sampleBubbles (.key "enter") = none ∧
      m.Update sampleBubbles (.key " ") = none ∧
      (m.Update sampleBubbles (.key "up")).isSome = true ∧
      (m.Update sampleBubbles (.key "down")).isSome = true) ∧
    (NewModel sampleBubbles "401547" sampleService false).run sampleBubbles
        [.gameDataMsg (some (liveSummary 7 3 "p1" "NE")), .key "down", .gameDataMsg none,
          .key "enter"] = none :=
  ⟨rfl, ⟨_, rfl, rfl, rfl, rfl, rfl, rfl, rfl⟩, rfl⟩

/-! ## The plain field -/

/-- Go's `strings.Repeat` returns for every count that is not negative. -/
theorem stringsRepeat_isSome (s : String) (count : Int) (h : 0 ≤ count) :
    ∃ l, stringsRepeat s count = some l := by
  unfold stringsRepeat
  rw [if_neg (by omega)]
  exact ⟨_, rfl⟩

/-- Go's `strings.Repeat` panics on a negative count. -/
theorem stringsRepeat_neg (s : String) (count : Int) (h : count < 0) :
    stringsRepeat s count = none := by
  unfold stringsRepeat
  rw [if_pos h]

/-- Go's `centerText` returns for every width that is not negative. -/
theorem centerText_isSome (s : List Nat) (width : Int) (h : 0 ≤ width) :
    ∃ l, centerText s width = some l := by
  unfold centerText
  split_ifs with h1 h2
  · omega
  · exact ⟨_, rfl⟩
  · obtain ⟨l, hl⟩ := stringsRepeat_isSome " " (Int.tdiv (width - (s.length : Int)) 2)
      (Int.tdiv_nonneg (by omega) (by decide))
    obtain ⟨r, hr⟩ := stringsRepeat_isSome " "
      (width - (s.length : Int) - Int.tdiv (width - (s.length : Int)) 2)
      (by
        rw [Int.tdiv_eq_ediv (by omega) (by decide)]
        omega)
    simp only [hl, hr, Option.bind_eq_bind, Option.some_bind]
    exact ⟨_, rfl⟩

/-- The ball offset of `renderFieldPlain` lies within `[0, fieldWidth - 4]`. -/
theorem plainBallPos_range (y : Int) : 0 ≤ plainBallPos y ∧ plainBallPos y ≤ 56 := by
  unfold plainBallPos fieldWidth
  dsimp only
  split_ifs <;> omega

/-- Go's `renderFieldPlain` panics exactly when the ball offset is above 46,
where the right padding of the ball row has a negative length. -/
theorem renderFieldPlain_eq_none_iff (y : Int) (possession : String) :
    renderFieldPlain y possession = none ↔ 46 < plainBallPos y := by
  obtain ⟨hp0, hp1⟩ := plainBallPos_range y
  obtain ⟨b, hb⟩ := stringsRepeat_isSome "‚ïê" fieldWidth (by decide)
  obtain ⟨e, he⟩ := centerText_isSome (goBytes "END") 5 (by decide)
  obtain ⟨g, hg⟩ := centerText_isSome (goBytes "") (fieldWidth - 12) (by decide)
  obtain ⟨i, hi⟩ := centerText_isSome (goBytes ("‚Üê " ++ possession ++ " BALL ‚Üí"))
    (fieldWidth - 12) (by decide)
  obtain ⟨sp, hsp⟩ := stringsRepeat_isSome " " (fieldWidth - 12) (by decide)
  obtain ⟨bf, hbf⟩ := stringsRepeat_isSome " " (plainBallPos y) hp0
  have hr0 : plainFieldRow (plainBallPos y) 0
      = some (goBytes "  ‚ïë     ‚îÇ" ++ sp ++ goBytes "‚îÇ     ‚ïë\n") := by
    unfold plainFieldRow
    simp [hsp]
  have hr2 : plainFieldRow (plainBallPos y) 2
      = some (goBytes "  ‚ïë     ‚îÇ" ++ sp ++ goBytes "‚îÇ     ‚ïë\n") := by
    unfold plainFieldRow
    simp [hsp]
  have hrange : List.range 3 = [0, 1, 2] := by decide
  unfold renderFieldPlain
  simp only [hb, he, hg, hi, hrange, Option.bind_eq_bind, Option.some_bind, List.foldlM_cons,
    List.foldlM_nil, hr0, hr2, Option.pure_def, bind_pure_comp]
  have hrow : plainFieldRow (plainBallPos y) 1 = none ↔ 46 < plainBallPos y := by
    unfold plainFieldRow
    simp only [hbf, if_true, Option.bind_eq_bind, Option.some_bind, Option.pure_def]
    by_cases h : 46 < plainBallPos y
    · rw [stringsRepeat_neg " " _ (by unfold fieldWidth; omega)]
      exact ⟨fun _ => h, fun _ => rfl⟩
    · obtain ⟨af, haf⟩ := stringsRepeat_isSome " " (fieldWidth - 12 - plainBallPos y - 2)
        (by unfold fieldWidth; omega)
      rw [haf]
      exact ⟨fun h' => (by cases h'), fun h' => absurd h' h⟩
  rw [← hrow]
  cases plainFieldRow (plainBallPos y) 1 with
  | none => exact ⟨fun _ => rfl, fun _ => rfl⟩
  | some row => exact ⟨fun h => (by cases h), fun h => (by cases h)⟩

/-- For the yards-to-endzone values 1..100 the ball offset of
`renderFieldPlain` is above 46 exactly inside the 17-yard line. -/
theorem plainBallPos_gt_46_iff (y : Int) (h1 : 1 ≤ y) (h100 : y ≤ 100) :
    46 < plainBallPos y ↔ y ≤ 16 := by
  interval_cases y <;> decide

/-- C28, the code against the claim: for every yards-to-endzone value in
1..100 and every possession, `renderFieldPlain` panics exactly when the value
is at most 16; there the ball offset, clamped to `[0, 56]`, is above 46 and
the right padding of the ball row, `strings.Repeat(" ", 46 - ballPos)`, has a
negative count. -/
theorem renderFieldPlain_panics_iff (y : Int) (possession : String)
    (h1 : 1 ≤ y) (h100 : y ≤ 100) :
    (renderFieldPlain y possession = none ↔ y ≤ 16) ∧
    (y ≤ 16 ↔ fieldWidth - 12 - plainBallPos y - 2 < 0) := by
  have h := plainBallPos_gt_46_iff y h1 h100
  refine ⟨(renderFieldPlain_eq_none_iff y possession).trans h, h.symm.trans ?_⟩
  unfold fieldWidth
  constructor <;> intro h' <;> omega

/-- C28, the code at the failing input: ten yards from the end zone the ball
offset of `renderFieldPlain` is 50, the right padding of the ball row is
`strings.Repeat(" ", -4)`, and the call panics; so does the plain live view's
field for a summary whose current play ended at the 10.  The offset is 55 at
1 yard and 47 at 16 yards (both panic) and 46 at 17 yards, the first value
that renders. -/
theorem renderFieldPlain_panics_iff_witness :
    renderFieldPlain 10 "BUF" = none ∧
    plainBallPos 10 = 50 ∧ fieldWidth - 12 - plainBallPos 10 - 2 = -4 ∧
    renderPlainField { liveSummary 7 3 "p1" "BUF" with YardsToEndzone := 10 } = none ∧
    plainBallPos 1 = 55 ∧ renderFieldPlain 1 "BUF" = none ∧
    plainBallPos 16 = 47 ∧ renderFieldPlain 16 "BUF" = none ∧
    plainBallPos 17 = 46 ∧ (renderFieldPlain 17 "BUF").isSome = true ∧
    (renderFieldPlain 50 "BUF").isSome = true := by
  refine ⟨(renderFieldPlain_panics_iff 10 "BUF" (by decide) (by decide)).1.mpr (by decide),
    ?_, ?_, ?_, ?_, ?_, ?_, ?_, ?_, ?_, ?_⟩ <;> decide

end ui

/-! ## The stats mode -/

namespace main
open models client service formatter

/-- C29, the code at the failing input: for the payload whose header has no
competitions `ToGameStats` returns nil, `GetGameStats` returns that nil
pointer with a nil error, and `FormatGameStats`, plain or styled, reads
`stats.Game` through it: the call panics instead of producing a string, and
so does `runStatsMode`.  On the sample payload with a header competition the
mode prints the statistics. -/
theorem runStatsMode_panics_without_competitions :
    noCompetitionsSummary.ToGameStats = none ∧
    (GetGameStats (sampleLib noCompetitionsSummary) ui.sampleService "401547").result
      = .ok none ∧
    (∀ (f : TerminalFormatter) (t : Texts), f.FormatGameStats t none = none) ∧
    runStatsMode (sampleLib noCompetitionsSummary) sampleTexts ui.sampleService
      (NewTerminalFormatter 80 true) "401547" = .panicked ∧
    runStatsMode (sampleLib noCompetitionsSummary) sampleTexts ui.sampleService
      (NewTerminalFormatter 80 false) "401547" = .panicked ∧
    runStatsMode (sampleLib sampleStatsSummary) sampleTexts ui.sampleService
      (NewTerminalFormatter 80 true) "401547" = .printed "plain statistics" := by
  refine ⟨rfl, rfl, ?_, rfl, rfl, rfl⟩
  intro f t
  unfold TerminalFormatter.FormatGameStats
  split_ifs <;> rfl

end main

/-! ## The replay view: pending auto-advance ticks -/

namespace ui

open models client service

/-- C30, the code at the failing input: on a loaded replay of ten plays,
pressing space three times (on, off, on) before the first tick is delivered
leaves two auto-advance ticks pending, and a fourth and fifth press leave
three; with two ticks pending, the delivery of both moves the cursor from
play 0 to play 2 and schedules two more, so the cursor advances twice per
interval.  A single press leaves one tick pending and its delivery moves the
cursor by one. -/
theorem ReplayUpdate_toggle_leaves_two_ticks_pending :
    ((sampleReplayModel 10 0).runPending 0 [.key " ", .key " ", .key " "]).map
        (fun p => (p.1.playIndex, p.1.autoPlay, p.2)) = some (0, true, 2) ∧
    ((sampleReplayModel 10 0).runPending 0
        [.key " ", .key " ", .key " ", .key " ", .key " "]).map
        (fun p => (p.1.playIndex, p.1.autoPlay, p.2)) = some (0, true, 3) ∧
    ((sampleReplayModel 10 0).runPending 0
        [.key " ", .key " ", .key " ", .replayAutoTickMsg, .replayAutoTickMsg]).map
        (fun p => (p.1.playIndex, p.1.autoPlay, p.2)) = some (2, true, 2) ∧
    ((sampleReplayModel 10 0).runPending 0 [.key " ", .replayAutoTickMsg]).map
        (fun p => (p.1.playIndex, p.1.autoPlay, p.2)) = some (1, true, 1) := by
  refine ⟨?_, ?_, ?_, ?_⟩ <;> decide

end ui
